import Mathlib

/-!
# DevOptic monitoring backend: pipeline orchestration, endpoint monitoring, WebSocket hub

A shallow embedding of four packages of the backend, each in a namespace of its own:
* `Gitlab`: `internal/gitlab` (types.go, postgres_repository.go, service.go);
* `Monitor`: `internal/monitor` (repository_postgres.go, service.go, scheduler.go);
* `Handlers`: the scheduler handlers of `internal/api/handlers/monitor_handler.go`;
* `Websocket`: `internal/websocket/websocket.go`.

The definitions of all four come first, the theorems after them. The conventions below are
those of `Gitlab`; the other packages state theirs where their definitions begin.

Modelling conventions
* Go strings are `String`; `PipelineStatus` and `ServiceType` are string types in the source and
  stay strings here, so that a status outside the five constants can be represented.
* `time.Time` is `Option Nat`: `none` is the zero value `time.Time{}` (also used for SQL NULL),
  `some t` is the instant `t` nanoseconds on the model clock. `time.Duration` is an `Int` of
  nanoseconds, wrapped to 64 bits where the source does arithmetic on it.
* The relational store is a record of row lists, one list per table. Every repository method
  is one or more statements against it. A statement may fail: `Env.dbFault n` is the failure, if
  any, of the `n`-th statement issued so far (context expiry, constraint violations and connection
  loss all show up this way). A failed statement changes no row. One constraint is modelled in
  the rows themselves: the primary key of `pipeline_dependencies` (`AddMicroServiceDependency`).
* The CI provider, `uuid.New` and `uuid.Parse` are libraries outside the repository; they are
  fields of `Env`. CI answers are indexed by the number of CI calls made so far.
* `World.trace` records, in order, the externally visible actions (service fetches, CI calls,
  returns of the poll loop, timer waits, hub broadcasts).
* E-mail: `SendHTML` and the detached goroutines that call it are outside the model; their
  results never reach the store, the return value or the hub. What `TriggerPipelineUnit`,
  `ApprovePipelineRun` and `RejectPipelineRun` do for the notification before they return is
  modelled: the address lookup, the joined read of the request and, in the latter two, the
  rendering of the document, which dereferences the pointer it is given.
-/

namespace Gitlab

/-! ## types.go -/

abbrev PipelineStatus := String

abbrev StatusPending : PipelineStatus := "pending"
abbrev StatusAccepted : PipelineStatus := "accepted"
abbrev StatusRejected : PipelineStatus := "rejected"
abbrev StatusRunning : PipelineStatus := "running"
abbrev StatusCompleted : PipelineStatus := "completed"

abbrev ServiceType := String

abbrev MacroService : ServiceType := "macro"
abbrev MicroService : ServiceType := "micro"

/-- Instants: `none` is the zero `time.Time`, `some t` is `t` nanoseconds on the model clock. -/
abbrev Time := Option Nat

/-- Durations in nanoseconds (`time.Duration` is an `int64`). -/
abbrev Duration := Int

/-- Text form of a `uuid.UUID`; the empty string is `uuid.Nil`. -/
abbrev UUID := String

structure Service where
  ID : String := ""
  GitLabRepoID : String := ""
  Name : String := ""
  URL : String := ""
  Type_ : ServiceType := ""
  CreatedAt : Time := none
  UpdatedAt : Time := none
deriving DecidableEq, Repr

structure PipelineUnit where
  ID : String := ""
  MacroServiceID : String := ""
  MicroServiceIDs : List String := []
  CreatedAt : Time := none
  UpdatedAt : Time := none
deriving DecidableEq, Repr

structure PipelineRun where
  ID : String := ""
  PipelineUnitID : String := ""
  Status : PipelineStatus := ""
  CreatedAt : Time := none
  UpdatedAt : Time := none
  GitLabPipelineID : Int := 0
  ApproverID : UUID := ""
  ExecutionTime : Duration := 0
  SelectedMicroServiceIDs : List String := []
deriving DecidableEq, Repr

structure AuthorizationRequest where
  ID : String := ""
  PipelineRunID : String := ""
  RequesterID : String := ""
  RequesterName : String := ""
  ApproverID : Option UUID := none
  ApproverName : String := ""
  Status : PipelineStatus := ""
  CreatedAt : Time := none
  UpdatedAt : Time := none
  Comment : String := ""
  MacroServiceName : String := ""
  MicroServiceNames : List String := []
deriving DecidableEq, Repr

structure ExecutionHistory where
  ID : String := ""
  PipelineRunID : String := ""
  RequesterID : String := ""
  RequesterName : String := ""
  ApproverID : UUID := ""
  ApproverName : String := ""
  Status : PipelineStatus := ""
  StartedAt : Time := none
  CompletedAt : Time := none
  ErrorMessage : String := ""
  MacroServiceName : String := ""
  MicroServiceNames : List String := []
  ExecutionTime : Duration := 0
  PipelineUnitID : UUID := ""
deriving DecidableEq, Repr

/-- A row of the listing `ListPipelineRunsWithServices`. Its four name columns (of the main
service, of the selected micro-services, of requester and approver), read from `services` and
from the table `users` of package `auth`, are not modelled. -/
structure PipelineRunStatus where
  ID : String := ""
  PipelineUnitID : String := ""
  Status : String := ""
  CreatedAt : Time := none
  UpdatedAt : Time := none
  GitLabPipelineID : Int := 0
deriving DecidableEq, Repr

structure PipelineStatusResponse where
  Running : List PipelineRunStatus := []
  Pending : List PipelineRunStatus := []
  Completed : List PipelineRunStatus := []
  Failed : List PipelineRunStatus := []
  Total : Int := 0
deriving DecidableEq, Repr

/-! ## Errors -/

/-- Error values returned by the service. Errors of different origin are different values even
when their messages coincide, as with Go `error`s. The last constructor is no returned value but
a run-time panic: a call that ends with it does not return to its caller. -/
inductive Err where
  /-- An error returned by a persistence statement. -/
  | db (msg : String)
  /-- The error `fmt.Errorf("invalid selected microservice ID: %s", id)`. -/
  | invalidSelection (id : String)
  /-- The error `fmt.Errorf("authorization request is not pending")`. -/
  | notPending
  /-- The error of `uuid.Parse` on the given text. -/
  | uuidParse (text : String)
  /-- The error `ctx.Err()` of a done context. -/
  | ctxDone
  /-- The error `fmt.Errorf("failed to fetch microservice %s (index %d): %w", id, i, err)`. -/
  | fetchService (id : String) (index : Nat) (cause : Err)
  /-- The error `fmt.Errorf("microservice ID %s not found", id)`. -/
  | serviceNotFound (id : String)
  /-- The error `fmt.Errorf("failed to fetch microservices after %d attempts: %w", n, lastErr)`. -/
  | fetchRetries (attempts : Int) (cause : Err)
  /-- The same error when `lastErr` is nil (the loop body never ran). -/
  | fetchRetriesNil (attempts : Int)
  /-- An error returned by the CI provider client. -/
  | ci (msg : String)
  /-- The error `fmt.Errorf("pipeline %d timed out after %v", pipelineID, maxDuration)`. -/
  | pollTimeout (pipelineID : Int)
  /-- The error `fmt.Errorf("failed to get pipeline %d status: %w", pipelineID, err)`. -/
  | pollStatus (pipelineID : Int) (cause : Err)
  /-- The error `fmt.Errorf("pipeline %d failed with status %s", pipelineID, status)`. -/
  | pollFailed (pipelineID : Int) (status : String)
  /-- The error `fmt.Errorf(errorMessage)` returned by `handlePipelineError`. -/
  | chain (errorMessage : String)
  /-- The error `fmt.Errorf("invalid macro service ID: %w", err)` with the error of the lookup. -/
  | invalidMacroService (cause : Err)
  /-- The same error when `err` is nil (the service found is no macro service). -/
  | invalidMacroServiceNil
  /-- The error `fmt.Errorf("invalid micro service ID: %s", id)`. -/
  | invalidMicroService (id : String)
  /-- The error `auth.ErrUserNotFound`. -/
  | userNotFound
  /-- The panic raised by dereferencing a nil pointer. -/
  | nilDereference
deriving DecidableEq, Repr

/-- The text of `err.Error()`, as used by `%v` and `%w`. -/
def Err.message : Err → String
  | .db msg => msg
  | .invalidSelection id => "invalid selected microservice ID: " ++ id
  | .notPending => "authorization request is not pending"
  | .uuidParse text => "invalid UUID: " ++ text
  | .ctxDone => "context deadline exceeded"
  | .fetchService id index cause =>
      "failed to fetch microservice " ++ id ++ " (index " ++ toString index ++ "): " ++ cause.message
  | .serviceNotFound id => "microservice ID " ++ id ++ " not found"
  | .fetchRetries attempts cause =>
      "failed to fetch microservices after " ++ toString attempts ++ " attempts: " ++ cause.message
  | .fetchRetriesNil attempts =>
      "failed to fetch microservices after " ++ toString attempts ++ " attempts: %!w(<nil>)"
  | .ci msg => msg
  | .pollTimeout pipelineID => "pipeline " ++ toString pipelineID ++ " timed out after 30m0s"
  | .pollStatus pipelineID cause =>
      "failed to get pipeline " ++ toString pipelineID ++ " status: " ++ cause.message
  | .pollFailed pipelineID status =>
      "pipeline " ++ toString pipelineID ++ " failed with status " ++ status
  | .chain errorMessage => errorMessage
  | .invalidMacroService cause => "invalid macro service ID: " ++ cause.message
  | .invalidMacroServiceNil => "invalid macro service ID: %!w(<nil>)"
  | .invalidMicroService id => "invalid micro service ID: " ++ id
  | .userNotFound => "user not found"
  | .nilDereference => "runtime error: invalid memory address or nil pointer dereference"

/-! ## The world: store, clock, counters and trace -/

/-- A row of `pipeline_dependencies`. -/
structure Dependency where
  PipelineUnitID : String
  MicroServiceID : String
  OrderIndex : Int
deriving DecidableEq, Repr

/-- The tables created by `initTables`. Rows of `pipeline_units` carry no dependency list
(`MicroServiceIDs` is filled by `GetPipelineUnit` from `pipeline_dependencies`). -/
structure Store where
  services : List Service := []
  pipelineUnits : List PipelineUnit := []
  pipelineDependencies : List Dependency := []
  pipelineRuns : List PipelineRun := []
  authorizationRequests : List AuthorizationRequest := []
  executionHistory : List ExecutionHistory := []
deriving DecidableEq, Repr

/-- Externally visible actions, in the order they happen. -/
inductive Event where
  /-- A call `repo.GetServiceByID(ctx, id)` made by `fetchMicroServices`. -/
  | getService (id : String)
  /-- A call `Pipelines.CreatePipeline(projectID, {Ref, Variables})`. -/
  | createPipeline (projectID : String) (ref : String) (vars : List (String × String))
  /-- A call `Pipelines.GetPipeline(projectID, pipelineID)`. -/
  | getPipeline (projectID : String) (pipelineID : Int)
  /-- The return of `pollPipelineStatus(ctx, projectID, pipelineID)` with the given error. -/
  | pollReturned (projectID : String) (pipelineID : Int) (err : Option Err)
  /-- A call `s.fetchMicroServices(ctx, ids)` made by iteration `attempt` of
  `fetchMicroServicesWithRetry`. -/
  | fetchAttempt (attempt : Nat)
  /-- A timer wait `time.After(d)`; `fired` is false when the context was done first. -/
  | wait (d : Duration) (fired : Bool)
  /-- A message handed to `wsHub.Broadcast`; `enriched` tells the full form from the basic one. -/
  | broadcast (runID : String) (status : PipelineStatus) (message : String) (enriched : Bool)
deriving DecidableEq, Repr

structure World where
  store : Store := {}
  /-- Nanoseconds on the model clock; `time.Now()` is `some clock`. -/
  clock : Nat := 0
  /-- Number of persistence statements issued so far. -/
  dbCalls : Nat := 0
  /-- Number of CI provider calls made so far. -/
  ciCalls : Nat := 0
  /-- Number of `uuid.New()` calls made so far. -/
  uuidCalls : Nat := 0
  trace : List Event := []
deriving DecidableEq, Repr

/-- The collaborators outside the repository. -/
structure Env where
  /-- Failure, if any, of the `n`-th persistence statement. -/
  dbFault : Nat → Option String
  /-- Text of the `n`-th `uuid.New().String()`. -/
  newUUID : Nat → String
  /-- The library function `uuid.Parse`. -/
  uuidParse : String → Option UUID
  /-- Table `users` (owned by package `auth`): the address `COALESCE(delivery_email, email)` of
  the user with this ID, `none` when there is no such user. -/
  deliveryEmail : UUID → Option String
  /-- Answer of the `n`-th CI call when it is `CreatePipeline(projectID, ref, vars)`. -/
  createPipeline : Nat → String → String → List (String × String) → Except String Int
  /-- Answer of the `n`-th CI call when it is `GetPipeline(projectID, pipelineID)`: the status. -/
  getPipeline : Nat → String → Int → Except String String

/-- A context: the clock instant at which it becomes done (deadline or cancellation),
`none` when it never does. -/
structure Ctx where
  doneAt : Option Nat := none
deriving DecidableEq, Repr

/-- Whether `ctx.Done()` is closed at instant `t`. -/
def Ctx.doneBy (ctx : Ctx) (t : Nat) : Bool :=
  match ctx.doneAt with
  | none => false
  | some d => decide (d ≤ t)

def now (w : World) : Time := some w.clock

/-- Issue one persistence statement: the fault of this statement, and the world with the
statement counted. -/
def stmt (env : Env) (w : World) : Option String × World :=
  (env.dbFault w.dbCalls, { w with dbCalls := w.dbCalls + 1 })

/-- The call `uuid.New().String()`. -/
def newID (env : Env) (w : World) : String × World :=
  (env.newUUID w.uuidCalls, { w with uuidCalls := w.uuidCalls + 1 })

def emit (e : Event) (w : World) : World :=
  { w with trace := w.trace ++ [e] }

/-- Record a call to the CI provider: the event, and the call counted. -/
def ciCall (e : Event) (w : World) : World :=
  emit e { w with ciCalls := w.ciCalls + 1 }

/-! ## postgres_repository.go -/

/-- Row lookup `SELECT ... FROM services WHERE id = $1`; no row gives `Service{}` and no error. -/
def GetServiceByID (env : Env) (id : String) (w : World) : Except Err Service × World :=
  match stmt env w with
  | (some e, w1) => (.error (.db e), w1)
  | (none, w1) => (.ok ((w.store.services.find? (fun s => s.ID == id)).getD {}), w1)

/-- The query `SELECT micro_service_id FROM pipeline_dependencies WHERE pipeline_unit_id = $1
ORDER BY order_index`. -/
def GetMicroServiceDependencies (env : Env) (pipelineUnitID : String) (w : World) :
    Except Err (List String) × World :=
  match stmt env w with
  | (some e, w1) => (.error (.db e), w1)
  | (none, w1) =>
    let rows := w.store.pipelineDependencies.filter (fun d => d.PipelineUnitID == pipelineUnitID)
    (.ok ((rows.insertionSort (fun a b => a.OrderIndex ≤ b.OrderIndex)).map
      (fun d => d.MicroServiceID)), w1)

/-- Reads the unit row, then its dependency list; no row gives `PipelineUnit{}` and no error. -/
def GetPipelineUnit (env : Env) (id : String) (w : World) : Except Err PipelineUnit × World :=
  match stmt env w with
  | (some e, w1) => (.error (.db e), w1)
  | (none, w1) =>
    match w.store.pipelineUnits.find? (fun u => u.ID == id) with
    | none => (.ok {}, w1)
    | some row =>
      match GetMicroServiceDependencies env id w1 with
      | (.error e, w2) => (.error e, w2)
      | (.ok deps, w2) => (.ok { row with MicroServiceIDs := deps }, w2)

/-- The repository method `CreatePipelineUnit`: the statement `INSERT INTO pipeline_units (id,
macro_service_id, created_at, updated_at) ... RETURNING` the same four columns. The dependency
list is no column of the row and is not in the returned value. -/
def PostgresRepository.CreatePipelineUnit (env : Env) (unit : PipelineUnit) (w : World) :
    Except Err PipelineUnit × World :=
  let (id, w0) := if unit.ID == "" then newID env w else (unit.ID, w)
  let row : PipelineUnit :=
    { ID := id, MacroServiceID := unit.MacroServiceID, CreatedAt := now w0, UpdatedAt := now w0 }
  match stmt env w0 with
  | (some e, w1) => (.error (.db e), w1)
  | (none, w1) =>
    (.ok row, { w1 with store :=
      { w1.store with pipelineUnits := w1.store.pipelineUnits ++ [row] } })

/-- The statement `INSERT INTO pipeline_dependencies (pipeline_unit_id, micro_service_id,
order_index)`. The table has `PRIMARY KEY (pipeline_unit_id, micro_service_id)`: a second link
of the same unit to the same micro-service is refused. -/
def AddMicroServiceDependency (env : Env) (pipelineUnitID microServiceID : String)
    (orderIndex : Int) (w : World) : Option Err × World :=
  match stmt env w with
  | (some e, w1) => (some (.db e), w1)
  | (none, w1) =>
    if w1.store.pipelineDependencies.any (fun d =>
        d.PipelineUnitID == pipelineUnitID && d.MicroServiceID == microServiceID) then
      (some (.db "duplicate key value violates unique constraint pipeline_dependencies_pkey"),
        w1)
    else
      (none, { w1 with store := { w1.store with pipelineDependencies :=
        w1.store.pipelineDependencies ++ [⟨pipelineUnitID, microServiceID, orderIndex⟩] } })

def CreatePipelineRun (env : Env) (run : PipelineRun) (w : World) :
    Except Err PipelineRun × World :=
  let (id, w0) := if run.ID == "" then newID env w else (run.ID, w)
  let row : PipelineRun := { run with ID := id, CreatedAt := now w0, UpdatedAt := now w0 }
  match stmt env w0 with
  | (some e, w1) => (.error (.db e), w1)
  | (none, w1) =>
    (.ok row, { w1 with store := { w1.store with pipelineRuns := w1.store.pipelineRuns ++ [row] } })

/-- Row lookup on `pipeline_runs`; no row gives `PipelineRun{}` and no error. -/
def GetPipelineRun (env : Env) (id : String) (w : World) : Except Err PipelineRun × World :=
  match stmt env w with
  | (some e, w1) => (.error (.db e), w1)
  | (none, w1) => (.ok ((w.store.pipelineRuns.find? (fun r => r.ID == id)).getD {}), w1)

/-- The statement `UPDATE pipeline_runs SET status = $1, updated_at = $2 WHERE id = $3`. -/
def UpdatePipelineRunStatus (env : Env) (id : String) (status : PipelineStatus) (w : World) :
    Option Err × World :=
  match stmt env w with
  | (some e, w1) => (some (.db e), w1)
  | (none, w1) =>
    let rows := w1.store.pipelineRuns.map
      (fun r => if r.ID == id then { r with Status := status, UpdatedAt := now w1 } else r)
    (none, { w1 with store := { w1.store with pipelineRuns := rows } })

/-- The statement `UPDATE pipeline_runs SET status = $1, updated_at = $2, gitlab_pipeline_id = $3,
approver_id = $4, execution_time = $5 WHERE id = $6`, fed from the given run value. -/
def UpdatePipelineRun (env : Env) (run : PipelineRun) (w : World) : Option Err × World :=
  match stmt env w with
  | (some e, w1) => (some (.db e), w1)
  | (none, w1) =>
    let rows := w1.store.pipelineRuns.map
      (fun r => if r.ID == run.ID then
        { r with Status := run.Status, UpdatedAt := now w1, GitLabPipelineID := run.GitLabPipelineID,
                 ApproverID := run.ApproverID, ExecutionTime := run.ExecutionTime }
      else r)
    (none, { w1 with store := { w1.store with pipelineRuns := rows } })

def CreateAuthorizationRequest (env : Env) (request : AuthorizationRequest) (w : World) :
    Except Err AuthorizationRequest × World :=
  let (id, w0) := if request.ID == "" then newID env w else (request.ID, w)
  let row : AuthorizationRequest :=
    { ID := id, PipelineRunID := request.PipelineRunID, RequesterID := request.RequesterID,
      ApproverID := request.ApproverID, Status := request.Status, CreatedAt := now w0,
      UpdatedAt := now w0, Comment := request.Comment }
  match stmt env w0 with
  | (some e, w1) => (.error (.db e), w1)
  | (none, w1) =>
    (.ok row, { w1 with store :=
      { w1.store with authorizationRequests := w1.store.authorizationRequests ++ [row] } })

/-- Row lookup on `authorization_requests`, with `COALESCE(approver_id::text, '')` read into the
approver pointer; no row gives `AuthorizationRequest{}` and no error. -/
def GetAuthorizationRequest (env : Env) (id : String) (w : World) :
    Except Err AuthorizationRequest × World :=
  match stmt env w with
  | (some e, w1) => (.error (.db e), w1)
  | (none, w1) =>
    match w.store.authorizationRequests.find? (fun a => a.ID == id) with
    | none => (.ok {}, w1)
    | some row => (.ok { row with ApproverID := some (row.ApproverID.getD "") }, w1)

/-- Updates status and comment, and the approver when the variadic `approverID` has a non-empty
first element. -/
def UpdateAuthorizationRequest (env : Env) (id : String) (status : PipelineStatus)
    (comment : String) (approverID : List String) (w : World) : Option Err × World :=
  match stmt env w with
  | (some e, w1) => (some (.db e), w1)
  | (none, w1) =>
    let upd : AuthorizationRequest → AuthorizationRequest :=
      match approverID with
      | a :: _ =>
        if a != "" then
          fun r => { r with Status := status, Comment := comment, ApproverID := some a,
                            UpdatedAt := now w1 }
        else fun r => { r with Status := status, Comment := comment, UpdatedAt := now w1 }
      | [] => fun r => { r with Status := status, Comment := comment, UpdatedAt := now w1 }
    let rows := w1.store.authorizationRequests.map (fun r => if r.ID == id then upd r else r)
    (none, { w1 with store := { w1.store with authorizationRequests := rows } })

/-- The joined read `GetAuthorizationRequestByID`: the request row, inner-joined with the
requester's row of `users` (on `ar.requester_id::uuid`, a cast that fails on a text that is no
UUID), with its run and with the run's unit. The returned pointer is nil (`none`) when the
statement fails and when the join has no row (`return nil, nil`). The name columns taken from
the joined tables are not modelled. -/
def GetAuthorizationRequestByID (env : Env) (id : String) (w : World) :
    Except Err (Option AuthorizationRequest) × World :=
  match stmt env w with
  | (some e, w1) => (.error (.db e), w1)
  | (none, w1) =>
    match w.store.authorizationRequests.find? (fun a => a.ID == id) with
    | none => (.ok none, w1)
    | some ar =>
      match env.uuidParse ar.RequesterID with
      | none => (.error (.db "invalid input syntax for type uuid"), w1)
      | some requester =>
        if (env.deliveryEmail requester).isSome &&
            w.store.pipelineRuns.any (fun pr => pr.ID == ar.PipelineRunID &&
              w.store.pipelineUnits.any (fun pu => pu.ID == pr.PipelineUnitID))
        then (.ok (some ar), w1)
        else (.ok none, w1)

/-- The pointer a caller holds after `p, _ := f()`: nil when `f` returned an error. -/
def pointerOf {α : Type} (r : Except Err (Option α)) : Option α :=
  match r with
  | .ok p => p
  | .error _ => none

def CreateExecutionHistory (env : Env) (history : ExecutionHistory) (w : World) :
    Except Err ExecutionHistory × World :=
  let (id, w0) := if history.ID == "" then newID env w else (history.ID, w)
  let row : ExecutionHistory :=
    { ID := id, PipelineRunID := history.PipelineRunID, RequesterID := history.RequesterID,
      ApproverID := history.ApproverID, Status := history.Status, StartedAt := now w0,
      CompletedAt := history.CompletedAt, ExecutionTime := history.ExecutionTime,
      ErrorMessage := history.ErrorMessage }
  match stmt env w0 with
  | (some e, w1) => (.error (.db e), w1)
  | (none, w1) =>
    (.ok row, { w1 with store :=
      { w1.store with executionHistory := w1.store.executionHistory ++ [row] } })

/-- The statement `UPDATE execution_history SET error_message = $1, completed_at = $2, ...
WHERE id = $4`. -/
def UpdateExecutionHistoryError (env : Env) (id errorMessage : String) (w : World) :
    Option Err × World :=
  match stmt env w with
  | (some e, w1) => (some (.db e), w1)
  | (none, w1) =>
    let rows := w1.store.executionHistory.map
      (fun h => if h.ID == id then { h with ErrorMessage := errorMessage, CompletedAt := now w1 }
        else h)
    (none, { w1 with store := { w1.store with executionHistory := rows } })

/-- The method `Duration.Milliseconds`: integer division truncating toward zero. -/
def milliseconds (d : Duration) : Int := Int.tdiv d 1000000

/-- The statement `UPDATE execution_history SET status = $1, completed_at = $2,
execution_time = $3, error_message = $4 WHERE id = $5`; a zero time, a zero duration and an
empty message are written as NULL, the duration otherwise in milliseconds. -/
def UpdateExecutionHistory (env : Env) (history : ExecutionHistory) (w : World) :
    Option Err × World :=
  match stmt env w with
  | (some e, w1) => (some (.db e), w1)
  | (none, w1) =>
    let executionTime : Int :=
      if history.ExecutionTime != 0 then milliseconds history.ExecutionTime else 0
    let rows := w1.store.executionHistory.map
      (fun h => if h.ID == history.ID then
        { h with Status := history.Status, CompletedAt := history.CompletedAt,
                 ExecutionTime := executionTime, ErrorMessage := history.ErrorMessage }
      else h)
    (none, { w1 with store := { w1.store with executionHistory := rows } })

/-- The rows of the query of `ListPipelineRunsWithServices(runID)`: every run (only the one
with that ID when `runID` is not empty) that joins with its pipeline unit, once per
authorization request of the run (once when it has none), ordered by `created_at` descending;
rows of equal `created_at` keep the order of the table. The casts `ar.requester_id::uuid` and
`ar.approver_id::uuid` on the joined requests fail on a text that is no UUID, and the query
with them. -/
def pipelineRunsWithServices (env : Env) (st : Store) (runID : String) :
    Except Err (List PipelineRunStatus) :=
  let runs := st.pipelineRuns.filter (fun pr => (runID == "" || pr.ID == runID) &&
    st.pipelineUnits.any (fun pu => pu.ID == pr.PipelineUnitID))
  let requestsOf := fun (pr : PipelineRun) =>
    st.authorizationRequests.filter (fun ar => ar.PipelineRunID == pr.ID)
  let castFails := fun (ar : AuthorizationRequest) =>
    (env.uuidParse ar.RequesterID).isNone ||
    (match ar.ApproverID with
     | none => false
     | some a => (env.uuidParse a).isNone)
  if runs.any (fun pr => (requestsOf pr).any castFails) then
    .error (.db "invalid input syntax for type uuid")
  else
    let joined := runs.flatMap (fun pr => List.replicate (max 1 (requestsOf pr).length) pr)
    .ok ((joined.insertionSort (fun a b => b.CreatedAt.getD 0 ≤ a.CreatedAt.getD 0)).map
      (fun pr => { ID := pr.ID, PipelineUnitID := pr.PipelineUnitID, Status := pr.Status,
                   CreatedAt := pr.CreatedAt, UpdatedAt := pr.UpdatedAt,
                   GitLabPipelineID := pr.GitLabPipelineID }))

/-- The repository method `ListPipelineRunsWithServices`: one statement. -/
def ListPipelineRunsWithServices (env : Env) (runID : String) (w : World) :
    Except Err (List PipelineRunStatus) × World :=
  match stmt env w with
  | (some e, w1) => (.error (.db e), w1)
  | (none, w1) => (pipelineRunsWithServices env w.store runID, w1)

/-- Whether `GetPipelineStatusByRunID` finds the run when its statement does not fail: the query
of `ListPipelineRunsWithServices(runID)` gives no error and at least one row. -/
def hasPipelineRunsWithServices (env : Env) (st : Store) (runID : String) : Bool :=
  match pipelineRunsWithServices env st runID with
  | .ok (_ :: _) => true
  | _ => false

/-! ## auth/repository_user_postgres.go -/

/-- The statement `SELECT COALESCE(delivery_email, email) FROM users WHERE id = $1`; no row
gives `ErrUserNotFound`. -/
def GetDeliveryEmail (env : Env) (userID : UUID) (w : World) : Except Err String × World :=
  match stmt env w with
  | (some e, w1) => (.error (.db ("failed to get delivery email: " ++ e)), w1)
  | (none, w1) =>
    match env.deliveryEmail userID with
    | none => (.error .userNotFound, w1)
    | some address => (.ok address, w1)

/-! ## utils.go -/

/-- The first statement of `RenderAuthorizationRequestToHTML` prints `*req`, which panics on a
nil pointer; on a request the document is produced (its text is not modelled). -/
def RenderAuthorizationRequestToHTML (req : Option AuthorizationRequest) : Option Err :=
  match req with
  | none => some .nilDereference
  | some _ => none

/-! ## service.go: broadcast, trigger, approve, reject -/

/-- Hands a status change to the hub: the enriched form when `GetPipelineStatusByRunID` finds
the run (one statement), the basic form of `broadcastBasicUpdate` otherwise. -/
def broadcastPipelineStatusChange (env : Env) (runID : String) (status : PipelineStatus)
    (message : String) (w : World) : World :=
  match stmt env w with
  | (some _, w1) => emit (.broadcast runID status message false) w1
  | (none, w1) =>
    emit (.broadcast runID status message (hasPipelineRunsWithServices env w1.store runID)) w1

/-- The map built by `for _, id := range unit.MicroServiceIDs { validMicroIDs[id] = true }`;
a missing key reads as `false`. -/
def validMicroIDs (ids : List String) : String → Bool :=
  ids.foldl (fun m id => fun k => if k == id then true else m k) (fun _ => false)

/-- The validation loop of `TriggerPipelineUnit`: the first selected ID that is not a key of the
map, if any. -/
def validateSelection (valid : String → Bool) : List String → Option String
  | [] => none
  | id :: rest => if !valid id then some id else validateSelection valid rest

/-- The call `TriggerPipelineUnit` up to its return. The Pending broadcast is made only when
the joined read of the new request returned no error; the goroutine that mails the requester
is detached. -/
def TriggerPipelineUnit (env : Env) (pipelineUnitID requesterID : String)
    (selectedMicroServiceIDs : List String) (w : World) : Except Err PipelineRun × World :=
  match GetPipelineUnit env pipelineUnitID w with
  | (.error err, w1) => (.error err, w1)
  | (.ok unit, w1) =>
    match validateSelection (validMicroIDs unit.MicroServiceIDs) selectedMicroServiceIDs with
    | some id => (.error (.invalidSelection id), w1)
    | none =>
      let run : PipelineRun :=
        { PipelineUnitID := pipelineUnitID, Status := StatusPending,
          SelectedMicroServiceIDs := selectedMicroServiceIDs }
      match CreatePipelineRun env run w1 with
      | (.error err, w2) => (.error err, w2)
      | (.ok createdRun, w2) =>
        let authRequest : AuthorizationRequest :=
          { PipelineRunID := createdRun.ID, RequesterID := requesterID, ApproverID := none,
            Status := StatusPending }
        match CreateAuthorizationRequest env authRequest w2 with
        | (.error err, w3) => (.error err, w3)
        | (.ok req, w3) =>
          match GetAuthorizationRequestByID env req.ID w3 with
          | (.error _, w4) => (.ok createdRun, w4)
          | (.ok _, w4) =>
            (.ok createdRun, broadcastPipelineStatusChange env createdRun.ID StatusPending
              "Pipeline execution triggered, awaiting approval" w4)

/-- What `ApprovePipelineRun` hands to its background goroutine. -/
structure ChainLaunch where
  run : PipelineRun
  unit : PipelineUnit
  history : ExecutionHistory
deriving DecidableEq, Repr

/-- The synchronous part of `ApprovePipelineRun`: the returned error, the world at return, and
the arguments of the execution goroutine when one is started. Before the goroutine is started
the approval mail is prepared: the requester's address is looked up (a failure is logged) and
the joined read of the request is rendered, which panics on a nil pointer. -/
def ApprovePipelineRun (env : Env) (authRequestID approverID comment : String) (w : World) :
    Option Err × World × Option ChainLaunch :=
  match GetAuthorizationRequest env authRequestID w with
  | (.error err, w1) => (some err, w1, none)
  | (.ok authRequest, w1) =>
    if authRequest.Status != StatusPending then (some .notPending, w1, none)
    else
      match UpdateAuthorizationRequest env authRequestID StatusAccepted comment [approverID] w1 with
      | (some err, w2) => (some err, w2, none)
      | (none, w2) =>
        match GetPipelineRun env authRequest.PipelineRunID w2 with
        | (.error err, w3) => (some err, w3, none)
        | (.ok run, w3) =>
          match UpdatePipelineRunStatus env run.ID StatusAccepted w3 with
          | (some err, w4) => (some err, w4, none)
          | (none, w4) =>
            match env.uuidParse approverID with
            | none => (some (.uuidParse approverID), w4, none)
            | some approverUUID =>
              let history : ExecutionHistory :=
                { PipelineRunID := run.ID, RequesterID := authRequest.RequesterID,
                  ApproverID := approverUUID, Status := StatusRunning, StartedAt := now w4 }
              match CreateExecutionHistory env history w4 with
              | (.error err, w5) => (some err, w5, none)
              | (.ok history, w5) =>
                let w6 := broadcastPipelineStatusChange env run.ID StatusAccepted
                  "Pipeline run approved" w5
                match GetPipelineUnit env run.PipelineUnitID w6 with
                | (.error err, w7) =>
                  let w8 := (UpdateExecutionHistoryError env history.ID err.message w7).2
                  let w9 := (UpdatePipelineRunStatus env run.ID StatusRejected w8).2
                  (some err, w9, none)
                | (.ok unit, w7) =>
                  let userID := (env.uuidParse authRequest.RequesterID).getD ""
                  let w8 := (GetDeliveryEmail env userID w7).2
                  match GetAuthorizationRequestByID env authRequest.ID w8 with
                  | (fullAuthRequest, w9) =>
                    match RenderAuthorizationRequestToHTML (pointerOf fullAuthRequest) with
                    | some panic => (some panic, w9, none)
                    | none => (none, w9, some { run := run, unit := unit, history := history })

/-- The call `RejectPipelineRun` up to its return; the rejection mail is prepared as in
`ApprovePipelineRun` and sent by a detached goroutine. -/
def RejectPipelineRun (env : Env) (authRequestID approverID comment : String) (w : World) :
    Option Err × World :=
  match GetAuthorizationRequest env authRequestID w with
  | (.error err, w1) => (some err, w1)
  | (.ok authRequest, w1) =>
    if authRequest.Status != StatusPending then (some .notPending, w1)
    else
      match UpdateAuthorizationRequest env authRequestID StatusRejected comment [] w1 with
      | (some err, w2) => (some err, w2)
      | (none, w2) =>
        match UpdatePipelineRunStatus env authRequest.PipelineRunID StatusRejected w2 with
        | (some err, w3) => (some err, w3)
        | (none, w3) =>
          match env.uuidParse approverID with
          | none => (some (.uuidParse approverID), w3)
          | some approverUUID =>
            let history : ExecutionHistory :=
              { PipelineRunID := authRequest.PipelineRunID, RequesterID := authRequest.RequesterID,
                ApproverID := approverUUID, Status := StatusRejected, StartedAt := now w3,
                CompletedAt := now w3, ErrorMessage := comment }
            match CreateExecutionHistory env history w3 with
            | (.error err, w4) => (some err, w4)
            | (.ok _, w4) =>
              let w5 := broadcastPipelineStatusChange env authRequest.PipelineRunID StatusRejected
                ("Pipeline run rejected: " ++ comment) w4
              let userID := (env.uuidParse authRequest.RequesterID).getD ""
              let w6 := (GetDeliveryEmail env userID w5).2
              match GetAuthorizationRequestByID env authRequest.ID w6 with
              | (fullAuthRequest, w7) =>
                (RenderAuthorizationRequestToHTML (pointerOf fullAuthRequest), w7)

/-! ## service.go: the execution chain -/

def maxInt64 : Int := 9223372036854775807
def minInt64 : Int := -9223372036854775808

/-- Two's-complement wrap of an integer to `int64`. -/
def wrapInt64 (x : Int) : Int := (x + 9223372036854775808) % 18446744073709551616 - 9223372036854775808

/-- The method `Time.Sub`: the difference of two instants, saturated to the `int64` range; the
zero `time.Time` lies centuries before every instant of the model clock. -/
def timeSub (t u : Time) : Duration :=
  match t, u with
  | some a, some b => max minInt64 (min maxInt64 ((a : Int) - (b : Int)))
  | some _, none => maxInt64
  | none, some _ => minInt64
  | none, none => 0

def second : Duration := 1000000000
def pollInterval : Duration := 10 * second
def maxDuration : Duration := 30 * 60 * second

/-- The loop body of `fetchMicroServices` from index `i` on, `services` being the slice built so
far. -/
def fetchMicroServicesFrom (env : Env) (i : Nat) (services : List Service) :
    List String → World → Except Err (List Service) × World
  | [], w => (.ok services, w)
  | id :: rest, w =>
    match GetServiceByID env id (emit (.getService id) w) with
    | (.error err, w1) => (.error (.fetchService id i err), w1)
    | (.ok svc, w1) =>
      if svc.ID == "" then (.error (.serviceNotFound id), w1)
      else fetchMicroServicesFrom env (i + 1) (services ++ [svc]) rest w1

def fetchMicroServices (env : Env) (ids : List String) (w : World) :
    Except Err (List Service) × World :=
  fetchMicroServicesFrom env 0 [] ids w

/-- The wait `time.Duration(1<<(attempt-1)) * time.Second` in `int64` arithmetic: a shift by 64
or more gives 0, and the product wraps. -/
def backoff (attempt : Nat) : Duration :=
  wrapInt64 (wrapInt64 (if attempt - 1 < 64 then 2 ^ (attempt - 1) else 0) * second)

/-- The wait `select { case <-ctx.Done(): ...; case <-time.After(d): ... }`: whether the
timer fired, and the world after it. A non-positive `d` fires at once; a context done no later
than the timer wins. -/
def waitFor (ctx : Ctx) (d : Duration) (w : World) : Bool × World :=
  if ctx.doneBy (w.clock + d.toNat) then
    (false, emit (.wait d false) { w with clock := max w.clock (ctx.doneAt.getD w.clock) })
  else
    (true, emit (.wait d true) { w with clock := w.clock + d.toNat })

/-- The head of iteration `attempt`: no wait before attempt 0, the backoff wait before every
later attempt. Returns whether the loop goes on (the timer fired before the context was done). -/
def retryWait (ctx : Ctx) (attempt : Nat) (w : World) : Bool × World :=
  if attempt > 0 then waitFor ctx (backoff attempt) w else (true, w)

/-- The call `s.fetchMicroServices(ctx, ids)` of iteration `attempt`. -/
def retryFetch (env : Env) (ids : List String) (attempt : Nat) (w : World) :
    Except Err (List Service) × World :=
  fetchMicroServices env ids (emit (.fetchAttempt attempt) w)

/-- The loop of `fetchMicroServicesWithRetry` from `attempt` on, with `remaining` iterations
left before `attempt` exceeds `maxRetries`. -/
def fetchRetryLoop (env : Env) (ctx : Ctx) (ids : List String) (maxRetries : Int) (attempt : Nat)
    (lastErr : Option Err) : (remaining : Nat) → World → Except Err (List Service) × World
  | 0, w =>
    match lastErr with
    | some e => (.error (.fetchRetries (maxRetries + 1) e), w)
    | none => (.error (.fetchRetriesNil (maxRetries + 1)), w)
  | remaining + 1, w =>
    let waited := retryWait ctx attempt w
    if waited.1 then
      match retryFetch env ids attempt waited.2 with
      | (.ok services, w1) => (.ok services, w1)
      | (.error err, w1) =>
        fetchRetryLoop env ctx ids maxRetries (attempt + 1) (some err) remaining w1
    else (.error .ctxDone, waited.2)

/-- Runs `for attempt := 0; attempt <= maxRetries; attempt++`, that is `maxRetries + 1`
iterations (none when `maxRetries` is negative). -/
def fetchMicroServicesWithRetry (env : Env) (ctx : Ctx) (ids : List String) (maxRetries : Int)
    (w : World) : Except Err (List Service) × World :=
  fetchRetryLoop env ctx ids maxRetries 0 none (maxRetries + 1).toNat w

/-- The `for { select ... }` loop of `pollPipelineStatus`, `start` being the instant the poll
began. The ticker fires every `pollInterval`; `ticks` bounds the iterations and is never
exhausted from `pollPipelineStatus`, where the ceiling check stops the loop first. -/
def pollLoop (env : Env) (ctx : Ctx) (projectID : String) (pipelineID : Int) (start : Nat) :
    (ticks : Nat) → World → Option Err × World
  | 0, w => (some (.pollTimeout pipelineID), w)
  | ticks + 1, w =>
    let tick := w.clock + pollInterval.toNat
    if ctx.doneBy tick then
      (some .ctxDone, { w with clock := max w.clock (ctx.doneAt.getD w.clock) })
    else
      let w1 := { w with clock := tick }
      if timeSub (some tick) (some start) > maxDuration then (some (.pollTimeout pipelineID), w1)
      else
        let w2 := ciCall (.getPipeline projectID pipelineID) w1
        match env.getPipeline w1.ciCalls projectID pipelineID with
        | .error e => (some (.pollStatus pipelineID (.ci e)), w2)
        | .ok status =>
          if status == "success" then (none, w2)
          else if status == "failed" || status == "canceled" then
            (some (.pollFailed pipelineID status), w2)
          else pollLoop env ctx projectID pipelineID start ticks w2

def pollPipelineStatus (env : Env) (ctx : Ctx) (projectID : String) (pipelineID : Int)
    (w : World) : Option Err × World :=
  let r := pollLoop env ctx projectID pipelineID w.clock 181 w
  (r.1, emit (.pollReturned projectID pipelineID r.1) r.2)

/-- The helper `broadcastPipelineUpdate`: marshals a detail message for the log, then broadcasts
the status change. -/
def broadcastPipelineUpdate (env : Env) (runID _serviceID : String) (status : PipelineStatus)
    (message : String) (w : World) : World :=
  broadcastPipelineStatusChange env runID status message w

/-- Marks history and run Rejected (update failures are logged only), broadcasts, and returns
`fmt.Errorf(errorMessage)` with the mutated history. -/
def handlePipelineError (env : Env) (run : PipelineRun) (history : ExecutionHistory)
    (microServiceID errorMessage : String) (w : World) : Err × ExecutionHistory × World :=
  let history1 := { history with Status := StatusRejected, CompletedAt := now w }
  let history2 := { history1 with
    ExecutionTime := timeSub history1.CompletedAt history1.StartedAt,
    ErrorMessage := errorMessage }
  let w1 := (UpdateExecutionHistory env history2 w).2
  let w2 := (UpdatePipelineRunStatus env run.ID StatusRejected w1).2
  let w3 := broadcastPipelineUpdate env run.ID microServiceID StatusRejected errorMessage w2
  (.chain errorMessage, history2, w3)

/-- The variables of the `CreatePipeline` call for stage `i` of `n`. -/
def stageVariables (i n : Nat) : List (String × String) :=
  if (i : Int) == (n : Int) - 1 then [("DEPLOY_ENV", "QA")] else []

/-- The loop `for i, microService := range microServices` of `executePipelineChain` from index
`i` on (`n` is `len(microServices)`): the error returned from inside the loop if any, the run
and history as mutated through their pointers, and the world. -/
def executeStages (env : Env) (ctx : Ctx) (n : Nat) (i : Nat) (run : PipelineRun)
    (history : ExecutionHistory) :
    List Service → World → Option Err × PipelineRun × ExecutionHistory × World
  | [], w => (none, run, history, w)
  | microService :: rest, w =>
    let w1 := broadcastPipelineStatusChange env run.ID StatusRunning
      ("Starting pipeline for microservice " ++ microService.Name) w
    let ref := "development"
    let vars := stageVariables i n
    let w2 := ciCall (.createPipeline microService.GitLabRepoID ref vars) w1
    match env.createPipeline w1.ciCalls microService.GitLabRepoID ref vars with
    | .error e =>
      let r := handlePipelineError env run history microService.ID
        ("Microservice " ++ microService.Name ++ " pipeline failed: " ++ e) w2
      (some r.1, run, r.2.1, r.2.2)
    | .ok pipelineID =>
      let run1 := { run with GitLabPipelineID := pipelineID }
      match UpdatePipelineRun env run1 w2 with
      | (some err, w3) =>
        let r := handlePipelineError env run1 history microService.ID
          ("Failed to update pipeline run: " ++ err.message) w3
        (some r.1, run1, r.2.1, r.2.2)
      | (none, w3) =>
        match pollPipelineStatus env ctx microService.GitLabRepoID pipelineID w3 with
        | (some err, w4) =>
          let r := handlePipelineError env run1 history microService.ID
            ("Microservice " ++ microService.Name ++ " pipeline failed: " ++ err.message) w4
          (some r.1, run1, r.2.1, r.2.2)
        | (none, w4) => executeStages env ctx n (i + 1) run1 history rest w4

/-- The tail of `executePipelineChain` after the last stage succeeded. -/
def completePipeline (env : Env) (run : PipelineRun) (history : ExecutionHistory) (w : World) :
    Option Err × World :=
  let ms := milliseconds (timeSub (now w) history.StartedAt)
  let history1 := { history with Status := StatusCompleted, CompletedAt := now w,
                                 ExecutionTime := wrapInt64 (ms * 1000000) }
  let w1 := (UpdateExecutionHistory env history1 w).2
  match UpdatePipelineRunStatus env run.ID StatusCompleted w1 with
  | (some err, w2) =>
    (some err, broadcastPipelineStatusChange env run.ID StatusRejected
      ("Failed to update pipeline run status: " ++ err.message) w2)
  | (none, w2) =>
    (none, broadcastPipelineStatusChange env run.ID StatusCompleted
      "Pipeline run completed successfully" w2)

def executePipelineChain (env : Env) (ctx : Ctx) (run : PipelineRun) (unit : PipelineUnit)
    (history : ExecutionHistory) (w : World) : Option Err × World :=
  let ids := run.SelectedMicroServiceIDs ++ [unit.MacroServiceID]
  match fetchMicroServicesWithRetry env ctx ids 3 w with
  | (.error err, w1) =>
    let r := handlePipelineError env run history ""
      ("Failed to fetch microservices: " ++ err.message) w1
    (some r.1, r.2.2)
  | (.ok microServices, w1) =>
    match executeStages env ctx microServices.length 0 run history microServices w1 with
    | (some err, _, _, w2) => (some err, w2)
    | (none, run1, history1, w2) => completePipeline env run1 history1 w2

/-- The body of the goroutine started by `ApprovePipelineRun`, under a context that ends one
hour after it starts. -/
def executionGoroutine (env : Env) (l : ChainLaunch) (w : World) : Option Err × World :=
  let execCtx : Ctx := { doneAt := some (w.clock + (60 * 60 * second).toNat) }
  let w1 := broadcastPipelineStatusChange env l.run.ID StatusRunning
    "Pipeline run approved and execution started" w
  executePipelineChain env execCtx l.run l.unit l.history w1

/-! ## service.go: pipeline units and the status listing -/

/-- The validation of the macro service in `CreatePipelineUnit`, skipped for an empty ID: the
error returned, if any. A lookup without row gives `Service{}`, whose type is no macro
service. -/
def validateMacroService (env : Env) (macroServiceID : String) (w : World) :
    Option Err × World :=
  if macroServiceID != "" then
    match GetServiceByID env macroServiceID w with
    | (.error err, w1) => (some (.invalidMacroService err), w1)
    | (.ok macroService, w1) =>
      if macroService.Type_ != MacroService then (some .invalidMacroServiceNil, w1)
      else (none, w1)
  else (none, w)

/-- The loop `for _, id := range microServiceIDs` that validates the micro-services. -/
def validateMicroServices (env : Env) : List String → World → Option Err × World
  | [], w => (none, w)
  | id :: rest, w =>
    match GetServiceByID env id w with
    | (.error _, w1) => (some (.invalidMicroService id), w1)
    | (.ok service, w1) =>
      if service.Type_ != MicroService then (some (.invalidMicroService id), w1)
      else validateMicroServices env rest w1

/-- The loop `for i, microID := range microServiceIDs` that records the dependency links, from
index `i` on. -/
def addDependencies (env : Env) (pipelineUnitID : String) (i : Nat) :
    List String → World → Option Err × World
  | [], w => (none, w)
  | microID :: rest, w =>
    match AddMicroServiceDependency env pipelineUnitID microID i w with
    | (some err, w1) => (some err, w1)
    | (none, w1) => addDependencies env pipelineUnitID (i + 1) rest w1

/-- The service method `CreatePipelineUnit`: validation, the insert of the unit, then one
insert per dependency link, each statement on its own (there is no transaction). -/
def PipelineService.CreatePipelineUnit (env : Env) (macroServiceID : String)
    (microServiceIDs : List String) (w : World) : Except Err PipelineUnit × World :=
  match validateMacroService env macroServiceID w with
  | (some err, w1) => (.error err, w1)
  | (none, w1) =>
    match validateMicroServices env microServiceIDs w1 with
    | (some err, w2) => (.error err, w2)
    | (none, w2) =>
      let unit : PipelineUnit :=
        { MacroServiceID := macroServiceID, MicroServiceIDs := microServiceIDs }
      match PostgresRepository.CreatePipelineUnit env unit w2 with
      | (.error err, w3) => (.error err, w3)
      | (.ok createdUnit, w3) =>
        match addDependencies env createdUnit.ID 0 microServiceIDs w3 with
        | (some err, w4) => (.error err, w4)
        | (none, w4) => (.ok createdUnit, w4)

/-- The body of the loop of `GetAllPipelineStatuses`: the `switch pipeline.Status`. -/
def groupPipeline (response : PipelineStatusResponse) (pipeline : PipelineRunStatus) :
    PipelineStatusResponse :=
  if pipeline.Status == "running" then
    { response with Running := response.Running ++ [pipeline] }
  else if pipeline.Status == "pending" then
    { response with Pending := response.Pending ++ [pipeline] }
  else if pipeline.Status == "completed" || pipeline.Status == "accepted" then
    { response with Completed := response.Completed ++ [pipeline] }
  else if pipeline.Status == "failed" || pipeline.Status == "rejected" then
    { response with Failed := response.Failed ++ [pipeline] }
  else
    { response with Pending := response.Pending ++ [pipeline] }

/-- The loop `for _, pipeline := range pipelineStatuses`. -/
def groupPipelines (response : PipelineStatusResponse) :
    List PipelineRunStatus → PipelineStatusResponse
  | [] => response
  | pipeline :: rest => groupPipelines (groupPipeline response pipeline) rest

def GetAllPipelineStatuses (env : Env) (w : World) :
    Except Err PipelineStatusResponse × World :=
  match ListPipelineRunsWithServices env "" w with
  | (.error err, w1) => (.error err, w1)
  | (.ok pipelineStatuses, w1) =>
    (.ok (groupPipelines { Total := pipelineStatuses.length } pipelineStatuses), w1)

/-! ## Observations on traces and on the retry loop -/

/-- The attempt numbers of the `fetchMicroServices` calls in a trace, in order. -/
def attemptsOf (tr : List Event) : List Nat :=
  tr.filterMap (fun e => match e with | .fetchAttempt a => some a | _ => none)

/-- The timer waits in a trace, in order, each with whether the timer fired. -/
def waitsOf (tr : List Event) : List (Duration × Bool) :=
  tr.filterMap (fun e => match e with | .wait d fired => some (d, fired) | _ => none)

/-- The project IDs of the `CreatePipeline` calls in a trace, in order. -/
def createCallsOf (tr : List Event) : List String :=
  tr.filterMap (fun e => match e with | .createPipeline p _ _ => some p | _ => none)

/-- The IDs of the `GetServiceByID` fetches in a trace, in order. -/
def fetchedIDsOf (tr : List Event) : List String :=
  tr.filterMap (fun e => match e with | .getService id => some id | _ => none)

/-- A step of the chain as seen by the CI provider: a pipeline was created for a project, or
the poll of a project's pipeline returned success. -/
inductive CIStep where
  | created (projectID : String)
  | pollSucceeded (projectID : String)
deriving DecidableEq, Repr

/-- The CI steps of a trace, in order: `CreatePipeline` calls and returns of
`pollPipelineStatus` without error. -/
def ciStepsOf (tr : List Event) : List CIStep :=
  tr.filterMap (fun e => match e with
    | .createPipeline p _ _ => some (.created p)
    | .pollReturned p _ none => some (.pollSucceeded p)
    | _ => none)

/-- The CI steps of a chain that runs every stage to success: for each stage in order, its
pipeline is created and then its poll returns success. -/
def allStagesSteps (stages : List Service) : List CIStep :=
  stages.flatMap (fun s => [.created s.GitLabRepoID, .pollSucceeded s.GitLabRepoID])

/-- The run ID and status of the broadcasts in a trace, in order. -/
def broadcastsOf (tr : List Event) : List (String × PipelineStatus) :=
  tr.filterMap (fun e => match e with | .broadcast id st _ _ => some (id, st) | _ => none)

/-- The run ID, status and text of the broadcasts in a trace, in order. -/
def messagesOf (tr : List Event) : List (String × PipelineStatus × String) :=
  tr.filterMap (fun e => match e with | .broadcast id st msg _ => some (id, st, msg) | _ => none)

/-- The arguments of the `CreatePipeline` calls in a trace, in order: project ID, ref and
variables. -/
def createArgsOf (tr : List Event) : List (String × String × List (String × String)) :=
  tr.filterMap (fun e => match e with | .createPipeline p r v => some (p, r, v) | _ => none)

/-- The arguments `CreatePipeline` is called with for the stage at index `i` of `n`, as the
claim on the deployment variable states them. -/
def stageCall (n : Nat) (p : Nat × Service) : String × String × List (String × String) :=
  (p.2.GitLabRepoID, "development", if p.1 + 1 = n then [("DEPLOY_ENV", "QA")] else [])

/-- One turn of the poll loop that goes on: the tick, ten seconds later, and the status
fetch. -/
def pollTick (projectID : String) (pipelineID : Int) (w : World) : World :=
  ciCall (.getPipeline projectID pipelineID) { w with clock := w.clock + pollInterval.toNat }

/-- The world after `j` turns of the poll loop that all went on. -/
def pollWorld (projectID : String) (pipelineID : Int) (w : World) : Nat → World
  | 0 => w
  | j + 1 => pollTick projectID pipelineID (pollWorld projectID pipelineID w j)

/-- The statuses that end a poll. -/
def terminalStatus (status : String) : Bool :=
  status == "success" || status == "failed" || status == "canceled"

/-- The world at the end of iteration `attempt` started in `w`, if the attempt's fetch failed. -/
def retryStep (env : Env) (ctx : Ctx) (ids : List String) (attempt : Nat) (w : World) : World :=
  (retryFetch env ids attempt (retryWait ctx attempt w).2).2

/-- The world in which iteration `a + i` starts when the loop is at iteration `a` in `w` and
iterations `a .. a + i - 1` all wait to the end and fail. -/
def retryWorld (env : Env) (ctx : Ctx) (ids : List String) : (a i : Nat) → World → World
  | _, 0, w => w
  | a, i + 1, w => retryWorld env ctx ids (a + 1) i (retryStep env ctx ids a w)

/-- Whether the wait before attempt `j` runs to the end, given that attempts `0 .. j - 1`
waited to the end and failed. -/
def attemptWaited (env : Env) (ctx : Ctx) (ids : List String) (j : Nat) (w : World) : Bool :=
  (retryWait ctx j (retryWorld env ctx ids 0 j w)).1

/-- The outcome of the fetch of attempt `j`, given that attempts `0 .. j - 1` waited to the end
and failed. -/
def attemptOutcome (env : Env) (ctx : Ctx) (ids : List String) (j : Nat) (w : World) :
    Except Err (List Service) :=
  (retryFetch env ids j (retryWait ctx j (retryWorld env ctx ids 0 j w)).2).1

/-- The requester `r1` of the scenario, a registered user. -/
def demoRequester : String := "0b6f7a3e-5c1d-4e2a-8f90-1a2b3c4d5e6f"

def demoEnv : Env where
  dbFault := fun _ => none
  newUUID := fun n => ["run-1", "req-1", "hist-1"].getD n "id"
  uuidParse := fun s => if s.length == 36 then some s else none
  deliveryEmail := fun id => if id == demoRequester then some "r1@example.org" else none
  createPipeline := fun n _ _ _ => .ok (100 + n)
  getPipeline := fun _ _ _ => .ok "success"

def demoApprover : String := "7f1c0a52-3b1e-4a3c-9a55-0d2f6c1b8e90"

def demoStore : Store :=
  { services :=
      [{ ID := "A", GitLabRepoID := "repoA", Name := "alpha", Type_ := MicroService },
       { ID := "B", GitLabRepoID := "repoB", Name := "beta", Type_ := MicroService },
       { ID := "M", GitLabRepoID := "repoM", Name := "main", Type_ := MacroService }],
    pipelineUnits := [{ ID := "U", MacroServiceID := "M" }, { ID := "V", MacroServiceID := "" }],
    pipelineDependencies := [⟨"U", "B", 1⟩, ⟨"U", "A", 0⟩, ⟨"V", "A", 0⟩] }

def demoWorld : World := { store := demoStore, clock := 5 }

/-- The unit `U` of the scenario as `GetPipelineUnit` returns it. -/
def demoUnit : PipelineUnit := { ID := "U", MacroServiceID := "M", MicroServiceIDs := ["A", "B"] }

/-- The scenario after `TriggerPipelineUnit(U, r1, [A])`: run `run-1`, request `req-1`. -/
def demoPending : World := (TriggerPipelineUnit demoEnv "U" demoRequester ["A"] demoWorld).2

/-- The scenario after the approval of `req-1`. -/
def demoApproved : World := (ApprovePipelineRun demoEnv "req-1" demoApprover "ok" demoPending).2.1

def demoRequest : AuthorizationRequest :=
  { ID := "req-1", PipelineRunID := "run-1", RequesterID := demoRequester, Status := StatusPending,
    CreatedAt := some 5, UpdatedAt := some 5 }

def demoRun : PipelineRun :=
  { ID := "run-1", PipelineUnitID := "U", Status := StatusPending, CreatedAt := some 5,
    UpdatedAt := some 5, SelectedMicroServiceIDs := ["A"] }

/-- The scenario's persistence with its first `failures` statements failing. -/
def flakyEnv (failures : Nat) : Env :=
  { demoEnv with dbFault := fun n => if n < failures then some "connection refused" else none }

def demoServiceA : Service :=
  { ID := "A", GitLabRepoID := "repoA", Name := "alpha", Type_ := MicroService }

/-- A context that is done two seconds after the scenario starts. -/
def demoShortCtx : Ctx := { doneAt := some (demoWorld.clock + 2000000000) }

def demoServiceB : Service :=
  { ID := "B", GitLabRepoID := "repoB", Name := "beta", Type_ := MicroService }

def demoServiceM : Service :=
  { ID := "M", GitLabRepoID := "repoM", Name := "main", Type_ := MacroService }

/-- The history row created by the approval of `req-1`. -/
def demoHistory : ExecutionHistory :=
  { ID := "hist-1", PipelineRunID := "run-1", RequesterID := demoRequester, ApproverID := demoApprover,
    Status := StatusRunning, StartedAt := some 5 }

/-- What the approval of `req-1` hands to the execution goroutine. -/
def demoLaunch : ChainLaunch := { run := demoRun, unit := demoUnit, history := demoHistory }

/-- The goroutine's context: done one hour after the approval. -/
def demoCtx : Ctx := { doneAt := some (demoApproved.clock + 3600000000000) }

/-- The run of the scenario with both micro-services selected. -/
def demoRunAB : PipelineRun := { demoRun with SelectedMicroServiceIDs := ["A", "B"] }

/-- A well-formed user ID for which `users` has no row. -/
def demoStranger : String := "5e0c2d1a-9b7f-4c3e-a1d2-6f4b8c0e2a11"

/-- The scenario after `TriggerPipelineUnit(U, stranger, [A])`. -/
def demoPendingStranger : World :=
  (TriggerPipelineUnit demoEnv "U" demoStranger ["A"] demoWorld).2

/-- The scenario after `TriggerPipelineUnit(V, r1, [A])` on the unit without main service. -/
def demoPendingV : World := (TriggerPipelineUnit demoEnv "V" demoRequester ["A"] demoWorld).2

/-- The scenario after the approval of that run. -/
def demoApprovedV : World :=
  (ApprovePipelineRun demoEnv "req-1" demoApprover "ok" demoPendingV).2.1

/-- What that approval hands to the execution goroutine. -/
def demoLaunchV : ChainLaunch :=
  { run := { demoRun with PipelineUnitID := "V" },
    unit := { ID := "V", MacroServiceID := "", MicroServiceIDs := ["A"] },
    history := demoHistory }

/-- The scenario's persistence, except that statement number `n` fails with `msg`. -/
def faultAtEnv (n : Nat) (msg : String) : Env :=
  { demoEnv with dbFault := fun k => if k == n then some msg else none }

/-- The scenario's environment with `uuid.New` giving `unit-1`. -/
def demoUnitEnv : Env := { demoEnv with newUUID := fun _ => "unit-1" }

/-- The scenario run from trigger to the end of the execution goroutine: `U` is triggered with
the given selection, the request is approved, and the goroutine the approval starts runs to
its end. -/
def demoExecution (sel : List String) : World :=
  let w1 := (TriggerPipelineUnit demoEnv "U" demoRequester sel demoWorld).2
  match ApprovePipelineRun demoEnv "req-1" demoApprover "ok" w1 with
  | (_, w2, some l) => (executionGoroutine demoEnv l w2).2
  | (_, w2, none) => w2

/-- The world of the scenario's goroutine when its stage loop starts: after the broadcast of
the start and the fetch of the stage list `[A, M]`. -/
def demoStagesStart : World :=
  (fetchMicroServicesWithRetry demoEnv demoCtx ["A", "M"] 3
    (broadcastPipelineStatusChange demoEnv "run-1" StatusRunning
      "Pipeline run approved and execution started" demoApproved)).2

/-- The state of the scenario's goroutine when its stage loop ends. -/
def demoStagesEnd : Option Err × PipelineRun × ExecutionHistory × World :=
  executeStages demoEnv demoCtx 2 0 demoRun demoHistory [demoServiceA, demoServiceM]
    demoStagesStart

/-- A CI provider whose pipelines stay `running` for the first `k` status fetches of a poll
that starts at CI call `c`, and then report `final`. -/
def slowEnv (c k : Nat) (final : String) : Env :=
  { demoEnv with getPipeline := fun n _ _ => if n < c + k then .ok "running" else .ok final }

end Gitlab

namespace Monitor

/-! ## monitor/types.go -/

structure Endpoint where
  ID : Int := 0
  ServiceName : String := ""
  URL : String := ""
  ServerName : String := ""
  APIMethod : String := ""
  ExpectedCode : Int := 0
  GitlabURL : Option String := none
  DockerContainerName : Option String := none
  KubernetesPodName : Option String := none
  Tags : List String := []
  Description : Option String := none
  LastChangedBy : Option String := none
deriving DecidableEq, Repr

/-! ## The store of the monitor

The declarations of these tables are not in the sources; the columns are those the statements of
repository_postgres.go and service.go name. Integer columns are unbounded here: a sum that leaves
the range of its column makes the statement fail, which `Env.dbFault` covers. -/

/-- A row of `endpoints`. The statements `ON CONFLICT (url)` and `SELECT id ... WHERE url = $1`
treat `url` as a unique column. -/
structure EndpointRow where
  id : Int
  service_name : String
  url : String
  server_name : String
  api_method : String
  expected_status_code : Int
deriving DecidableEq, Repr

/-- A row of `endpoint_info`. -/
structure EndpointInfoRow where
  endpoint_id : Int
  gitlab_url : Option String
  docker_container_name : Option String
  kubernetes_pod_name : Option String
  tags : List String
  description : Option String
  last_changed_by : Option String
deriving DecidableEq, Repr

/-- A row of the log table `checks`. -/
structure CheckRow where
  endpoint_id : Int
  status_code : Int
  latency_ms : Int
  error : String
deriving DecidableEq, Repr

/-- A row of `endpoint_stats`, one per endpoint (`ON CONFLICT (endpoint_id)`). -/
structure StatsRow where
  endpoint_id : Int
  total_checks : Int
  total_latency : Int
  successful_checks : Int
  failure_count : Int
  last_run : Bool
deriving DecidableEq, Repr

structure Store where
  endpoints : List EndpointRow := []
  endpointInfo : List EndpointInfoRow := []
  checks : List CheckRow := []
  endpointStats : List StatsRow := []
deriving DecidableEq, Repr

structure World where
  store : Store := {}
  /-- Number of persistence statements issued so far. -/
  dbCalls : Nat := 0
  /-- Next value of the sequence behind `endpoints.id`. -/
  nextEndpointID : Int := 1
  /-- The scheduler goroutines that are alive, by the number they were launched with. -/
  schedulers : List Nat := []
  /-- Number of scheduler goroutines launched so far. -/
  launched : Nat := 0
deriving DecidableEq, Repr

/-- What `os.ReadFile(path)` followed by `json.Unmarshal` into `[]Endpoint` gives. -/
inductive ManifestFile where
  | unreadable
  | malformed (err : String)
  | parsed (entries : List Endpoint)
deriving DecidableEq, Repr

/-- The collaborators outside the repository. -/
structure Env where
  /-- Failure, if any, of the `n`-th persistence statement. -/
  dbFault : Nat → Option String
  /-- The library function `strings.ToLower` (Unicode case mapping). -/
  toLower : String → String
  /-- The file system: the manifest found at a path. -/
  files : String → ManifestFile
  /-- The value of the environment variable `CHECK_TIMER`. -/
  checkTimer : String
  /-- The library function `strconv.Atoi`. -/
  atoi : String → Option Int

/-- Issue one persistence statement. -/
def stmt (env : Env) (w : World) : Option String × World :=
  (env.dbFault w.dbCalls, { w with dbCalls := w.dbCalls + 1 })

inductive Err where
  /-- An error returned by a persistence statement. -/
  | db (msg : String)
  /-- The error of `json.Unmarshal`. -/
  | json (msg : String)
  /-- The error `fmt.Errorf("endpoint with URL '%s' already exists (id=%d)", url, id)`. -/
  | alreadyExists (url : String) (id : Int)
  /-- The error `fmt.Errorf("failed checking existing endpoint: %w", err)`. -/
  | checkFailed (cause : String)
  /-- The error `fmt.Errorf("failed to start transaction: %w", err)`. -/
  | beginFailed (cause : String)
  /-- The error `fmt.Errorf("failed to insert endpoint: %w", err)`. -/
  | insertFailed (cause : String)
  /-- The error `fmt.Errorf("failed to insert endpoint_info: %w", err)`. -/
  | insertInfoFailed (cause : String)
  /-- The error `fmt.Errorf("failed to commit transaction: %w", err)`. -/
  | commitFailed (cause : String)
  /-- The error of `strconv.Atoi` on the given text. -/
  | atoi (text : String)
deriving DecidableEq, Repr

/-! ## The URL normaliser (service.go and repository_postgres.go hold the same closure) -/

/-- The predicate `unicode.IsSpace`, which `strings.TrimSpace` trims by. -/
def isSpace (c : Char) : Bool :=
  c == '\t' || c == '\n' || c.val == 0x0B || c.val == 0x0C || c == '\r' || c == ' ' ||
  c.val == 0x85 || c.val == 0xA0 || c.val == 0x1680 || (0x2000 ≤ c.val && c.val ≤ 0x200A) ||
  c.val == 0x2028 || c.val == 0x2029 || c.val == 0x202F || c.val == 0x205F || c.val == 0x3000

/-- The library function `strings.TrimSpace`. -/
def TrimSpace (s : String) : String :=
  String.mk ((s.data.dropWhile isSpace).reverse.dropWhile isSpace).reverse

/-- The call `strings.HasSuffix(raw, "/")`. -/
def HasSuffixSlash (s : String) : Bool := s.data.getLast? == some '/'

/-- The call `strings.TrimSuffix(raw, "/")` on a string that ends in `/`. -/
def TrimSuffixSlash (s : String) : String := String.mk s.data.dropLast

def normalizeURL (env : Env) (raw : String) : String :=
  let raw1 := TrimSpace raw
  let raw2 := if HasSuffixSlash raw1 then TrimSuffixSlash raw1 else raw1
  env.toLower raw2

/-! ## monitor/repository_postgres.go -/

/-- The query `SELECT id, service_name, url, server_name, api_method FROM endpoints`: the
expected status code is not among the columns read, so it stays 0 in every returned value. -/
def GetAllEndpoints (env : Env) (w : World) : Except Err (List Endpoint) × World :=
  match stmt env w with
  | (some e, w1) => (.error (.db e), w1)
  | (none, w1) =>
    (.ok (w.store.endpoints.map (fun r =>
      { ID := r.id, ServiceName := r.service_name, URL := r.url, ServerName := r.server_name,
        APIMethod := r.api_method })), w1)

/-- Whether `ep` carries one of the `endpoint_info` fields. -/
def hasInfo (ep : Endpoint) : Bool :=
  ep.GitlabURL.isSome || ep.DockerContainerName.isSome || ep.KubernetesPodName.isSome ||
  decide (ep.Tags.length > 0) || ep.Description.isSome || ep.LastChangedBy.isSome

/-- The insert of `CreateEndpoint` inside its transaction: the `endpoints` row, then the
`endpoint_info` row when there is one, then the commit. An error rolls the transaction back:
the store is the one before it, while the statements and the drawn id stay counted. -/
def createEndpointTx (env : Env) (ep : Endpoint) (w0 : World) : Except Err Endpoint × World :=
  match stmt env w0 with
  | (some e, w1) => (.error (.insertFailed e), w1)
  | (none, w1) =>
    let row : EndpointRow :=
      { id := w1.nextEndpointID, service_name := ep.ServiceName, url := ep.URL,
        server_name := ep.ServerName, api_method := ep.APIMethod,
        expected_status_code := ep.ExpectedCode }
    let newEp : Endpoint :=
      { ID := row.id, ServiceName := row.service_name, URL := row.url,
        ServerName := row.server_name, APIMethod := row.api_method,
        ExpectedCode := row.expected_status_code }
    let w2 : World := { w1 with nextEndpointID := w1.nextEndpointID + 1 }
    let endpoints := w2.store.endpoints ++ [row]
    let infoRow : EndpointInfoRow :=
      { endpoint_id := row.id, gitlab_url := ep.GitlabURL,
        docker_container_name := ep.DockerContainerName,
        kubernetes_pod_name := ep.KubernetesPodName, tags := ep.Tags,
        description := ep.Description, last_changed_by := ep.LastChangedBy }
    let afterInfo : Option Err × World × List EndpointInfoRow :=
      if hasInfo ep then
        match stmt env w2 with
        | (some e, w3) => (some (.insertInfoFailed e), w3, w3.store.endpointInfo)
        | (none, w3) => (none, w3, w3.store.endpointInfo ++ [infoRow])
      else (none, w2, w2.store.endpointInfo)
    match afterInfo with
    | (some err, w3, _) => (.error err, w3)
    | (none, w3, info) =>
      match stmt env w3 with
      | (some e, w4) => (.error (.commitFailed e), w4)
      | (none, w4) =>
        (.ok newEp, { w4 with store :=
          { w4.store with endpoints := endpoints, endpointInfo := info } })

/-- Inserts a new endpoint after normalising its URL; a stored row with that URL makes the
registration fail. -/
def CreateEndpoint (env : Env) (ep : Endpoint) (w : World) : Except Err Endpoint × World :=
  let ep1 := { ep with URL := normalizeURL env ep.URL }
  match stmt env w with
  | (some e, w1) => (.error (.checkFailed e), w1)
  | (none, w1) =>
    match w.store.endpoints.find? (fun r => r.url == ep1.URL) with
    | some existing => (.error (.alreadyExists ep1.URL existing.id), w1)
    | none =>
      match stmt env w1 with
      | (some e, w2) => (.error (.beginFailed e), w2)
      | (none, w2) => createEndpointTx env ep1 w2

/-! ## monitor/service.go -/

/-- The test `exists` of the merge loop: some endpoint of the working list has the entry's
normalised URL, method, server name and expected code. -/
def existsIn (env : Env) (dbEndpoints : List Endpoint) (jep : Endpoint) : Bool :=
  dbEndpoints.any (fun dep =>
    normalizeURL env dep.URL == jep.URL && dep.APIMethod == jep.APIMethod &&
    dep.ServerName == jep.ServerName && dep.ExpectedCode == jep.ExpectedCode)

/-- The statement `INSERT INTO endpoints ... ON CONFLICT (url) DO NOTHING RETURNING id`: the new
id, or `none` when the statement failed or returned no row. Every executed insert draws the
next value of the id sequence. -/
def insertEndpoint (env : Env) (jep : Endpoint) (w : World) : Option Int × World :=
  match stmt env w with
  | (some _, w1) => (none, w1)
  | (none, w1) =>
    let w2 : World := { w1 with nextEndpointID := w1.nextEndpointID + 1 }
    if w.store.endpoints.any (fun r => r.url == jep.URL) then (none, w2)
    else
      let row : EndpointRow :=
        { id := w1.nextEndpointID, service_name := jep.ServiceName, url := jep.URL,
          server_name := jep.ServerName, api_method := jep.APIMethod,
          expected_status_code := jep.ExpectedCode }
      (some row.id, { w2 with store := { w2.store with endpoints := w2.store.endpoints ++ [row] } })

/-- The loop `for _, jep := range jsonEndpoints` of `LoadAndSyncEndpoints`. -/
def mergeEndpoints (env : Env) : List Endpoint → List Endpoint → World → List Endpoint × World
  | [], dbEndpoints, w => (dbEndpoints, w)
  | jep :: rest, dbEndpoints, w =>
    let jep1 := { jep with URL := normalizeURL env jep.URL }
    if existsIn env dbEndpoints jep1 then mergeEndpoints env rest dbEndpoints w
    else
      match insertEndpoint env jep1 w with
      | (none, w1) => mergeEndpoints env rest dbEndpoints w1
      | (some newID, w1) =>
        mergeEndpoints env rest (dbEndpoints ++ [{ jep1 with ID := newID }]) w1

def LoadAndSyncEndpoints (env : Env) (path : String) (w : World) :
    (List Endpoint × Option Err) × World :=
  match GetAllEndpoints env w with
  | (.error err, w1) => (([], some err), w1)
  | (.ok dbEndpoints, w1) =>
    match env.files path with
    | .unreadable => ((dbEndpoints, none), w1)
    | .malformed err => ((dbEndpoints, some (.json err)), w1)
    | .parsed jsonEndpoints =>
      let r := mergeEndpoints env jsonEndpoints dbEndpoints w1
      ((r.1, none), r.2)

/-- What the probe `client.Do(req)` gave: a transport error, or a response with its status
code. -/
inductive Probe where
  | transportError (msg : String)
  | response (statusCode : Int)
deriving DecidableEq, Repr

/-- How a call ends: it returns, or the process exits in `log.Fatal`. -/
inductive Ending where
  | returned (err : Option Err)
  | exited (msg : String)
deriving DecidableEq, Repr

/-- The lookup `SELECT expected_status_code FROM endpoints WHERE id = $1`. On a failure, a
missing row included, it calls `log.Fatal`, which ends the process: `.error` here is that
exit, not a returned error. -/
def GetEndpointExpectedCode (env : Env) (id : Int) (w : World) : Except String Int × World :=
  match stmt env w with
  | (some e, w1) => (.error e, w1)
  | (none, w1) =>
    match w.store.endpoints.find? (fun r => r.id == id) with
    | none => (.error "no rows in result set", w1)
    | some r => (.ok r.expected_status_code, w1)

/-- The statement `INSERT INTO endpoint_stats ... ON CONFLICT (endpoint_id) DO UPDATE SET ...`
on the rows of the table. -/
def upsertStats (endpointID latency success failure : Int) (lastrun : Bool)
    (rows : List StatsRow) : List StatsRow :=
  if rows.any (fun r => r.endpoint_id == endpointID) then
    rows.map (fun r =>
      if r.endpoint_id == endpointID then
        { r with total_checks := r.total_checks + 1,
                 total_latency := r.total_latency + latency,
                 successful_checks := r.successful_checks + success,
                 failure_count := if success == 1 then 0 else r.failure_count + 1,
                 last_run := lastrun }
      else r)
  else
    rows ++ [{ endpoint_id := endpointID, total_checks := 1, total_latency := latency,
               successful_checks := success, failure_count := failure, last_run := lastrun }]

/-- The status code `CheckEndpoint` works with: that of the response, or the zero value of
`statusCode` when the probe ended in a transport error. -/
def Probe.statusCode : Probe → Int
  | .transportError _ => 0
  | .response c => c

/-- The text left in `errMsg` by the probe. -/
def Probe.errMsg : Probe → String
  | .transportError msg => msg
  | .response _ => ""

/-- The call `CheckEndpoint` with the outcome `probe` of its HTTP request and the `latency` in
milliseconds it measures. After the lookup of the expected code the variable `err` holds the
error of that lookup, so the test `statusCode == expectedStatusCode && err == nil` compares
the codes only. -/
def CheckEndpoint (env : Env) (endpointID : Int) (probe : Probe) (latency : Int) (w : World) :
    Ending × World :=
  let statusCode := probe.statusCode
  let errMsg := probe.errMsg
  match GetEndpointExpectedCode env endpointID w with
  | (.error fatal, w1) => (.exited fatal, w1)
  | (.ok expectedStatusCode, w1) =>
    let success : Int := if statusCode == expectedStatusCode then 1 else 0
    let lastrun : Bool := statusCode == expectedStatusCode
    let failure : Int := if statusCode == expectedStatusCode then 0 else 1
    match stmt env w1 with
    | (some e, w2) => (.returned (some (.db e)), w2)
    | (none, w2) =>
      let row : CheckRow :=
        { endpoint_id := endpointID, status_code := statusCode, latency_ms := latency,
          error := errMsg }
      let w3 : World := { w2 with store := { w2.store with checks := w2.store.checks ++ [row] } }
      match stmt env w3 with
      | (some e, w4) => (.returned (some (.db e)), w4)
      | (none, w4) =>
        let rows := upsertStats endpointID latency success failure lastrun w4.store.endpointStats
        (.returned none, { w4 with store := { w4.store with endpointStats := rows } })

/-- Whether `CheckEndpoint` records a probe as a success for an endpoint with this expected
code. -/
def recordedSuccess (expectedStatusCode : Int) (probe : Probe) : Bool :=
  probe.statusCode == expectedStatusCode

/-- The checks of a list, each a probe outcome with its latency, made one after the other. -/
def runChecks (env : Env) (endpointID : Int) : List (Probe × Int) → World → World
  | [], w => w
  | c :: rest, w => runChecks env endpointID rest (CheckEndpoint env endpointID c.1 c.2 w).2

/-- The `endpoint_stats` row of an endpoint, if there is one. -/
def statsOf (w : World) (endpointID : Int) : Option StatsRow :=
  w.store.endpointStats.find? (fun r => r.endpoint_id == endpointID)

/-! ## monitor/scheduler.go -/

structure Scheduler where
  /-- The scheduler goroutine that `cancel` stops and whose `done` channel is held; `none` in
  the zero value. -/
  cancel : Option Nat := none
deriving DecidableEq, Repr

inductive StartResult where
  | failed (err : Err)
  /-- The panic of `time.NewTicker` on a non-positive interval. -/
  | panicked (msg : String)
  | started (sch : Scheduler)
deriving DecidableEq, Repr

/-- Reads `CHECK_TIMER`, loads the manifest, and launches the scheduler goroutine. What a live
goroutine does on its ticks (the probes it starts) is not part of this model. -/
def StartScheduler (env : Env) (w : World) : StartResult × World :=
  match env.atoi env.checkTimer with
  | none => (.failed (.atoi env.checkTimer), w)
  | some timer =>
    match LoadAndSyncEndpoints env "endpoints.json" w with
    | ((_, some err), w1) => (.failed err, w1)
    | ((_, none), w1) =>
      if Gitlab.wrapInt64 (timer * Gitlab.second) ≤ 0 then
        (.panicked "non-positive interval for NewTicker", w1)
      else
        (.started { cancel := some w1.launched },
         { w1 with schedulers := w1.schedulers ++ [w1.launched], launched := w1.launched + 1 })

/-- Cancels the scheduler's context and waits for its goroutine to end. -/
def Scheduler.Stop (sch : Scheduler) (w : World) : World :=
  match sch.cancel with
  | none => w
  | some g => { w with schedulers := w.schedulers.filter (fun x => x != g) }

/-! ## A concrete scenario for the monitor -/

/-- Lower-casing of the ASCII letters, standing for `strings.ToLower` in the scenario. -/
def asciiLower (s : String) : String := String.mk (s.data.map Char.toLower)

/-- Reads an unsigned decimal numeral, standing for `strconv.Atoi` in the scenario. -/
def decimal (s : String) : Option Int :=
  if s.data.isEmpty then none
  else s.data.foldl (fun acc c => acc.bind (fun n =>
    if c.isDigit then some (10 * n + ((c.toNat : Int) - 48)) else none)) (some 0)

def demoManifest : List Endpoint :=
  [{ ServiceName := "billing", URL := "http://a//", ServerName := "srv", APIMethod := "GET",
     ExpectedCode := 200 },
   { ServiceName := "billing", URL := "http://a/", ServerName := "srv", APIMethod := "GET",
     ExpectedCode := 200 }]

def demoEnv : Env where
  dbFault := fun _ => none
  toLower := asciiLower
  files := fun path => if path == "endpoints.json" then .parsed demoManifest else .unreadable
  checkTimer := "30"
  atoi := decimal

/-- Two stored endpoints: `1` expects status 200, `2` was registered without an expected code. -/
def demoStore : Store :=
  { endpoints :=
      [{ id := 1, service_name := "orders", url := "http://orders", server_name := "srv",
         api_method := "GET", expected_status_code := 200 },
       { id := 2, service_name := "legacy", url := "http://legacy", server_name := "srv",
         api_method := "GET", expected_status_code := 0 }] }

def demoWorld : World := { store := demoStore, nextEndpointID := 3 }

/-- A registration with the URL of endpoint `1` (up to normalisation) and another method. -/
def demoRegistration : Endpoint :=
  { ServiceName := "orders", URL := " HTTP://orders/ ", ServerName := "srv", APIMethod := "POST",
    ExpectedCode := 200 }

/-- A registration of a URL that is not stored, with a description. -/
def demoRegistrationNew : Endpoint :=
  { ServiceName := "search", URL := "https://Search/", ServerName := "srv", APIMethod := "GET",
    ExpectedCode := 200, Description := some "search front" }

/-- The store after the manifest of the scenario was loaded into an empty store. -/
def demoLoaded : World := (LoadAndSyncEndpoints demoEnv "endpoints.json" {}).2

/-- Three checks of endpoint `1`: a 200 in 12 ms, a 500 in 30 ms, a refused connection. -/
def demoChecks : List (Probe × Int) :=
  [(.response 200, 12), (.response 500, 30), (.transportError "connection refused", 5)]

end Monitor

namespace Handlers

/-! ## api/handlers/monitor_handler.go -/

/-- The handler state; the mutex `mu` makes each handler body run alone. -/
structure API where
  scheduler : Option Monitor.Scheduler := none
deriving DecidableEq, Repr

/-- How a handler ends: with a JSON response, or in a panic (answered with status 500 by the
recovery middleware of `gin.Default`). -/
inductive Response where
  | json (status : Nat) (message : String)
  | panicked (msg : String)
deriving DecidableEq, Repr

def StartEndPointChecks (env : Monitor.Env) (a : API) (w : Monitor.World) :
    Response × API × Monitor.World :=
  if a.scheduler.isSome then (.json 409 "Endpoints check already running", a, w)
  else
    match Monitor.StartScheduler env w with
    | (.failed _, w1) => (.json 500 "Endpoints check failed", a, w1)
    | (.panicked msg, w1) => (.panicked msg, a, w1)
    | (.started scheduler, w1) =>
      (.json 200 "Endpoints check started successfully", { a with scheduler := some scheduler }, w1)

def StopEndPointChecks (a : API) (w : Monitor.World) : Response × API × Monitor.World :=
  match a.scheduler with
  | none => (.json 409 "No endpoints check running", a, w)
  | some scheduler =>
    (.json 200 "Endpoints stopped successfully", { a with scheduler := none }, scheduler.Stop w)

/-- The scheduler goroutines the handler state holds on to. -/
def API.live (a : API) : List Nat :=
  match a.scheduler with
  | none => []
  | some sch => sch.cancel.toList

/-- A request to the scheduler control surface. -/
inductive Request where
  | start
  | stop
deriving DecidableEq, Repr

def serve (env : Monitor.Env) (r : Request) (a : API) (w : Monitor.World) :
    Response × API × Monitor.World :=
  match r with
  | .start => StartEndPointChecks env a w
  | .stop => StopEndPointChecks a w

/-- Serves the requests in order; the state after the last one. -/
def serveAll (env : Monitor.Env) : List Request → API × Monitor.World → API × Monitor.World
  | [], s => s
  | r :: rest, s => serveAll env rest (serve env r s.1 s.2).2

end Handlers

namespace Websocket

/-! ## websocket/types.go, websocket/websocket.go -/

/-- The identity of a `*websocket.Conn`. -/
abbrev Conn := Nat

structure Message where
  Type_ : String := ""
  ID : String := ""
  Payload : String := ""
  /-- Nanoseconds on the clock; `none` is the zero `time.Time`. -/
  Timestamp : Option Nat := none
deriving DecidableEq, Repr

structure Client where
  conn : Conn
  entityID : String
deriving DecidableEq, Repr

/-- What the hub does to connections, in order. -/
inductive Action where
  /-- A call `conn.WriteMessage(websocket.TextMessage, data)` and whether it succeeded. -/
  | write (conn : Conn) (data : String) (ok : Bool)
  /-- A call `conn.Close()`. -/
  | close (conn : Conn)
deriving DecidableEq, Repr

/-- The hub: the map `clients` (a missing key reads `none`), and the state of the goroutine that
runs `Run`. The channels are unbuffered (`NewHub`), and only `Run` receives from them. -/
structure Hub where
  clients : String → Option (Finset Conn)
  /-- The client `Run` is trying to send on `h.unregister`, when it is stuck in that send. -/
  blockedOn : Option Client := none
  /-- Number of `WriteMessage` calls made so far. -/
  writes : Nat := 0
  /-- Number of `range` loops over a client set started so far. -/
  ranges : Nat := 0
  trace : List Action := []

/-- The collaborators outside the repository. -/
structure Env where
  /-- The library function `json.Marshal` on a `Message`. -/
  marshal : Message → Except String String
  /-- The error, if any, of the `n`-th `WriteMessage` call, made on `conn` with `data`. -/
  writeError : Nat → Conn → String → Option String
  /-- The order in which the `n`-th `range` loop visits the keys of a client set. -/
  rangeOrder : Nat → Finset Conn → List Conn

def NewHub : Hub := { clients := fun _ => none }

/-- The case `client := <-h.register` of `Run`. -/
def handleRegister (client : Client) (h : Hub) : Hub :=
  let set := (h.clients client.entityID).getD ∅
  { h with clients := fun e =>
      if e = client.entityID then some (insert client.conn set) else h.clients e }

/-- The case `client := <-h.unregister` of `Run`. -/
def handleUnregister (client : Client) (h : Hub) : Hub :=
  let h1 : Hub :=
    match h.clients client.entityID with
    | none => h
    | some clients =>
      let clients1 := clients.erase client.conn
      if clients1.card = 0 then
        { h with clients := fun e => if e = client.entityID then none else h.clients e }
      else
        { h with clients := fun e => if e = client.entityID then some clients1 else h.clients e }
  { h1 with trace := h1.trace ++ [.close client.conn] }

/-- The loop `for conn := range clients` of the broadcast case over the connections still to
visit. After a failed write the goroutine sends on `h.unregister`; the channel has no buffer
and this goroutine is its only receiver, so the send never completes. -/
def writeAll (env : Env) (entityID : String) (data : String) : List Conn → Hub → Hub
  | [], h => h
  | conn :: rest, h =>
    let err := env.writeError h.writes conn data
    let h1 : Hub :=
      { h with writes := h.writes + 1, trace := h.trace ++ [.write conn data err.isNone] }
    match err with
    | some _ => { h1 with blockedOn := some { conn := conn, entityID := entityID } }
    | none => writeAll env entityID data rest h1

/-- The case `message := <-h.broadcast` of `Run`. -/
def handleBroadcast (env : Env) (message : Message) (h : Hub) : Hub :=
  match h.clients message.ID with
  | none => h
  | some clients =>
    match env.marshal message with
    | .error _ => h
    | .ok data =>
      writeAll env message.ID data (env.rangeOrder h.ranges clients)
        { h with ranges := h.ranges + 1 }

/-- What arrives on the channels of the hub. -/
inductive Event where
  | register (client : Client)
  | unregister (client : Client)
  | broadcast (message : Message)
deriving DecidableEq, Repr

/-- One iteration of the loop of `Run` on the event its `select` receives; a goroutine stuck in
a send receives nothing. -/
def handle (env : Env) (e : Event) (h : Hub) : Hub :=
  if h.blockedOn.isSome then h
  else
    match e with
    | .register client => handleRegister client h
    | .unregister client => handleUnregister client h
    | .broadcast message => handleBroadcast env message h

/-- The loop of `Run` over the events that arrive, in order. -/
def run (env : Env) : List Event → Hub → Hub
  | [], h => h
  | e :: rest, h => run env rest (handle env e h)

/-- Whether `conn` is subscribed under `entityID`. -/
def subscribed (h : Hub) (entityID : String) (conn : Conn) : Bool :=
  match h.clients entityID with
  | none => false
  | some clients => decide (conn ∈ clients)

/-- The write actions of a trace that go to `conn`. -/
def writesTo (conn : Conn) (tr : List Action) : List Action :=
  tr.filter (fun a => match a with | .write c _ _ => c == conn | .close _ => false)

/-! ## A concrete scenario for the hub -/

/-- The scenario's connections: every write to connection `1` fails; a range loop visits the
connections of a set in the order of `visit`. -/
def demoEnv (visit : List Conn) : Env where
  marshal := fun m => .ok ("status " ++ m.ID ++ " " ++ m.Payload)
  writeError := fun _ c _ => if c == 1 then some "broken pipe" else none
  rangeOrder := fun _ s => visit.filter (fun c => decide (c ∈ s))

/-- Connections `1` and `2` watch `run-1`, connection `3` watches `run-2`. -/
def demoHub : Hub :=
  run (demoEnv [1, 2, 3])
    [.register ⟨1, "run-1"⟩, .register ⟨2, "run-1"⟩, .register ⟨3, "run-2"⟩] NewHub

def demoMessage : Message :=
  { Type_ := "pipeline_status_change", ID := "run-1", Payload := "running" }

/-- A hub in which every write succeeds: connections `2` and `4` watch `run-1`. -/
def demoHubSound : Hub :=
  run (demoEnv [4, 3, 2])
    [.register ⟨2, "run-1"⟩, .register ⟨4, "run-1"⟩, .register ⟨3, "run-2"⟩] NewHub

/-- No key of the client map holds an empty set. -/
def NoEmptySet (h : Hub) : Prop := ∀ e s, h.clients e = some s → s.Nonempty

end Websocket

namespace Gitlab

/-! # Theorems -/

/-! ## Basic facts about the repository layer -/

theorem validMicroIDs_iff (ids : List String) (k : String) :
    validMicroIDs ids k = true ↔ k ∈ ids := by
  unfold validMicroIDs
  induction ids using List.reverseRecOn with
  | nil => simp
  | append_singleton l a ih =>
    simp only [List.foldl_append, List.foldl_cons, List.foldl_nil, List.mem_append,
      List.mem_singleton]
    by_cases h : k = a
    · simp [h]
    · have hk : (k == a) = false := by simpa using h
      simp only [hk, Bool.false_eq_true, if_false]
      rw [ih]
      simp [h]

theorem validateSelection_some (valid : String → Bool) (sel : List String) (id : String) :
    validateSelection valid sel = some id ↔
      ∃ pre post, sel = pre ++ id :: post ∧ (∀ x ∈ pre, valid x = true) ∧ valid id = false := by
  induction sel with
  | nil => simp [validateSelection]
  | cons a rest ih =>
    unfold validateSelection
    by_cases ha : valid a = true
    · simp only [ha, Bool.not_true, Bool.false_eq_true, if_false, ih]
      constructor
      · rintro ⟨pre, post, rfl, hpre, hid⟩
        exact ⟨a :: pre, post, rfl, by simpa [ha] using hpre, hid⟩
      · rintro ⟨pre, post, heq, hpre, hid⟩
        cases pre with
        | nil =>
          simp only [List.nil_append, List.cons.injEq] at heq
          rw [heq.1, hid] at ha
          exact absurd ha (by simp)
        | cons b pre =>
          simp only [List.cons_append, List.cons.injEq] at heq
          exact ⟨pre, post, heq.2, fun x hx => hpre x (List.mem_cons_of_mem _ hx), hid⟩
    · have ha' : valid a = false := by simpa using ha
      simp only [ha', Bool.not_false, if_true, Option.some.injEq]
      constructor
      · rintro rfl
        exact ⟨[], rest, rfl, by simp, ha'⟩
      · rintro ⟨pre, post, heq, hpre, hid⟩
        cases pre with
        | nil =>
          simp only [List.nil_append, List.cons.injEq] at heq
          exact heq.1
        | cons b pre =>
          simp only [List.cons_append, List.cons.injEq] at heq
          have := hpre b (List.mem_cons_self _ _)
          rw [← heq.1, ha'] at this
          exact absurd this (by simp)

theorem validateSelection_none (valid : String → Bool) (sel : List String) :
    validateSelection valid sel = none ↔ ∀ x ∈ sel, valid x = true := by
  induction sel with
  | nil => simp [validateSelection]
  | cons a rest ih =>
    unfold validateSelection
    by_cases ha : valid a = true
    · simp [ha, ih]
    · have ha' : valid a = false := by simpa using ha
      simp [ha']

theorem GetPipelineUnit_store (env : Env) (id : String) (w : World) :
    (GetPipelineUnit env id w).2.store = w.store := by
  unfold GetPipelineUnit GetMicroServiceDependencies stmt
  cases h1 : env.dbFault w.dbCalls <;> simp only []
  cases h2 : w.store.pipelineUnits.find? (fun u => u.ID == id) <;> simp only []
  cases h3 : env.dbFault (w.dbCalls + 1) <;> simp only []

theorem GetPipelineUnit_trace (env : Env) (id : String) (w : World) :
    (GetPipelineUnit env id w).2.trace = w.trace := by
  unfold GetPipelineUnit GetMicroServiceDependencies stmt
  cases h1 : env.dbFault w.dbCalls <;> simp only []
  cases h2 : w.store.pipelineUnits.find? (fun u => u.ID == id) <;> simp only []
  cases h3 : env.dbFault (w.dbCalls + 1) <;> simp only []

theorem CreatePipelineRun_error (env : Env) (run : PipelineRun) (w : World) (e : Err)
    (h : (CreatePipelineRun env run w).1 = .error e) : ∃ m, e = .db m := by
  unfold CreatePipelineRun stmt at h
  split at h
  split at h
  · simp only [Except.error.injEq] at h
    exact ⟨_, h.symm⟩
  · simp at h

theorem CreateAuthorizationRequest_error (env : Env) (req : AuthorizationRequest) (w : World)
    (e : Err) (h : (CreateAuthorizationRequest env req w).1 = .error e) : ∃ m, e = .db m := by
  unfold CreateAuthorizationRequest stmt at h
  split at h
  split at h
  · simp only [Except.error.injEq] at h
    exact ⟨_, h.symm⟩
  · simp at h

/-- When the selection passes validation, `TriggerPipelineUnit` can only fail with a
persistence error. -/
theorem TriggerPipelineUnit_error_of_valid (env : Env) (pipelineUnitID requesterID : String)
    (sel : List String) (w w1 : World) (unit : PipelineUnit)
    (hunit : GetPipelineUnit env pipelineUnitID w = (.ok unit, w1))
    (hv : validateSelection (validMicroIDs unit.MicroServiceIDs) sel = none) (e : Err)
    (h : (TriggerPipelineUnit env pipelineUnitID requesterID sel w).1 = .error e) :
    ∃ m, e = .db m := by
  simp only [TriggerPipelineUnit, hunit, hv] at h
  cases hr : CreatePipelineRun env
    { PipelineUnitID := pipelineUnitID, Status := StatusPending,
      SelectedMicroServiceIDs := sel } w1 with
  | mk r w2 =>
    rw [hr] at h
    cases r with
    | error err =>
      simp only [Except.error.injEq] at h
      subst h
      exact CreatePipelineRun_error env _ w1 err (by rw [hr])
    | ok createdRun =>
      simp only [] at h
      cases ha : CreateAuthorizationRequest env
        { PipelineRunID := createdRun.ID, RequesterID := requesterID, ApproverID := none,
          Status := StatusPending } w2 with
      | mk a w3 =>
        rw [ha] at h
        cases a with
        | error err =>
          simp only [Except.error.injEq] at h
          subst h
          exact CreateAuthorizationRequest_error env _ w2 err (by rw [ha])
        | ok req =>
          simp only [] at h
          split at h <;> simp at h

theorem broadcastPipelineStatusChange_store (env : Env) (runID : String)
    (status : PipelineStatus) (message : String) (w : World) :
    (broadcastPipelineStatusChange env runID status message w).store = w.store := by
  unfold broadcastPipelineStatusChange stmt emit
  cases env.dbFault w.dbCalls <;> rfl

/-- The joined read changes nothing but the statement counter. -/
theorem GetAuthorizationRequestByID_world (env : Env) (id : String) (w : World) :
    (GetAuthorizationRequestByID env id w).2 = { w with dbCalls := w.dbCalls + 1 } := by
  unfold GetAuthorizationRequestByID stmt
  cases env.dbFault w.dbCalls with
  | some e => rfl
  | none =>
    simp only
    split
    · rfl
    · split
      · rfl
      · split <;> rfl

/-- Looking up the delivery address changes nothing but the statement counter. -/
theorem GetDeliveryEmail_world (env : Env) (userID : UUID) (w : World) :
    (GetDeliveryEmail env userID w).2 = { w with dbCalls := w.dbCalls + 1 } := by
  unfold GetDeliveryEmail stmt
  cases env.dbFault w.dbCalls with
  | some e => rfl
  | none =>
    simp only
    split <;> rfl

theorem GetAuthorizationRequestByID_store (env : Env) (id : String) (w : World) :
    (GetAuthorizationRequestByID env id w).2.store = w.store := by
  rw [GetAuthorizationRequestByID_world]

/-- The joined read returns the request when its statement does not fail, the request is
stored, its requester is a registered user, and its run and the run's unit are stored. -/
theorem GetAuthorizationRequestByID_found (env : Env) (id : String) (w : World)
    (ar : AuthorizationRequest) (requester : UUID) (hdb : env.dbFault w.dbCalls = none)
    (har : w.store.authorizationRequests.find? (fun a => a.ID == id) = some ar)
    (hparse : env.uuidParse ar.RequesterID = some requester)
    (huser : (env.deliveryEmail requester).isSome = true)
    (hjoin : w.store.pipelineRuns.any (fun pr => pr.ID == ar.PipelineRunID &&
      w.store.pipelineUnits.any (fun pu => pu.ID == pr.PipelineUnitID)) = true) :
    (GetAuthorizationRequestByID env id w).1 = .ok (some ar) := by
  unfold GetAuthorizationRequestByID stmt
  simp only [hdb, har, hparse, huser, hjoin, Bool.and_self, if_true]

/-! ## Claims on `TriggerPipelineUnit` -/

/-- C1: for a unit that was looked up successfully, `TriggerPipelineUnit` fails with the
invalid-selection error iff some selected ID is not among the unit's declared micro-service
dependencies; the error then names the first such ID in the order of the selection (every ID
before it is declared), and the store is unchanged, so no PipelineRun and no
AuthorizationRequest has been created. -/
theorem TriggerPipelineUnit_invalid_selection (env : Env) (pipelineUnitID requesterID : String)
    (sel : List String) (w w1 : World) (unit : PipelineUnit)
    (hunit : GetPipelineUnit env pipelineUnitID w = (.ok unit, w1)) :
    ((∃ id, (TriggerPipelineUnit env pipelineUnitID requesterID sel w).1
          = .error (.invalidSelection id))
        ↔ ∃ id ∈ sel, id ∉ unit.MicroServiceIDs) ∧
    (∀ id, (TriggerPipelineUnit env pipelineUnitID requesterID sel w).1
          = .error (.invalidSelection id) →
        (∃ pre post, sel = pre ++ id :: post ∧ (∀ x ∈ pre, x ∈ unit.MicroServiceIDs) ∧
          id ∉ unit.MicroServiceIDs) ∧
        (TriggerPipelineUnit env pipelineUnitID requesterID sel w).2.store = w.store ∧
        (TriggerPipelineUnit env pipelineUnitID requesterID sel w).2.store.pipelineRuns
          = w.store.pipelineRuns ∧
        (TriggerPipelineUnit env pipelineUnitID requesterID sel w).2.store.authorizationRequests
          = w.store.authorizationRequests) := by
  have hstore : w1.store = w.store := by
    have := GetPipelineUnit_store env pipelineUnitID w
    rw [hunit] at this
    exact this
  cases hv : validateSelection (validMicroIDs unit.MicroServiceIDs) sel with
  | some bad =>
    have hres : TriggerPipelineUnit env pipelineUnitID requesterID sel w
        = (.error (.invalidSelection bad), w1) := by
      simp only [TriggerPipelineUnit, hunit, hv]
    obtain ⟨pre, post, hsel, hpre, hbad⟩ := (validateSelection_some _ _ _).1 hv
    have hbad' : bad ∉ unit.MicroServiceIDs := by
      intro hmem
      rw [(validMicroIDs_iff _ _).2 hmem] at hbad
      exact absurd hbad (by simp)
    have hpre' : ∀ x ∈ pre, x ∈ unit.MicroServiceIDs :=
      fun x hx => (validMicroIDs_iff _ _).1 (hpre x hx)
    rw [hres]
    refine ⟨⟨fun _ => ⟨bad, by simp [hsel], hbad'⟩, fun _ => ⟨bad, rfl⟩⟩, ?_⟩
    intro id hid
    simp only [Except.error.injEq, Err.invalidSelection.injEq] at hid
    subst hid
    exact ⟨⟨pre, post, hsel, hpre', hbad'⟩, hstore, by rw [hstore], by rw [hstore]⟩
  | none =>
    have hall := (validateSelection_none _ _).1 hv
    have hno : ∀ id, (TriggerPipelineUnit env pipelineUnitID requesterID sel w).1
        ≠ .error (.invalidSelection id) := by
      intro id hid
      obtain ⟨m, hm⟩ := TriggerPipelineUnit_error_of_valid env pipelineUnitID requesterID sel w w1
        unit hunit hv _ hid
      cases hm
    refine ⟨⟨fun ⟨id, hid⟩ => absurd hid (hno id), ?_⟩, fun id hid => absurd hid (hno id)⟩
    rintro ⟨id, hmem, hnot⟩
    exact absurd ((validMicroIDs_iff _ _).1 (hall id hmem)) hnot

theorem TriggerPipelineUnit_invalid_selection_witness :
    GetPipelineUnit demoEnv "U" demoWorld = (.ok demoUnit, { demoWorld with dbCalls := 2 }) ∧
    (TriggerPipelineUnit demoEnv "U" demoRequester ["A", "Z", "Y"] demoWorld).1
      = .error (.invalidSelection "Z") ∧
    ((∃ id, (TriggerPipelineUnit demoEnv "U" demoRequester ["A", "Z", "Y"] demoWorld).1
          = .error (.invalidSelection id))
        ↔ ∃ id ∈ ["A", "Z", "Y"], id ∉ demoUnit.MicroServiceIDs) :=
  ⟨by rfl, by rfl,
   (TriggerPipelineUnit_invalid_selection demoEnv "U" demoRequester ["A", "Z", "Y"] demoWorld
      { demoWorld with dbCalls := 2 } demoUnit (by rfl)).1⟩

/-- C5: for a unit that was looked up successfully and a selection all of whose IDs are
declared dependencies of the unit, when every persistence statement succeeds
`TriggerPipelineUnit` returns a run with status Pending, the given unit ID and the selection
unchanged (same elements, same order); that run is the one new row of `pipeline_runs`, and
exactly one AuthorizationRequest is added, with status Pending, the returned run's ID, the
requester's ID and no approver. -/
theorem TriggerPipelineUnit_creates_pending (env : Env) (pipelineUnitID requesterID : String)
    (sel : List String) (w w1 : World) (unit : PipelineUnit)
    (hdb : ∀ n, env.dbFault n = none)
    (hunit : GetPipelineUnit env pipelineUnitID w = (.ok unit, w1))
    (hsel : ∀ id ∈ sel, id ∈ unit.MicroServiceIDs) :
    ∃ run req,
      (TriggerPipelineUnit env pipelineUnitID requesterID sel w).1 = .ok run ∧
      run.Status = StatusPending ∧ run.PipelineUnitID = pipelineUnitID ∧
      run.SelectedMicroServiceIDs = sel ∧
      (TriggerPipelineUnit env pipelineUnitID requesterID sel w).2.store.pipelineRuns
        = w.store.pipelineRuns ++ [run] ∧
      (TriggerPipelineUnit env pipelineUnitID requesterID sel w).2.store.authorizationRequests
        = w.store.authorizationRequests ++ [req] ∧
      req.Status = StatusPending ∧ req.PipelineRunID = run.ID ∧
      req.RequesterID = requesterID ∧ req.ApproverID = none := by
  have hstore : w1.store = w.store := by
    have := GetPipelineUnit_store env pipelineUnitID w
    rw [hunit] at this
    exact this
  have hv : validateSelection (validMicroIDs unit.MicroServiceIDs) sel = none :=
    (validateSelection_none _ _).2 (fun x hx => (validMicroIDs_iff _ _).2 (hsel x hx))
  refine ⟨{ ID := env.newUUID w1.uuidCalls, PipelineUnitID := pipelineUnitID,
            Status := StatusPending, CreatedAt := some w1.clock, UpdatedAt := some w1.clock,
            SelectedMicroServiceIDs := sel },
          { ID := env.newUUID (w1.uuidCalls + 1), PipelineRunID := env.newUUID w1.uuidCalls,
            RequesterID := requesterID, ApproverID := none, Status := StatusPending,
            CreatedAt := some w1.clock, UpdatedAt := some w1.clock }, ?_⟩
  simp only [TriggerPipelineUnit, hunit, hv, CreatePipelineRun, CreateAuthorizationRequest,
    stmt, newID, hdb, now, beq_self_eq_true, if_true]
  generalize hG : GetAuthorizationRequestByID env _ _ = g
  obtain ⟨r, w4⟩ := g
  have hs := congrArg (fun p => p.2.store) hG
  simp only [GetAuthorizationRequestByID_store] at hs
  cases r <;>
    simp [broadcastPipelineStatusChange_store, ← hs, hstore]

theorem TriggerPipelineUnit_creates_pending_witness :
    (∀ n, demoEnv.dbFault n = none) ∧
    GetPipelineUnit demoEnv "U" demoWorld = (.ok demoUnit, { demoWorld with dbCalls := 2 }) ∧
    (∀ id ∈ ["B", "A"], id ∈ demoUnit.MicroServiceIDs) ∧
    ∃ run req,
      (TriggerPipelineUnit demoEnv "U" demoRequester ["B", "A"] demoWorld).1 = .ok run ∧
      run.Status = StatusPending ∧ run.PipelineUnitID = "U" ∧
      run.SelectedMicroServiceIDs = ["B", "A"] ∧
      (TriggerPipelineUnit demoEnv "U" demoRequester ["B", "A"] demoWorld).2.store.pipelineRuns
        = demoWorld.store.pipelineRuns ++ [run] ∧
      (TriggerPipelineUnit demoEnv "U" demoRequester ["B", "A"] demoWorld).2.store.authorizationRequests
        = demoWorld.store.authorizationRequests ++ [req] ∧
      req.Status = StatusPending ∧ req.PipelineRunID = run.ID ∧
      req.RequesterID = demoRequester ∧ req.ApproverID = none :=
  ⟨fun _ => rfl, by rfl, by decide,
   TriggerPipelineUnit_creates_pending demoEnv "U" demoRequester ["B", "A"] demoWorld
     { demoWorld with dbCalls := 2 } demoUnit (fun _ => rfl) (by rfl) (by decide)⟩

/-! ## Claims on `ApprovePipelineRun` and `RejectPipelineRun` -/

theorem find?_map_update {α : Type} (key : α → String) (id : String) (upd : α → α)
    (hk : ∀ x, key (upd x) = key x) (l : List α) :
    (l.map (fun r => if key r == id then upd r else r)).find? (fun r => key r == id)
      = (l.find? (fun r => key r == id)).map upd := by
  induction l with
  | nil => rfl
  | cons a l ih =>
    by_cases h : (key a == id) = true
    · simp only [List.map_cons, h, if_true, List.find?_cons, hk, Option.map_some']
    · simp only [Bool.not_eq_true] at h
      simp only [List.map_cons, h, Bool.false_eq_true, if_false, List.find?_cons, ih]

theorem GetPipelineUnit_of_noFault (env : Env) (hdb : ∀ n, env.dbFault n = none) (id : String)
    (w : World) : ∃ unit w1, GetPipelineUnit env id w = (.ok unit, w1) ∧ w1.store = w.store ∧
      w1.trace = w.trace := by
  unfold GetPipelineUnit GetMicroServiceDependencies stmt
  simp only [hdb]
  cases h2 : w.store.pipelineUnits.find? (fun u => u.ID == id) <;> exact ⟨_, _, rfl, rfl, rfl⟩

theorem find?_map_update' {α : Type} (key : α → String) (id : String) (upd : α → α)
    (hk : ∀ x, key (upd x) = key x) (l : List α) :
    (l.map (fun r => if key r = id then upd r else r)).find? (fun r => key r == id)
      = (l.find? (fun r => key r == id)).map upd := by
  have := find?_map_update key id upd hk l
  simpa using this

theorem GetPipelineUnit_isOk_of_noFault (env : Env) (hdb : ∀ n, env.dbFault n = none)
    (id : String) (w : World) (err : Err) (w1 : World) :
    GetPipelineUnit env id w ≠ (.error err, w1) := by
  obtain ⟨unit, w2, h, _, _⟩ := GetPipelineUnit_of_noFault env hdb id w
  rw [h]
  simp

theorem any_map_preserved {α : Type} (p : α → Bool) (f : α → α) (hf : ∀ a, p (f a) = p a)
    (l : List α) : (l.map f).any p = l.any p := by
  induction l with
  | nil => rfl
  | cons a l ih => simp only [List.map_cons, List.any_cons, hf, ih]

/-- A stored run whose unit is stored is a partner for the joins of the joined read. -/
theorem joins_of_stored (st : Store) (id : String) (run : PipelineRun)
    (hrun : st.pipelineRuns.find? (fun r => r.ID == id) = some run)
    (hunit : st.pipelineUnits.any (fun pu => pu.ID == run.PipelineUnitID) = true) :
    st.pipelineRuns.any (fun pr => pr.ID == id &&
      st.pipelineUnits.any (fun pu => pu.ID == pr.PipelineUnitID)) = true := by
  rw [List.any_eq_true]
  refine ⟨run, List.mem_of_find?_eq_some hrun, ?_⟩
  have := List.find?_some hrun
  simp only [this, hunit, Bool.and_self]

/-- The world `ApprovePipelineRun` returns when no statement fails, the request is Pending,
its requester is a registered user, its run and the run's unit exist and the approver parses. -/
theorem ApprovePipelineRun_of_noFault (env : Env) (authRequestID approverID comment : String)
    (w : World) (req : AuthorizationRequest) (run : PipelineRun) (u requester : UUID)
    (hdb : ∀ n, env.dbFault n = none)
    (hreq : w.store.authorizationRequests.find? (fun a => a.ID == authRequestID) = some req)
    (hpending : req.Status = StatusPending)
    (hrun : w.store.pipelineRuns.find? (fun r => r.ID == req.PipelineRunID) = some run)
    (hunit : w.store.pipelineUnits.any (fun pu => pu.ID == run.PipelineUnitID) = true)
    (hparse : env.uuidParse req.RequesterID = some requester)
    (huser : (env.deliveryEmail requester).isSome = true)
    (huuid : env.uuidParse approverID = some u) (hne : approverID ≠ "") :
    ∃ w1 l, ApprovePipelineRun env authRequestID approverID comment w = (none, w1, some l) ∧
      w1.store.authorizationRequests = w.store.authorizationRequests.map (fun r =>
        if r.ID = authRequestID then
          { r with Status := StatusAccepted, Comment := comment, ApproverID := some approverID,
                   UpdatedAt := some w.clock }
        else r) ∧
      w1.store.pipelineRuns = w.store.pipelineRuns.map (fun r =>
        if r.ID = req.PipelineRunID then
          { r with Status := StatusAccepted, UpdatedAt := some w.clock }
        else r) ∧
      w1.store.executionHistory = w.store.executionHistory ++
        [{ ID := env.newUUID w.uuidCalls, PipelineRunID := req.PipelineRunID,
           RequesterID := req.RequesterID, ApproverID := u, Status := StatusRunning,
           StartedAt := some w.clock }] := by
  have hrid : run.ID = req.PipelineRunID := by
    have := List.find?_some hrun
    simpa using this
  have hqid : req.ID = authRequestID := by
    have := List.find?_some hreq
    simpa using this
  have hne' : (approverID != "") = true := by simpa using hne
  simp only [ApprovePipelineRun, GetAuthorizationRequest, stmt, hdb, hreq, hpending,
    UpdateAuthorizationRequest, GetPipelineRun, hrun, UpdatePipelineRunStatus, huuid,
    CreateExecutionHistory, newID, broadcastPipelineStatusChange, emit, now, hrid, hqid,
    Option.getD_some, bne_self_eq_false, Bool.false_eq_true, if_false, beq_self_eq_true, if_true,
    hne']
  generalize hG : GetPipelineUnit env run.PipelineUnitID _ = g
  obtain ⟨r, w7⟩ := g
  have hs := congrArg (fun p => p.2.store) hG
  simp only [GetPipelineUnit_store] at hs
  cases r with
  | error err => exact absurd hG (GetPipelineUnit_isOk_of_noFault env hdb _ _ _ _)
  | ok unit =>
    have har : w7.store.authorizationRequests.find? (fun a => a.ID == authRequestID)
        = some { req with Status := StatusAccepted, Comment := comment,
                          ApproverID := some approverID, UpdatedAt := some w.clock } := by
      have := find?_map_update' (fun a : AuthorizationRequest => a.ID) authRequestID
        (fun r => { r with Status := StatusAccepted, Comment := comment,
                           ApproverID := some approverID, UpdatedAt := some w.clock })
        (fun _ => rfl) w.store.authorizationRequests
      simp only [hreq, Option.map_some'] at this
      rw [← hs]
      simpa using this
    have hjoin : w7.store.pipelineRuns.any (fun pr => pr.ID == req.PipelineRunID &&
        w7.store.pipelineUnits.any (fun pu => pu.ID == pr.PipelineUnitID)) = true := by
      rw [← hs]
      simp only []
      rw [any_map_preserved]
      · exact joins_of_stored w.store req.PipelineRunID run hrun hunit
      · intro a
        split <;> rfl
    have hfound := GetAuthorizationRequestByID_found env authRequestID
      { w7 with dbCalls := w7.dbCalls + 1 } _ requester (hdb _) har hparse huser hjoin
    simp only [GetDeliveryEmail_world, hfound]
    refine ⟨_, _, rfl, ?_, ?_, ?_⟩ <;> simp [GetAuthorizationRequestByID_world, ← hs]

/-- C3: for a stored request in status Pending, an approver ID that `uuid.Parse` accepts (such
a text is never empty) and any comment, when every persistence call succeeds (no statement
fails and each lookup finds its row: the request's run, that run's unit, and the requester's
row of `users`) `ApprovePipelineRun` returns no error, and at its return the request has
status Accepted with that approver ID and comment, its run has status Accepted, and exactly
one ExecutionHistory row was added: for that run, with status Running, the request's requester
ID and the parsed approver ID. -/
theorem ApprovePipelineRun_accepts (env : Env) (authRequestID approverID comment : String)
    (w : World) (req : AuthorizationRequest) (run : PipelineRun) (u requester : UUID)
    (hdb : ∀ n, env.dbFault n = none)
    (hreq : w.store.authorizationRequests.find? (fun a => a.ID == authRequestID) = some req)
    (hpending : req.Status = StatusPending)
    (hrun : w.store.pipelineRuns.find? (fun r => r.ID == req.PipelineRunID) = some run)
    (hunit : w.store.pipelineUnits.any (fun pu => pu.ID == run.PipelineUnitID) = true)
    (hparse : env.uuidParse req.RequesterID = some requester)
    (huser : (env.deliveryEmail requester).isSome = true)
    (huuid : env.uuidParse approverID = some u) (hne : approverID ≠ "") :
    (ApprovePipelineRun env authRequestID approverID comment w).1 = none ∧
    (∃ req', (ApprovePipelineRun env authRequestID approverID comment
          w).2.1.store.authorizationRequests.find? (fun a => a.ID == authRequestID) = some req' ∧
        req'.Status = StatusAccepted ∧ req'.ApproverID = some approverID ∧
        req'.Comment = comment) ∧
    (∃ run', (ApprovePipelineRun env authRequestID approverID comment
          w).2.1.store.pipelineRuns.find? (fun r => r.ID == req.PipelineRunID) = some run' ∧
        run'.Status = StatusAccepted) ∧
    (∃ h, (ApprovePipelineRun env authRequestID approverID comment w).2.1.store.executionHistory
          = w.store.executionHistory ++ [h] ∧
        h.PipelineRunID = req.PipelineRunID ∧ h.Status = StatusRunning ∧
        h.RequesterID = req.RequesterID ∧ h.ApproverID = u) := by
  obtain ⟨w1, l, hA, ha, hr, hh⟩ := ApprovePipelineRun_of_noFault env authRequestID approverID
    comment w req run u requester hdb hreq hpending hrun hunit hparse huser huuid hne
  rw [hA]
  refine ⟨rfl, ?_, ?_, ⟨_, hh, rfl, rfl, rfl, rfl⟩⟩
  · have := find?_map_update' (fun a : AuthorizationRequest => a.ID) authRequestID
      (fun r => { r with Status := StatusAccepted, Comment := comment,
                         ApproverID := some approverID, UpdatedAt := some w.clock })
      (fun _ => rfl) w.store.authorizationRequests
    simp only [hreq, Option.map_some'] at this
    exact ⟨_, by rw [ha]; exact this, rfl, rfl, rfl⟩
  · have := find?_map_update' (fun r : PipelineRun => r.ID) req.PipelineRunID
      (fun r => { r with Status := StatusAccepted, UpdatedAt := some w.clock })
      (fun _ => rfl) w.store.pipelineRuns
    simp only [hrun, Option.map_some'] at this
    exact ⟨_, by rw [hr]; exact this, rfl⟩

theorem stmt_store (env : Env) (w : World) : (stmt env w).2.store = w.store := rfl

theorem GetPipelineRun_store (env : Env) (id : String) (w : World) :
    (GetPipelineRun env id w).2.store = w.store := by
  unfold GetPipelineRun stmt
  cases env.dbFault w.dbCalls <;> rfl

theorem UpdatePipelineRunStatus_authorizationRequests (env : Env) (id : String)
    (status : PipelineStatus) (w : World) :
    (UpdatePipelineRunStatus env id status w).2.store.authorizationRequests
      = w.store.authorizationRequests := by
  unfold UpdatePipelineRunStatus stmt
  cases env.dbFault w.dbCalls <;> rfl

theorem CreateExecutionHistory_authorizationRequests (env : Env) (h : ExecutionHistory)
    (w : World) :
    (CreateExecutionHistory env h w).2.store.authorizationRequests
      = w.store.authorizationRequests := by
  unfold CreateExecutionHistory stmt newID
  cases (h.ID == "") <;> simp only [Bool.false_eq_true, if_false, if_true] <;>
    cases env.dbFault w.dbCalls <;> rfl

theorem UpdateAuthorizationRequest_status (env : Env) (id : String) (status : PipelineStatus)
    (comment : String) (approverID : List String) (w w1 : World)
    (h : UpdateAuthorizationRequest env id status comment approverID w = (none, w1)) :
    ∀ r ∈ w1.store.authorizationRequests, r.ID = id → r.Status = status := by
  unfold UpdateAuthorizationRequest stmt at h
  cases hf : env.dbFault w.dbCalls
  case some e => simp [hf] at h
  case none =>
    simp only [hf, Prod.mk.injEq, true_and] at h
    subst h
    intro r hr hid
    simp only [List.mem_map] at hr
    obtain ⟨r0, _, hr0⟩ := hr
    split at hr0
    · subst hr0
      split <;> [split; skip] <;> rfl
    · subst hr0
      rename_i hne
      simp [hid] at hne

theorem ApprovePipelineRun_marks_accepted (env : Env) (authRequestID approverID comment : String)
    (w : World) :
    (ApprovePipelineRun env authRequestID approverID comment w).1 = none →
    ∀ r ∈ (ApprovePipelineRun env authRequestID approverID comment
        w).2.1.store.authorizationRequests, r.ID = authRequestID → r.Status = StatusAccepted := by
  unfold ApprovePipelineRun
  split
  · simp
  · split
    · simp
    · split
      · simp
      · rename_i w2 hupd
        have hacc := UpdateAuthorizationRequest_status _ _ _ _ _ _ _ hupd
        split
        · simp
        · rename_i run w3 hrun
          have h3 := congrArg (fun p => p.2.store) hrun
          simp only [GetPipelineRun_store] at h3
          split
          · simp
          · rename_i w4 hst
            have h4 := congrArg (fun p => p.2.store.authorizationRequests) hst
            simp only [UpdatePipelineRunStatus_authorizationRequests] at h4
            split
            · simp
            · dsimp only
              split
              · simp
              · rename_i hist w5 hch
                have h5 := congrArg (fun p => p.2.store.authorizationRequests) hch
                simp only [CreateExecutionHistory_authorizationRequests] at h5
                split
                · simp
                · rename_i unit w7 hgu
                  have h7 := congrArg (fun p => p.2.store) hgu
                  simp only [GetPipelineUnit_store, broadcastPipelineStatusChange_store] at h7
                  generalize hB : GetAuthorizationRequestByID env _ _ = b
                  obtain ⟨full, w8⟩ := b
                  have h8 := congrArg (fun p => p.2.store) hB
                  simp only [GetAuthorizationRequestByID_store, GetDeliveryEmail_world] at h8
                  split
                  · simp
                  · intro _
                    simp only [← h8, ← h7, ← h5, ← h4, ← h3]
                    exact hacc

theorem GetAuthorizationRequest_world (env : Env) (id : String) (w : World) :
    (GetAuthorizationRequest env id w).2 = { w with dbCalls := w.dbCalls + 1 } := by
  unfold GetAuthorizationRequest stmt
  cases env.dbFault w.dbCalls with
  | some e => rfl
  | none =>
    simp only
    split <;> rfl

theorem GetAuthorizationRequest_store (env : Env) (id : String) (w : World) :
    (GetAuthorizationRequest env id w).2.store = w.store := by
  rw [GetAuthorizationRequest_world]

theorem GetAuthorizationRequest_trace (env : Env) (id : String) (w : World) :
    (GetAuthorizationRequest env id w).2.trace = w.trace := by
  rw [GetAuthorizationRequest_world]

theorem GetAuthorizationRequest_ciCalls (env : Env) (id : String) (w : World) :
    (GetAuthorizationRequest env id w).2.ciCalls = w.ciCalls := by
  rw [GetAuthorizationRequest_world]

/-- C2: when the looked-up request has a status other than Pending, `ApprovePipelineRun`
returns the not-pending error, leaves the whole store (request, run, ExecutionHistory rows)
and the trace unchanged and starts no execution goroutine. In particular, after an approval
that returned no error, a second approval of the same request, made in any world whose
`authorization_requests` rows are those left by the first and whose lookup statement succeeds,
fails this way and adds no ExecutionHistory row. -/
theorem ApprovePipelineRun_not_pending (env : Env) :
    (∀ (authRequestID approverID comment : String) (w w1 : World) (req : AuthorizationRequest),
      GetAuthorizationRequest env authRequestID w = (.ok req, w1) →
      req.Status ≠ StatusPending →
      ApprovePipelineRun env authRequestID approverID comment w = (some .notPending, w1, none) ∧
      w1.store = w.store ∧ w1.trace = w.trace ∧ w1.ciCalls = w.ciCalls) ∧
    (∀ (authRequestID approverID comment approverID2 comment2 : String) (w w2 : World),
      (ApprovePipelineRun env authRequestID approverID comment w).1 = none →
      w2.store.authorizationRequests
        = (ApprovePipelineRun env authRequestID approverID comment w).2.1.store.authorizationRequests →
      env.dbFault w2.dbCalls = none →
      (ApprovePipelineRun env authRequestID approverID2 comment2 w2).1 = some .notPending ∧
      (ApprovePipelineRun env authRequestID approverID2 comment2 w2).2.1.store = w2.store ∧
      (ApprovePipelineRun env authRequestID approverID2 comment2 w2).2.1.store.executionHistory
        = w2.store.executionHistory ∧
      (ApprovePipelineRun env authRequestID approverID2 comment2 w2).2.1.trace = w2.trace ∧
      (ApprovePipelineRun env authRequestID approverID2 comment2 w2).2.2 = none) := by
  have part1 : ∀ (authRequestID approverID comment : String) (w w1 : World)
      (req : AuthorizationRequest),
      GetAuthorizationRequest env authRequestID w = (.ok req, w1) →
      req.Status ≠ StatusPending →
      ApprovePipelineRun env authRequestID approverID comment w = (some .notPending, w1, none) ∧
      w1.store = w.store ∧ w1.trace = w.trace ∧ w1.ciCalls = w.ciCalls := by
    intro authRequestID approverID comment w w1 req hget hst
    have hs := congrArg (fun p => p.2.store) hget
    have ht := congrArg (fun p => p.2.trace) hget
    have hc := congrArg (fun p => p.2.ciCalls) hget
    simp only [GetAuthorizationRequest_store, GetAuthorizationRequest_trace,
      GetAuthorizationRequest_ciCalls] at hs ht hc
    refine ⟨?_, hs.symm, ht.symm, hc.symm⟩
    have hst' : (req.Status != StatusPending) = true := by simpa using hst
    simp only [ApprovePipelineRun, hget, hst', if_true]
  refine ⟨part1, ?_⟩
  intro authRequestID approverID comment approverID2 comment2 w w2 hok hrows hfault
  have hacc := ApprovePipelineRun_marks_accepted env authRequestID approverID comment w hok
  rw [← hrows] at hacc
  have hlook : ∃ req, GetAuthorizationRequest env authRequestID w2
      = (.ok req, { w2 with dbCalls := w2.dbCalls + 1 }) ∧ req.Status ≠ StatusPending := by
    simp only [GetAuthorizationRequest, stmt, hfault]
    cases hf : w2.store.authorizationRequests.find? (fun a => a.ID == authRequestID) with
    | none => exact ⟨_, rfl, by decide⟩
    | some r =>
      have hmem := List.mem_of_find?_eq_some hf
      have hid : r.ID = authRequestID := by simpa using List.find?_some hf
      refine ⟨_, rfl, ?_⟩
      simp only [hacc r hmem hid]
      decide
  obtain ⟨req2, hget, hst⟩ := hlook
  obtain ⟨h1, h2, h3, _⟩ := part1 authRequestID approverID2 comment2 w2 _ _ hget hst
  rw [h1]
  exact ⟨rfl, rfl, rfl, rfl, rfl⟩

/-- The world `RejectPipelineRun` ends in when no statement fails, the request is Pending and
the approver parses; it returns no error when moreover the request's run and that run's unit
are stored and the requester is a registered user. -/
theorem RejectPipelineRun_of_noFault (env : Env) (authRequestID approverID comment : String)
    (w : World) (req : AuthorizationRequest) (u : UUID)
    (hdb : ∀ n, env.dbFault n = none)
    (hreq : w.store.authorizationRequests.find? (fun a => a.ID == authRequestID) = some req)
    (hpending : req.Status = StatusPending)
    (huuid : env.uuidParse approverID = some u) :
    ∃ r w1, RejectPipelineRun env authRequestID approverID comment w = (r, w1) ∧
      (∀ (run : PipelineRun) (requester : UUID),
        w.store.pipelineRuns.find? (fun r => r.ID == req.PipelineRunID) = some run →
        w.store.pipelineUnits.any (fun pu => pu.ID == run.PipelineUnitID) = true →
        env.uuidParse req.RequesterID = some requester →
        (env.deliveryEmail requester).isSome = true → r = none) ∧
      w1.store.authorizationRequests = w.store.authorizationRequests.map (fun r =>
        if r.ID = authRequestID then
          { r with Status := StatusRejected, Comment := comment, UpdatedAt := some w.clock }
        else r) ∧
      w1.store.pipelineRuns = w.store.pipelineRuns.map (fun r =>
        if r.ID = req.PipelineRunID then
          { r with Status := StatusRejected, UpdatedAt := some w.clock }
        else r) ∧
      w1.store.executionHistory = w.store.executionHistory ++
        [{ ID := env.newUUID w.uuidCalls, PipelineRunID := req.PipelineRunID,
           RequesterID := req.RequesterID, ApproverID := u, Status := StatusRejected,
           StartedAt := some w.clock, CompletedAt := some w.clock, ErrorMessage := comment }] ∧
      w1.ciCalls = w.ciCalls ∧
      ∃ enriched, w1.trace = w.trace ++ [.broadcast req.PipelineRunID StatusRejected
        ("Pipeline run rejected: " ++ comment) enriched] := by
  have hqid : req.ID = authRequestID := by
    have := List.find?_some hreq
    simpa using this
  have har := find?_map_update (fun a : AuthorizationRequest => a.ID) authRequestID
    (fun r => { r with Status := StatusRejected, Comment := comment, UpdatedAt := some w.clock })
    (fun _ => rfl) w.store.authorizationRequests
  simp only [hreq, Option.map_some'] at har
  simp only [RejectPipelineRun, GetAuthorizationRequest, stmt, hdb, hreq, hpending,
    UpdateAuthorizationRequest, UpdatePipelineRunStatus, huuid, hqid,
    CreateExecutionHistory, newID, broadcastPipelineStatusChange, emit, now,
    bne_self_eq_false, Bool.false_eq_true, if_false, beq_self_eq_true, if_true,
    GetDeliveryEmail_world]
  generalize hB : GetAuthorizationRequestByID env authRequestID _ = b
  obtain ⟨full, w7⟩ := b
  have h1 := congrArg (fun p => p.1) hB
  have h2 := congrArg (fun p => p.2) hB
  simp only [GetAuthorizationRequestByID_world] at h2
  dsimp only at h1
  subst h2
  refine ⟨_, _, rfl, ?_, ?_, ?_, ?_, rfl, ⟨_, rfl⟩⟩
  · intro run requester hrun hunit hparse huser
    have hjoin := joins_of_stored w.store req.PipelineRunID run hrun hunit
    rw [← any_map_preserved _ (fun r : PipelineRun => if r.ID == req.PipelineRunID then
      { r with Status := StatusRejected, UpdatedAt := some w.clock } else r)
      (by intro a; dsimp only; split <;> rfl)] at hjoin
    rw [GetAuthorizationRequestByID_found env authRequestID _
      { req with Status := StatusRejected, Comment := comment, UpdatedAt := some w.clock }
      requester (hdb _) har hparse huser hjoin] at h1
    subst h1
    rfl
  · simp
  · simp
  · simp

/-- C4: `RejectPipelineRun` has the guard of approval and is terminal. When the looked-up
request is not Pending it returns the not-pending error and changes neither store nor trace.
For a stored Pending request whose run is stored, an approver ID that `uuid.Parse` accepts and
no failing persistence statement, the request is Rejected with the given comment; the run is
Rejected; exactly one ExecutionHistory row is added, for that run, with status Rejected, a set
completion time and `error_message` equal to the comment; and no execution chain is started:
no CI call is made and the only new trace event is the rejection broadcast. The call returns
no error when moreover the run's unit is stored and the requester is a registered user, so that
the lookups made for the notification find their rows. -/
theorem RejectPipelineRun_terminal (env : Env) :
    (∀ (authRequestID approverID comment : String) (w w1 : World) (req : AuthorizationRequest),
      GetAuthorizationRequest env authRequestID w = (.ok req, w1) →
      req.Status ≠ StatusPending →
      RejectPipelineRun env authRequestID approverID comment w = (some .notPending, w1) ∧
      w1.store = w.store ∧ w1.trace = w.trace ∧ w1.ciCalls = w.ciCalls) ∧
    (∀ (authRequestID approverID comment : String) (w : World) (req : AuthorizationRequest)
      (run : PipelineRun) (u : UUID),
      (∀ n, env.dbFault n = none) →
      w.store.authorizationRequests.find? (fun a => a.ID == authRequestID) = some req →
      req.Status = StatusPending →
      w.store.pipelineRuns.find? (fun r => r.ID == req.PipelineRunID) = some run →
      env.uuidParse approverID = some u →
      (∀ requester : UUID,
        w.store.pipelineUnits.any (fun pu => pu.ID == run.PipelineUnitID) = true →
        env.uuidParse req.RequesterID = some requester →
        (env.deliveryEmail requester).isSome = true →
        (RejectPipelineRun env authRequestID approverID comment w).1 = none) ∧
      (∃ req', (RejectPipelineRun env authRequestID approverID comment
            w).2.store.authorizationRequests.find? (fun a => a.ID == authRequestID) = some req' ∧
          req'.Status = StatusRejected ∧ req'.Comment = comment) ∧
      (∃ run', (RejectPipelineRun env authRequestID approverID comment
            w).2.store.pipelineRuns.find? (fun r => r.ID == req.PipelineRunID) = some run' ∧
          run'.Status = StatusRejected) ∧
      (∃ h, (RejectPipelineRun env authRequestID approverID comment w).2.store.executionHistory
            = w.store.executionHistory ++ [h] ∧
          h.PipelineRunID = req.PipelineRunID ∧ h.Status = StatusRejected ∧
          h.CompletedAt.isSome = true ∧ h.ErrorMessage = comment) ∧
      (RejectPipelineRun env authRequestID approverID comment w).2.ciCalls = w.ciCalls ∧
      (∃ enriched, (RejectPipelineRun env authRequestID approverID comment w).2.trace
          = w.trace ++ [.broadcast req.PipelineRunID StatusRejected
              ("Pipeline run rejected: " ++ comment) enriched])) := by
  constructor
  · intro authRequestID approverID comment w w1 req hget hst
    have hs := congrArg (fun p => p.2.store) hget
    have ht := congrArg (fun p => p.2.trace) hget
    have hc := congrArg (fun p => p.2.ciCalls) hget
    simp only [GetAuthorizationRequest_store, GetAuthorizationRequest_trace,
      GetAuthorizationRequest_ciCalls] at hs ht hc
    refine ⟨?_, hs.symm, ht.symm, hc.symm⟩
    have hst' : (req.Status != StatusPending) = true := by simpa using hst
    simp only [RejectPipelineRun, hget, hst', if_true]
  · intro authRequestID approverID comment w req run u hdb hreq hpending hrun huuid
    obtain ⟨r, w1, hR, hret, ha, hr, hh, hc, ht⟩ := RejectPipelineRun_of_noFault env
      authRequestID approverID comment w req u hdb hreq hpending huuid
    rw [hR]
    refine ⟨fun requester hunit hparse huser => hret run requester hrun hunit hparse huser,
      ?_, ?_, ⟨_, hh, rfl, rfl, rfl, rfl⟩, hc, ht⟩
    · have := find?_map_update' (fun a : AuthorizationRequest => a.ID) authRequestID
        (fun r => { r with Status := StatusRejected, Comment := comment,
                           UpdatedAt := some w.clock })
        (fun _ => rfl) w.store.authorizationRequests
      simp only [hreq, Option.map_some'] at this
      exact ⟨_, by rw [ha]; exact this, rfl, rfl⟩
    · have := find?_map_update' (fun r : PipelineRun => r.ID) req.PipelineRunID
        (fun r => { r with Status := StatusRejected, UpdatedAt := some w.clock })
        (fun _ => rfl) w.store.pipelineRuns
      simp only [hrun, Option.map_some'] at this
      exact ⟨_, by rw [hr]; exact this, rfl⟩

theorem ApprovePipelineRun_accepts_witness :
    (∀ n, demoEnv.dbFault n = none) ∧
    demoPending.store.authorizationRequests.find? (fun a => a.ID == "req-1") = some demoRequest ∧
    demoRequest.Status = StatusPending ∧
    demoPending.store.pipelineRuns.find? (fun r => r.ID == demoRequest.PipelineRunID)
      = some demoRun ∧
    demoPending.store.pipelineUnits.any (fun pu => pu.ID == demoRun.PipelineUnitID) = true ∧
    demoEnv.uuidParse demoRequest.RequesterID = some demoRequester ∧
    (demoEnv.deliveryEmail demoRequester).isSome = true ∧
    demoEnv.uuidParse demoApprover = some demoApprover ∧ demoApprover ≠ "" ∧
    (ApprovePipelineRun demoEnv "req-1" demoApprover "ok" demoPending).1 = none ∧
    (∃ h, (ApprovePipelineRun demoEnv "req-1" demoApprover "ok" demoPending).2.1.store.executionHistory
          = demoPending.store.executionHistory ++ [h] ∧
        h.PipelineRunID = demoRequest.PipelineRunID ∧ h.Status = StatusRunning ∧
        h.RequesterID = demoRequest.RequesterID ∧ h.ApproverID = demoApprover) :=
  ⟨fun _ => rfl, by rfl, by rfl, by rfl, by rfl, by rfl, by rfl, by rfl, by decide,
   (ApprovePipelineRun_accepts demoEnv "req-1" demoApprover "ok" demoPending demoRequest demoRun
      demoApprover demoRequester (fun _ => rfl) (by rfl) (by rfl) (by rfl) (by rfl) (by rfl)
      (by rfl) (by rfl) (by decide)).1,
   (ApprovePipelineRun_accepts demoEnv "req-1" demoApprover "ok" demoPending demoRequest demoRun
      demoApprover demoRequester (fun _ => rfl) (by rfl) (by rfl) (by rfl) (by rfl) (by rfl)
      (by rfl) (by rfl) (by decide)).2.2.2⟩

/-- A requester without a row in `users`: the address lookup fails with `ErrUserNotFound`, the
joined read returns nil, and `ApprovePipelineRun` panics in `RenderAuthorizationRequestToHTML`
after it has written the transition. The request and the run are Accepted, the history row is
Running, and no execution goroutine is started. -/
theorem ApprovePipelineRun_unregistered_requester :
    (GetDeliveryEmail demoEnv demoStranger demoPendingStranger).1 = .error .userNotFound ∧
    (ApprovePipelineRun demoEnv "req-1" demoApprover "ok" demoPendingStranger).1
      = some .nilDereference ∧
    (ApprovePipelineRun demoEnv "req-1" demoApprover "ok" demoPendingStranger).2.2 = none ∧
    (ApprovePipelineRun demoEnv "req-1" demoApprover "ok"
      demoPendingStranger).2.1.store.authorizationRequests.map (fun a => a.Status)
        = [StatusAccepted] ∧
    (ApprovePipelineRun demoEnv "req-1" demoApprover "ok"
      demoPendingStranger).2.1.store.pipelineRuns.map (fun r => r.Status) = [StatusAccepted] ∧
    (ApprovePipelineRun demoEnv "req-1" demoApprover "ok"
      demoPendingStranger).2.1.store.executionHistory.map (fun h => h.Status)
        = [StatusRunning] :=
  ⟨by rfl, by rfl, by rfl, by decide, by decide, by decide⟩

theorem ApprovePipelineRun_not_pending_witness :
    (ApprovePipelineRun demoEnv "req-1" demoApprover "ok" demoPending).1 = none ∧
    demoEnv.dbFault demoApproved.dbCalls = none ∧
    (ApprovePipelineRun demoEnv "req-1" demoApprover "again" demoApproved).1 = some .notPending ∧
    (ApprovePipelineRun demoEnv "req-1" demoApprover "again" demoApproved).2.1.store
      = demoApproved.store ∧
    (ApprovePipelineRun demoEnv "req-1" demoApprover "again" demoApproved).2.2 = none :=
  ⟨by rfl, by rfl,
   ((ApprovePipelineRun_not_pending demoEnv).2 "req-1" demoApprover "ok" demoApprover "again"
      demoPending demoApproved (by rfl) rfl (by rfl)).1,
   ((ApprovePipelineRun_not_pending demoEnv).2 "req-1" demoApprover "ok" demoApprover "again"
      demoPending demoApproved (by rfl) rfl (by rfl)).2.1,
   ((ApprovePipelineRun_not_pending demoEnv).2 "req-1" demoApprover "ok" demoApprover "again"
      demoPending demoApproved (by rfl) rfl (by rfl)).2.2.2.2⟩

theorem RejectPipelineRun_terminal_witness :
    (∀ n, demoEnv.dbFault n = none) ∧
    demoPending.store.authorizationRequests.find? (fun a => a.ID == "req-1") = some demoRequest ∧
    demoRequest.Status = StatusPending ∧
    demoPending.store.pipelineRuns.find? (fun r => r.ID == demoRequest.PipelineRunID)
      = some demoRun ∧
    demoEnv.uuidParse demoApprover = some demoApprover ∧
    (RejectPipelineRun demoEnv "req-1" demoApprover "no" demoPending).1 = none ∧
    (∃ h, (RejectPipelineRun demoEnv "req-1" demoApprover "no" demoPending).2.store.executionHistory
          = demoPending.store.executionHistory ++ [h] ∧
        h.PipelineRunID = demoRequest.PipelineRunID ∧ h.Status = StatusRejected ∧
        h.CompletedAt.isSome = true ∧ h.ErrorMessage = "no") :=
  ⟨fun _ => rfl, by rfl, by rfl, by rfl, by rfl,
   ((RejectPipelineRun_terminal demoEnv).2 "req-1" demoApprover "no" demoPending demoRequest
      demoRun demoApprover (fun _ => rfl) (by rfl) (by rfl) (by rfl) (by rfl)).1
      demoRequester (by rfl) (by rfl) (by rfl),
   ((RejectPipelineRun_terminal demoEnv).2 "req-1" demoApprover "no" demoPending demoRequest
      demoRun demoApprover (fun _ => rfl) (by rfl) (by rfl) (by rfl) (by rfl)).2.2.2.1⟩

/-! ## Claims on `fetchMicroServicesWithRetry` -/

theorem attemptsOf_append (a b : List Event) : attemptsOf (a ++ b) = attemptsOf a ++ attemptsOf b := by
  simp [attemptsOf, List.filterMap_append]

theorem waitsOf_append (a b : List Event) : waitsOf (a ++ b) = waitsOf a ++ waitsOf b := by
  simp [waitsOf, List.filterMap_append]

theorem GetServiceByID_trace (env : Env) (id : String) (w : World) :
    (GetServiceByID env id w).2.trace = w.trace := by
  unfold GetServiceByID stmt
  cases env.dbFault w.dbCalls <;> rfl

theorem GetServiceByID_clock (env : Env) (id : String) (w : World) :
    (GetServiceByID env id w).2.clock = w.clock := by
  unfold GetServiceByID stmt
  cases env.dbFault w.dbCalls <;> rfl

/-- A fetch of the services makes no attempt mark, no timer wait and takes no model time. -/
theorem fetchMicroServicesFrom_observed (env : Env) (ids : List String) :
    ∀ (i : Nat) (acc : List Service) (w : World),
      attemptsOf (fetchMicroServicesFrom env i acc ids w).2.trace = attemptsOf w.trace ∧
      waitsOf (fetchMicroServicesFrom env i acc ids w).2.trace = waitsOf w.trace ∧
      (fetchMicroServicesFrom env i acc ids w).2.clock = w.clock := by
  induction ids with
  | nil => intro i acc w; exact ⟨rfl, rfl, rfl⟩
  | cons id rest ih =>
    intro i acc w
    unfold fetchMicroServicesFrom
    have ht := GetServiceByID_trace env id (emit (.getService id) w)
    have hc := GetServiceByID_clock env id (emit (.getService id) w)
    have hbase : attemptsOf (GetServiceByID env id (emit (.getService id) w)).2.trace
          = attemptsOf w.trace ∧
        waitsOf (GetServiceByID env id (emit (.getService id) w)).2.trace = waitsOf w.trace ∧
        (GetServiceByID env id (emit (.getService id) w)).2.clock = w.clock := by
      rw [ht, hc]
      simp [emit, attemptsOf, waitsOf, List.filterMap_append]
    cases hg : GetServiceByID env id (emit (.getService id) w) with
    | mk res w1 =>
      rw [hg] at hbase
      cases res with
      | error e => exact hbase
      | ok svc =>
        dsimp only
        split
        · exact hbase
        · obtain ⟨h1, h2, h3⟩ := ih (i + 1) (acc ++ [svc]) w1
          exact ⟨h1.trans hbase.1, h2.trans hbase.2.1, h3.trans hbase.2.2⟩

theorem retryFetch_observed (env : Env) (ids : List String) (a : Nat) (w : World) :
    attemptsOf (retryFetch env ids a w).2.trace = attemptsOf w.trace ++ [a] ∧
    waitsOf (retryFetch env ids a w).2.trace = waitsOf w.trace ∧
    (retryFetch env ids a w).2.clock = w.clock := by
  unfold retryFetch fetchMicroServices
  obtain ⟨h1, h2, h3⟩ := fetchMicroServicesFrom_observed env ids 0 [] (emit (.fetchAttempt a) w)
  rw [h1, h2, h3]
  simp [emit, attemptsOf, waitsOf, List.filterMap_append]

theorem retryWait_of_never_done (ctx : Ctx) (hctx : ctx.doneAt = none) (a : Nat) (w : World) :
    retryWait ctx a w =
      if a > 0 then
        (true, emit (.wait (backoff a) true) { w with clock := w.clock + (backoff a).toNat })
      else (true, w) := by
  unfold retryWait waitFor Ctx.doneBy
  simp [hctx]

theorem fetchRetryLoop_step_error (env : Env) (ctx : Ctx) (ids : List String) (n : Int)
    (a r : Nat) (le : Option Err) (w : World) (e : Err)
    (hw : (retryWait ctx a w).1 = true)
    (hf : (retryFetch env ids a (retryWait ctx a w).2).1 = .error e) :
    fetchRetryLoop env ctx ids n a le (r + 1) w
      = fetchRetryLoop env ctx ids n (a + 1) (some e) r (retryStep env ctx ids a w) := by
  rw [fetchRetryLoop]
  simp only [hw, if_true]
  unfold retryStep
  cases h : retryFetch env ids a (retryWait ctx a w).2 with
  | mk res w1 =>
    rw [h] at hf
    simp only at hf
    subst hf
    rfl

theorem fetchRetryLoop_step_ok (env : Env) (ctx : Ctx) (ids : List String) (n : Int)
    (a r : Nat) (le : Option Err) (w : World) (svcs : List Service)
    (hw : (retryWait ctx a w).1 = true)
    (hf : (retryFetch env ids a (retryWait ctx a w).2).1 = .ok svcs) :
    fetchRetryLoop env ctx ids n a le (r + 1) w = (.ok svcs, retryStep env ctx ids a w) := by
  rw [fetchRetryLoop]
  simp only [hw, if_true]
  unfold retryStep
  cases h : retryFetch env ids a (retryWait ctx a w).2 with
  | mk res w1 =>
    rw [h] at hf
    simp only at hf
    subst hf
    rfl

theorem fetchRetryLoop_step_done (env : Env) (ctx : Ctx) (ids : List String) (n : Int)
    (a r : Nat) (le : Option Err) (w : World)
    (hw : (retryWait ctx a w).1 = false) :
    fetchRetryLoop env ctx ids n a le (r + 1) w = (.error .ctxDone, (retryWait ctx a w).2) := by
  rw [fetchRetryLoop]
  simp only [hw, Bool.false_eq_true, if_false]

/-- After `i` iterations that wait to the end and fail, the loop is at iteration `a + i` in
the world `retryWorld a i w`, holding the error of the last of them. -/
theorem fetchRetryLoop_failures (env : Env) (ctx : Ctx) (ids : List String) (n : Int) :
    ∀ (i a r : Nat) (le : Option Err) (w : World),
      (∀ j, j < i → (retryWait ctx (a + j) (retryWorld env ctx ids a j w)).1 = true ∧
        ∃ e, (retryFetch env ids (a + j)
          (retryWait ctx (a + j) (retryWorld env ctx ids a j w)).2).1 = .error e) →
      ∃ le', fetchRetryLoop env ctx ids n a le (r + i) w
          = fetchRetryLoop env ctx ids n (a + i) le' r (retryWorld env ctx ids a i w) ∧
        (i = 0 → le' = le) ∧
        (∀ i' e, i = i' + 1 → (retryFetch env ids (a + i')
            (retryWait ctx (a + i') (retryWorld env ctx ids a i' w)).2).1 = .error e →
          le' = some e) := by
  intro i
  induction i with
  | zero =>
    intro a r le w _
    exact ⟨le, rfl, fun _ => rfl, fun i' e h => absurd h (by omega)⟩
  | succ i ih =>
    intro a r le w H
    obtain ⟨hw0, e0, he0⟩ := H 0 (by omega)
    simp only [Nat.add_zero, retryWorld] at hw0 he0
    have hstep := fetchRetryLoop_step_error env ctx ids n a (r + i) le w e0 hw0 he0
    have H' : ∀ j, j < i →
        (retryWait ctx (a + 1 + j) (retryWorld env ctx ids (a + 1) j
          (retryStep env ctx ids a w))).1 = true ∧
        ∃ e, (retryFetch env ids (a + 1 + j) (retryWait ctx (a + 1 + j)
          (retryWorld env ctx ids (a + 1) j (retryStep env ctx ids a w))).2).1 = .error e := by
      intro j hj
      have := H (j + 1) (by omega)
      have hidx : a + (j + 1) = a + 1 + j := by omega
      simpa only [hidx, retryWorld] using this
    obtain ⟨le', hloop, hz, hs⟩ := ih (a + 1) r (some e0) (retryStep env ctx ids a w) H'
    refine ⟨le', ?_, fun h => absurd h (by omega), ?_⟩
    · have hidx : a + (i + 1) = a + 1 + i := by omega
      rw [hidx]
      exact hstep.trans hloop
    · intro i' e hi' he
      have hii : i' = i := by omega
      subst hii
      cases i' with
      | zero =>
        simp only [Nat.add_zero, retryWorld] at he
        rw [he0] at he
        simp only [Except.error.injEq] at he
        rw [hz rfl, he]
      | succ k =>
        have hidx : a + (k + 1) = a + 1 + k := by omega
        simp only [hidx, retryWorld] at he
        exact hs k e rfl he

theorem retryWait_attempts (ctx : Ctx) (a : Nat) (w : World) :
    attemptsOf (retryWait ctx a w).2.trace = attemptsOf w.trace := by
  unfold retryWait waitFor
  split
  · split <;> simp [emit, attemptsOf, List.filterMap_append]
  · rfl

theorem retryStep_attempts (env : Env) (ctx : Ctx) (ids : List String) (a : Nat) (w : World) :
    attemptsOf (retryStep env ctx ids a w).trace = attemptsOf w.trace ++ [a] := by
  unfold retryStep
  rw [(retryFetch_observed env ids a _).1, retryWait_attempts]

theorem retryWorld_attempts (env : Env) (ctx : Ctx) (ids : List String) :
    ∀ (i a : Nat) (w : World),
      attemptsOf (retryWorld env ctx ids a i w).trace = attemptsOf w.trace ++ List.range' a i := by
  intro i
  induction i with
  | zero => intro a w; simp [retryWorld]
  | succ i ih =>
    intro a w
    simp only [retryWorld]
    rw [ih, retryStep_attempts, List.append_assoc]
    rfl

theorem retryStep_waits (env : Env) (ctx : Ctx) (hctx : ctx.doneAt = none) (ids : List String)
    (a : Nat) (ha : 0 < a) (w : World) :
    waitsOf (retryStep env ctx ids a w).trace = waitsOf w.trace ++ [(backoff a, true)] ∧
    (retryStep env ctx ids a w).clock = w.clock + (backoff a).toNat := by
  unfold retryStep
  rw [(retryFetch_observed env ids a _).2.1, (retryFetch_observed env ids a _).2.2,
    retryWait_of_never_done ctx hctx]
  simp [ha, emit, waitsOf, List.filterMap_append]

theorem retryWorld_waits (env : Env) (ctx : Ctx) (hctx : ctx.doneAt = none) (ids : List String) :
    ∀ (i a : Nat) (w : World), 0 < a →
      waitsOf (retryWorld env ctx ids a i w).trace
        = waitsOf w.trace ++ (List.range' a i).map (fun j => (backoff j, true)) ∧
      (retryWorld env ctx ids a i w).clock
        = w.clock + ((List.range' a i).map (fun j => (backoff j).toNat)).sum := by
  intro i
  induction i with
  | zero => intro a w _; simp [retryWorld]
  | succ i ih =>
    intro a w ha
    simp only [retryWorld]
    obtain ⟨h1, h2⟩ := ih (a + 1) (retryStep env ctx ids a w) (by omega)
    obtain ⟨h3, h4⟩ := retryStep_waits env ctx hctx ids a ha w
    rw [h1, h2, h3, h4]
    simp [List.range'_succ, Nat.add_assoc]

theorem retryStep_zero_waits (env : Env) (ctx : Ctx) (ids : List String) (w : World) :
    waitsOf (retryStep env ctx ids 0 w).trace = waitsOf w.trace ∧
    (retryStep env ctx ids 0 w).clock = w.clock := by
  unfold retryStep
  rw [(retryFetch_observed env ids 0 _).2.1, (retryFetch_observed env ids 0 _).2.2]
  simp [retryWait]

/-- Up to attempt 34 the backoff is `2 ^ (attempt - 1)` seconds. -/
theorem backoff_eq (j : Nat) (h1 : 1 ≤ j) (h34 : j ≤ 34) : backoff j = 2 ^ (j - 1) * second := by
  interval_cases j <;> decide

theorem backoff_sum (k : Nat) (h34 : k ≤ 34) :
    ((List.range' 1 k).map (fun j => (backoff j).toNat)).sum = (2 ^ k - 1) * 1000000000 := by
  interval_cases k <;> decide

theorem fetchMicroServicesWithRetry_unfold (env : Env) (ctx : Ctx) (ids : List String) (n k : Nat)
    (w : World) (hk : k ≤ n) :
    fetchMicroServicesWithRetry env ctx ids n w
      = fetchRetryLoop env ctx ids n 0 none (n - k + 1 + k) w := by
  unfold fetchMicroServicesWithRetry
  have : ((n : Int) + 1).toNat = n - k + 1 + k := by omega
  rw [this]

/-- C10 (as amended): with a context that is never done, if the first successful fetch is
attempt `k` (0-based, `k ≤ n`), `fetchMicroServicesWithRetry` makes exactly the attempts
`0 .. k`, returns that attempt's services, and has waited `backoff 1, ..., backoff k` before
attempts `1 .. k`; for `k ≤ 34` these waits are 1s, 2s, ..., 2^(k-1)s, `2^k - 1` seconds in
total. If all `n + 1` attempts fail it returns the error wrapping the last failure after
exactly the attempts `0 .. n`. If the context is done by the end of the wait before attempt
`j` (earlier waits having run to the end), it returns the context's error and attempt `j` is
not made. -/
theorem fetchMicroServicesWithRetry_attempts (env : Env) (ctx : Ctx) (ids : List String)
    (n : Nat) (w : World) :
    (ctx.doneAt = none → ∀ (k : Nat) (svcs : List Service), k ≤ n →
      (∀ j, j < k → ∃ e, attemptOutcome env ctx ids j w = .error e) →
      attemptOutcome env ctx ids k w = .ok svcs →
      (fetchMicroServicesWithRetry env ctx ids n w).1 = .ok svcs ∧
      attemptsOf (fetchMicroServicesWithRetry env ctx ids n w).2.trace
        = attemptsOf w.trace ++ List.range (k + 1) ∧
      waitsOf (fetchMicroServicesWithRetry env ctx ids n w).2.trace
        = waitsOf w.trace ++ (List.range' 1 k).map (fun j => (backoff j, true)) ∧
      (k ≤ 34 → (∀ j, 1 ≤ j → j ≤ k → backoff j = 2 ^ (j - 1) * second) ∧
        (fetchMicroServicesWithRetry env ctx ids n w).2.clock
          = w.clock + (2 ^ k - 1) * 1000000000)) ∧
    (ctx.doneAt = none → ∀ (e : Err),
      (∀ j, j < n → ∃ e', attemptOutcome env ctx ids j w = .error e') →
      attemptOutcome env ctx ids n w = .error e →
      (fetchMicroServicesWithRetry env ctx ids n w).1 = .error (.fetchRetries (n + 1) e) ∧
      attemptsOf (fetchMicroServicesWithRetry env ctx ids n w).2.trace
        = attemptsOf w.trace ++ List.range (n + 1) ∧
      waitsOf (fetchMicroServicesWithRetry env ctx ids n w).2.trace
        = waitsOf w.trace ++ (List.range' 1 n).map (fun j => (backoff j, true))) ∧
    (∀ (j : Nat), 1 ≤ j → j ≤ n →
      (∀ i, i < j → attemptWaited env ctx ids i w = true ∧
        ∃ e, attemptOutcome env ctx ids i w = .error e) →
      attemptWaited env ctx ids j w = false →
      (fetchMicroServicesWithRetry env ctx ids n w).1 = .error .ctxDone ∧
      attemptsOf (fetchMicroServicesWithRetry env ctx ids n w).2.trace
        = attemptsOf w.trace ++ List.range j) := by
  have hwaited : ctx.doneAt = none → ∀ a w', (retryWait ctx a w').1 = true := by
    intro hctx a w'
    rw [retryWait_of_never_done ctx hctx]
    split <;> rfl
  have hobs : ctx.doneAt = none → ∀ i,
      waitsOf (retryWorld env ctx ids 0 (i + 1) w).trace
        = waitsOf w.trace ++ (List.range' 1 i).map (fun j => (backoff j, true)) ∧
      (retryWorld env ctx ids 0 (i + 1) w).clock
        = w.clock + ((List.range' 1 i).map (fun j => (backoff j).toNat)).sum := by
    intro hctx i
    simp only [retryWorld]
    obtain ⟨h1, h2⟩ := retryWorld_waits env ctx hctx ids i 1 (retryStep env ctx ids 0 w) (by omega)
    obtain ⟨h3, h4⟩ := retryStep_zero_waits env ctx ids w
    rw [h1, h2, h3, h4]
    exact ⟨rfl, rfl⟩
  have hatt : ∀ i, attemptsOf (retryWorld env ctx ids 0 i w).trace
      = attemptsOf w.trace ++ List.range i := by
    intro i
    rw [retryWorld_attempts, List.range_eq_range']
  refine ⟨?_, ?_, ?_⟩
  · intro hctx k svcs hk hfail hok
    have H : ∀ j, j < k → (retryWait ctx (0 + j) (retryWorld env ctx ids 0 j w)).1 = true ∧
        ∃ e, (retryFetch env ids (0 + j)
          (retryWait ctx (0 + j) (retryWorld env ctx ids 0 j w)).2).1 = .error e := by
      intro j hj
      rw [Nat.zero_add]
      exact ⟨hwaited hctx _ _, hfail j hj⟩
    obtain ⟨le', hloop, _, _⟩ := fetchRetryLoop_failures env ctx ids n k 0 (n - k + 1) none w H
    have hres : fetchMicroServicesWithRetry env ctx ids n w
        = (.ok svcs, retryWorld env ctx ids 0 (k + 1) w) := by
      rw [fetchMicroServicesWithRetry_unfold env ctx ids n k w hk, hloop, Nat.zero_add,
        fetchRetryLoop_step_ok env ctx ids n k (n - k) le' _ svcs (hwaited hctx _ _) hok]
      have hright : ∀ (i a : Nat) (w' : World), retryWorld env ctx ids a (i + 1) w'
          = retryStep env ctx ids (a + i) (retryWorld env ctx ids a i w') := by
        intro i
        induction i with
        | zero => intro a w'; rfl
        | succ i ih =>
          intro a w'
          have hidx : a + (i + 1) = a + 1 + i := by omega
          rw [retryWorld, ih (a + 1), hidx]
          rfl
      rw [hright k 0 w, Nat.zero_add]
    rw [hres]
    refine ⟨rfl, hatt (k + 1), (hobs hctx k).1, ?_⟩
    intro h34
    refine ⟨fun j h1 hjk => backoff_eq j h1 (by omega), ?_⟩
    show (retryWorld env ctx ids 0 (k + 1) w).clock = _
    rw [(hobs hctx k).2, backoff_sum k h34]
  · intro hctx e hfail hlast
    have H : ∀ j, j < n + 1 → (retryWait ctx (0 + j) (retryWorld env ctx ids 0 j w)).1 = true ∧
        ∃ e, (retryFetch env ids (0 + j)
          (retryWait ctx (0 + j) (retryWorld env ctx ids 0 j w)).2).1 = .error e := by
      intro j hj
      rw [Nat.zero_add]
      refine ⟨hwaited hctx _ _, ?_⟩
      by_cases hjn : j < n
      · exact hfail j hjn
      · have : j = n := by omega
        subst this
        exact ⟨e, hlast⟩
    obtain ⟨le', hloop, _, hle⟩ := fetchRetryLoop_failures env ctx ids n (n + 1) 0 0 none w H
    have hle' : le' = some e := hle n e rfl (by rw [Nat.zero_add]; exact hlast)
    have hres : fetchMicroServicesWithRetry env ctx ids n w
        = (.error (.fetchRetries (n + 1) e), retryWorld env ctx ids 0 (n + 1) w) := by
      unfold fetchMicroServicesWithRetry
      have : ((n : Int) + 1).toNat = 0 + (n + 1) := by omega
      rw [this, hloop, hle']
      rfl
    rw [hres]
    exact ⟨rfl, hatt (n + 1), (hobs hctx n).1⟩
  · intro j h1 hjn hprev hdone
    have H : ∀ i, i < j → (retryWait ctx (0 + i) (retryWorld env ctx ids 0 i w)).1 = true ∧
        ∃ e, (retryFetch env ids (0 + i)
          (retryWait ctx (0 + i) (retryWorld env ctx ids 0 i w)).2).1 = .error e := by
      intro i hi
      rw [Nat.zero_add]
      exact hprev i hi
    obtain ⟨le', hloop, _, _⟩ := fetchRetryLoop_failures env ctx ids n j 0 (n - j + 1) none w H
    have hres : fetchMicroServicesWithRetry env ctx ids n w
        = (.error .ctxDone, (retryWait ctx j (retryWorld env ctx ids 0 j w)).2) := by
      rw [fetchMicroServicesWithRetry_unfold env ctx ids n j w hjn, hloop, Nat.zero_add,
        fetchRetryLoop_step_done env ctx ids n j (n - j) le' _ hdone]
    rw [hres]
    exact ⟨rfl, by rw [retryWait_attempts, hatt j]⟩

theorem fetchMicroServicesWithRetry_attempts_witness :
    ((fetchMicroServicesWithRetry (flakyEnv 2) {} ["A"] 3 demoWorld).1 = .ok [demoServiceA] ∧
      attemptsOf (fetchMicroServicesWithRetry (flakyEnv 2) {} ["A"] 3 demoWorld).2.trace
        = attemptsOf demoWorld.trace ++ List.range (2 + 1) ∧
      (fetchMicroServicesWithRetry (flakyEnv 2) {} ["A"] 3 demoWorld).2.clock
        = demoWorld.clock + (2 ^ 2 - 1) * 1000000000) ∧
    ((fetchMicroServicesWithRetry (flakyEnv 4) {} ["A"] 3 demoWorld).1
        = .error (.fetchRetries (3 + 1) (.fetchService "A" 0 (.db "connection refused"))) ∧
      waitsOf (fetchMicroServicesWithRetry (flakyEnv 4) {} ["A"] 3 demoWorld).2.trace
        = waitsOf demoWorld.trace ++ (List.range' 1 3).map (fun j => (backoff j, true))) ∧
    ((fetchMicroServicesWithRetry (flakyEnv 4) demoShortCtx ["A"] 3 demoWorld).1
        = .error .ctxDone ∧
      attemptsOf (fetchMicroServicesWithRetry (flakyEnv 4) demoShortCtx ["A"] 3 demoWorld).2.trace
        = attemptsOf demoWorld.trace ++ List.range 2) :=
  have h1 := (fetchMicroServicesWithRetry_attempts (flakyEnv 2) {} ["A"] 3 demoWorld).1 rfl 2
    [demoServiceA] (by decide) (fun j hj => by interval_cases j <;> exact ⟨_, rfl⟩) (by rfl)
  have h2 := (fetchMicroServicesWithRetry_attempts (flakyEnv 4) {} ["A"] 3 demoWorld).2.1 rfl
    (.fetchService "A" 0 (.db "connection refused"))
    (fun j hj => by interval_cases j <;> exact ⟨_, rfl⟩) (by rfl)
  have h3 := (fetchMicroServicesWithRetry_attempts (flakyEnv 4) demoShortCtx ["A"] 3
    demoWorld).2.2 2 (by decide) (by decide)
    (fun i hi => by interval_cases i <;> exact ⟨by rfl, _, rfl⟩) (by rfl)
  ⟨⟨h1.1, h1.2.1, (h1.2.2.2 (by decide)).2⟩, ⟨h2.1, h2.2.2⟩, h3⟩

set_option maxRecDepth 100000 in
/-- C10, counterexample: with `maxRetries = 35`, a context that is never done and a fetch that
fails 35 times and then succeeds, the attempts are `0 .. 35` and the first success is attempt
35, but the waits are not 1s, 2s, ..., 2^34 s and the total wait is not `2^35 - 1` seconds:
the wait before attempt 35 overflows `int64` and is negative. -/
theorem fetchMicroServicesWithRetry_backoff_overflow :
    (fetchMicroServicesWithRetry (flakyEnv 35) {} ["A"] 35 demoWorld).1 = .ok [demoServiceA] ∧
    attemptsOf (fetchMicroServicesWithRetry (flakyEnv 35) {} ["A"] 35 demoWorld).2.trace
      = List.range 36 ∧
    ¬ (waitsOf (fetchMicroServicesWithRetry (flakyEnv 35) {} ["A"] 35 demoWorld).2.trace
        = (List.range' 1 35).map (fun j => ((2 : Int) ^ (j - 1) * second, true))) ∧
    ¬ ((fetchMicroServicesWithRetry (flakyEnv 35) {} ["A"] 35 demoWorld).2.clock
        = demoWorld.clock + (2 ^ 35 - 1) * 1000000000) ∧
    backoff 35 = -1266874889709551616 :=
  ⟨by rfl, by decide, by decide, by decide, by decide⟩

/-! ## Claims on the execution chain -/

theorem createCallsOf_append (a b : List Event) :
    createCallsOf (a ++ b) = createCallsOf a ++ createCallsOf b := by
  simp [createCallsOf, List.filterMap_append]

theorem ciStepsOf_append (a b : List Event) : ciStepsOf (a ++ b) = ciStepsOf a ++ ciStepsOf b := by
  simp [ciStepsOf, List.filterMap_append]

theorem broadcastsOf_append (a b : List Event) :
    broadcastsOf (a ++ b) = broadcastsOf a ++ broadcastsOf b := by
  simp [broadcastsOf, List.filterMap_append]

/-- A broadcast adds one broadcast event and nothing the CI provider sees. -/
theorem broadcastPipelineStatusChange_observed (env : Env) (runID : String)
    (status : PipelineStatus) (message : String) (w : World) :
    createCallsOf (broadcastPipelineStatusChange env runID status message w).trace
      = createCallsOf w.trace ∧
    ciStepsOf (broadcastPipelineStatusChange env runID status message w).trace
      = ciStepsOf w.trace ∧
    broadcastsOf (broadcastPipelineStatusChange env runID status message w).trace
      = broadcastsOf w.trace ++ [(runID, status)] ∧
    (broadcastPipelineStatusChange env runID status message w).ciCalls = w.ciCalls ∧
    (broadcastPipelineStatusChange env runID status message w).dbCalls = w.dbCalls + 1 := by
  unfold broadcastPipelineStatusChange stmt emit
  cases env.dbFault w.dbCalls <;>
    simp [createCallsOf, ciStepsOf, broadcastsOf, List.filterMap_append]

theorem UpdatePipelineRun_trace (env : Env) (run : PipelineRun) (w : World) :
    (UpdatePipelineRun env run w).2.trace = w.trace ∧
    (UpdatePipelineRun env run w).2.dbCalls = w.dbCalls + 1 := by
  unfold UpdatePipelineRun stmt
  cases env.dbFault w.dbCalls <;> exact ⟨rfl, rfl⟩

theorem UpdatePipelineRunStatus_trace (env : Env) (id : String) (status : PipelineStatus)
    (w : World) :
    (UpdatePipelineRunStatus env id status w).2.trace = w.trace ∧
    (UpdatePipelineRunStatus env id status w).2.dbCalls = w.dbCalls + 1 := by
  unfold UpdatePipelineRunStatus stmt
  cases env.dbFault w.dbCalls <;> exact ⟨rfl, rfl⟩

theorem UpdateExecutionHistory_trace (env : Env) (history : ExecutionHistory) (w : World) :
    (UpdateExecutionHistory env history w).2.trace = w.trace ∧
    (UpdateExecutionHistory env history w).2.dbCalls = w.dbCalls + 1 := by
  unfold UpdateExecutionHistory stmt
  cases env.dbFault w.dbCalls <;> exact ⟨rfl, rfl⟩

/-- The error handler adds one Rejected broadcast and nothing the CI provider sees. -/
theorem handlePipelineError_observed (env : Env) (run : PipelineRun) (history : ExecutionHistory)
    (microServiceID errorMessage : String) (w : World) :
    createCallsOf (handlePipelineError env run history microServiceID errorMessage w).2.2.trace
      = createCallsOf w.trace ∧
    ciStepsOf (handlePipelineError env run history microServiceID errorMessage w).2.2.trace
      = ciStepsOf w.trace ∧
    broadcastsOf (handlePipelineError env run history microServiceID errorMessage w).2.2.trace
      = broadcastsOf w.trace ++ [(run.ID, StatusRejected)] := by
  unfold handlePipelineError broadcastPipelineUpdate
  simp only []
  obtain ⟨h1, h2, h3, _, _⟩ := broadcastPipelineStatusChange_observed env run.ID StatusRejected
    errorMessage (UpdatePipelineRunStatus env run.ID StatusRejected
      (UpdateExecutionHistory env
        { history with Status := StatusRejected, CompletedAt := now w,
                       ExecutionTime := timeSub (now w) history.StartedAt,
                       ErrorMessage := errorMessage } w).2).2
  rw [h1, h2, h3, (UpdatePipelineRunStatus_trace _ _ _ _).1, (UpdateExecutionHistory_trace _ _ _).1]
  exact ⟨rfl, rfl, rfl⟩

/-- One more tick changes nothing once the ticks left reach past the ceiling: the bound on the
iterations of the poll loop is never what ends it. -/
theorem pollLoop_succ (env : Env) (ctx : Ctx) (projectID : String) (pipelineID : Int)
    (start : Nat) :
    ∀ (ticks : Nat) (w : World), (w.clock : Int) ≤ start + maxDuration →
      (start : Int) + maxDuration < w.clock + ticks * pollInterval →
      pollLoop env ctx projectID pipelineID start (ticks + 1) w
        = pollLoop env ctx projectID pipelineID start ticks w := by
  intro ticks
  induction ticks with
  | zero =>
    intro w h1 h2
    simp only [Nat.cast_zero, zero_mul, add_zero] at h2
    omega
  | succ t ih =>
    intro w h1 h2
    rw [pollLoop, pollLoop.eq_2]
    simp only
    split
    · rfl
    · split
      · rfl
      · rename_i hceil
        split
        · rfl
        · split
          · rfl
          · split
            · rfl
            · have h10 : Int.toNat (10 * 1000000000) = 10000000000 := by decide
              simp only [timeSub, maxDuration, second, maxInt64, minInt64, pollInterval, h10]
                at hceil h1 h2
              simp only [gt_iff_lt, not_lt, max_le_iff, min_le_iff] at hceil
              have hx : ((w.clock + 10000000000 : Nat) : Int) - (start : Int) ≤ 1800000000000 := by
                rcases hceil with ⟨_, hU | hx⟩
                · exact absurd hU (by decide)
                · exact hx
              apply ih
              · simp only [ciCall, emit, maxDuration, second, pollInterval, h10]
                push_cast at hx ⊢
                omega
              · simp only [ciCall, emit, maxDuration, second, pollInterval, h10]
                push_cast at h2 ⊢
                omega

/-- The loop of `pollPipelineStatus` gives the same result with any larger bound on its
iterations. -/
theorem pollLoop_fuel (env : Env) (ctx : Ctx) (projectID : String) (pipelineID : Int) (w : World)
    (k : Nat) :
    pollLoop env ctx projectID pipelineID w.clock (181 + k) w
      = pollLoop env ctx projectID pipelineID w.clock 181 w := by
  induction k with
  | zero => rfl
  | succ k ih =>
    rw [← ih, ← Nat.add_assoc]
    apply pollLoop_succ
    · simp only [maxDuration, second]
      omega
    · simp only [maxDuration, second, pollInterval]
      push_cast
      omega

/-- The poll loop only reads pipeline statuses: it writes no row, issues no statement and adds
nothing but `GetPipeline` calls to the trace. -/
theorem pollLoop_observed (env : Env) (ctx : Ctx) (projectID : String) (pipelineID : Int)
    (start : Nat) :
    ∀ (ticks : Nat) (w : World),
      (pollLoop env ctx projectID pipelineID start ticks w).2.store = w.store ∧
      (pollLoop env ctx projectID pipelineID start ticks w).2.dbCalls = w.dbCalls ∧
      createCallsOf (pollLoop env ctx projectID pipelineID start ticks w).2.trace
        = createCallsOf w.trace ∧
      ciStepsOf (pollLoop env ctx projectID pipelineID start ticks w).2.trace
        = ciStepsOf w.trace ∧
      broadcastsOf (pollLoop env ctx projectID pipelineID start ticks w).2.trace
        = broadcastsOf w.trace := by
  intro ticks
  induction ticks with
  | zero => intro w; exact ⟨rfl, rfl, rfl, rfl, rfl⟩
  | succ t ih =>
    intro w
    rw [pollLoop]
    dsimp only
    split
    · exact ⟨rfl, rfl, rfl, rfl, rfl⟩
    · split
      · exact ⟨rfl, rfl, rfl, rfl, rfl⟩
      · have hemit : ∀ w' : World,
            (ciCall (.getPipeline projectID pipelineID) w').store = w'.store ∧
            (ciCall (.getPipeline projectID pipelineID) w').dbCalls = w'.dbCalls ∧
            createCallsOf (ciCall (.getPipeline projectID pipelineID) w').trace
              = createCallsOf w'.trace ∧
            ciStepsOf (ciCall (.getPipeline projectID pipelineID) w').trace
              = ciStepsOf w'.trace ∧
            broadcastsOf (ciCall (.getPipeline projectID pipelineID) w').trace
              = broadcastsOf w'.trace := by
          intro w'
          simp [ciCall, emit, createCallsOf, ciStepsOf, broadcastsOf, List.filterMap_append]
        split
        · exact hemit _
        · split
          · exact hemit _
          · split
            · exact hemit _
            · obtain ⟨a1, a2, a3, a4, a5⟩ := ih (ciCall (.getPipeline projectID pipelineID)
                { w with clock := w.clock + pollInterval.toNat })
              obtain ⟨b1, b2, b3, b4, b5⟩ := hemit
                { w with clock := w.clock + pollInterval.toNat }
              exact ⟨a1.trans b1, a2.trans b2, a3.trans b3, a4.trans b4, a5.trans b5⟩

theorem pollPipelineStatus_observed (env : Env) (ctx : Ctx) (projectID : String)
    (pipelineID : Int) (w : World) :
    (pollPipelineStatus env ctx projectID pipelineID w).2.store = w.store ∧
    (pollPipelineStatus env ctx projectID pipelineID w).2.dbCalls = w.dbCalls ∧
    createCallsOf (pollPipelineStatus env ctx projectID pipelineID w).2.trace
      = createCallsOf w.trace ∧
    ciStepsOf (pollPipelineStatus env ctx projectID pipelineID w).2.trace
      = ciStepsOf w.trace ++
        (if (pollPipelineStatus env ctx projectID pipelineID w).1 = none
          then [.pollSucceeded projectID] else []) ∧
    broadcastsOf (pollPipelineStatus env ctx projectID pipelineID w).2.trace
      = broadcastsOf w.trace := by
  unfold pollPipelineStatus
  obtain ⟨h1, h2, h3, h4, h5⟩ := pollLoop_observed env ctx projectID pipelineID w.clock 181 w
  dsimp only
  refine ⟨h1, h2, ?_, ?_, ?_⟩
  · show createCallsOf (_ ++ [_]) = _
    rw [createCallsOf_append, h3]
    simp [createCallsOf]
  · show ciStepsOf (_ ++ [_]) = _
    rw [ciStepsOf_append, h4]
    cases (pollLoop env ctx projectID pipelineID w.clock 181 w).1 <;> simp [ciStepsOf]
  · show broadcastsOf (_ ++ [_]) = _
    rw [broadcastsOf_append, h5]
    simp [broadcastsOf]

theorem allStagesSteps_cons (svc : Service) (rest : List Service) :
    allStagesSteps (svc :: rest)
      = .created svc.GitLabRepoID :: .pollSucceeded svc.GitLabRepoID :: allStagesSteps rest := by
  simp [allStagesSteps, List.flatMap_cons]

/-- The CI steps of the stage loop: a leading part of the all-success sequence, and the whole
of it when the loop ends without error. -/
theorem executeStages_steps (env : Env) (ctx : Ctx) (n : Nat) :
    ∀ (stages : List Service) (i : Nat) (run : PipelineRun) (history : ExecutionHistory)
      (w : World),
      ∃ calls steps,
        createCallsOf (executeStages env ctx n i run history stages w).2.2.2.trace
          = createCallsOf w.trace ++ calls ∧
        ciStepsOf (executeStages env ctx n i run history stages w).2.2.2.trace
          = ciStepsOf w.trace ++ steps ∧
        calls <+: stages.map (fun s => s.GitLabRepoID) ∧
        steps <+: allStagesSteps stages ∧
        ((executeStages env ctx n i run history stages w).1 = none →
          calls = stages.map (fun s => s.GitLabRepoID) ∧ steps = allStagesSteps stages) := by
  intro stages
  induction stages with
  | nil =>
    intro i run history w
    exact ⟨[], [], by simp [executeStages], by simp [executeStages], ⟨[], rfl⟩, ⟨[], rfl⟩,
      fun _ => ⟨rfl, rfl⟩⟩
  | cons svc rest ih =>
    intro i run history w
    obtain ⟨b1, b2, _, _, _⟩ := broadcastPipelineStatusChange_observed env run.ID StatusRunning
      ("Starting pipeline for microservice " ++ svc.Name) w
    have hc2 : ∀ w' : World, createCallsOf w'.trace = createCallsOf w.trace →
        createCallsOf (ciCall (.createPipeline svc.GitLabRepoID "development" (stageVariables i n))
          w').trace = createCallsOf w.trace ++ [svc.GitLabRepoID] := by
      intro w' h
      show createCallsOf (_ ++ [_]) = _
      rw [createCallsOf_append, h]
      simp [createCallsOf]
    have hs2 : ∀ w' : World, ciStepsOf w'.trace = ciStepsOf w.trace →
        ciStepsOf (ciCall (.createPipeline svc.GitLabRepoID "development" (stageVariables i n))
          w').trace = ciStepsOf w.trace ++ [.created svc.GitLabRepoID] := by
      intro w' h
      show ciStepsOf (_ ++ [_]) = _
      rw [ciStepsOf_append, h]
      simp [ciStepsOf]
    have hstop : ∀ (run' run'' : PipelineRun) (msg : String) (w' : World),
        createCallsOf w'.trace = createCallsOf w.trace ++ [svc.GitLabRepoID] →
        ciStepsOf w'.trace = ciStepsOf w.trace ++ [.created svc.GitLabRepoID] →
        ∃ calls steps,
          createCallsOf ((some (handlePipelineError env run' history svc.ID msg w').1, run'',
              (handlePipelineError env run' history svc.ID msg w').2.1,
              (handlePipelineError env run' history svc.ID msg w').2.2) :
                Option Err × PipelineRun × ExecutionHistory × World).2.2.2.trace
            = createCallsOf w.trace ++ calls ∧
          ciStepsOf ((some (handlePipelineError env run' history svc.ID msg w').1, run'',
              (handlePipelineError env run' history svc.ID msg w').2.1,
              (handlePipelineError env run' history svc.ID msg w').2.2) :
                Option Err × PipelineRun × ExecutionHistory × World).2.2.2.trace
            = ciStepsOf w.trace ++ steps ∧
          calls <+: (svc :: rest).map (fun s : Service => s.GitLabRepoID) ∧
          steps <+: allStagesSteps (svc :: rest) ∧
          (((some (handlePipelineError env run' history svc.ID msg w').1, run'',
              (handlePipelineError env run' history svc.ID msg w').2.1,
              (handlePipelineError env run' history svc.ID msg w').2.2) :
                Option Err × PipelineRun × ExecutionHistory × World).1 = none →
            calls = (svc :: rest).map (fun s : Service => s.GitLabRepoID) ∧
            steps = allStagesSteps (svc :: rest)) := by
      intro run' run'' msg w' h1 h2
      obtain ⟨e1, e2, _⟩ := handlePipelineError_observed env run' history svc.ID msg w'
      refine ⟨[svc.GitLabRepoID], [.created svc.GitLabRepoID], by rw [e1, h1], by rw [e2, h2],
        ⟨rest.map (fun s : Service => s.GitLabRepoID), rfl⟩, ?_, fun h => by simp at h⟩
      rw [allStagesSteps_cons]
      exact ⟨_, rfl⟩
    rw [executeStages]
    dsimp only
    split
    · refine hstop _ _ _ _ ?_ ?_
      · exact hc2 _ b1
      · exact hs2 _ b2
    · rename_i pipelineID _
      split
      · rename_i err w3 hupd
        have ht := congrArg (fun p => p.2.trace) hupd
        simp only [(UpdatePipelineRun_trace _ _ _).1] at ht
        refine hstop _ _ _ _ ?_ ?_
        · rw [← ht]; exact hc2 _ b1
        · rw [← ht]; exact hs2 _ b2
      · rename_i w3 hupd
        have ht := congrArg (fun p => p.2.trace) hupd
        simp only [(UpdatePipelineRun_trace _ _ _).1] at ht
        have hc3 : createCallsOf w3.trace = createCallsOf w.trace ++ [svc.GitLabRepoID] := by
          rw [← ht]; exact hc2 _ b1
        have hs3 : ciStepsOf w3.trace = ciStepsOf w.trace ++ [.created svc.GitLabRepoID] := by
          rw [← ht]; exact hs2 _ b2
        obtain ⟨_, _, p3, p4, _⟩ := pollPipelineStatus_observed env ctx svc.GitLabRepoID
          pipelineID w3
        split
        · rename_i err w4 hpoll
          rw [hpoll] at p3 p4
          simp only [reduceCtorEq, if_false, List.append_nil] at p3 p4
          refine hstop _ _ _ _ ?_ ?_
          · rw [p3, hc3]
          · rw [p4, hs3]
        · rename_i w4 hpoll
          rw [hpoll] at p3 p4
          simp only [if_true] at p3 p4
          obtain ⟨calls, steps, h1, h2, ⟨t3, h3⟩, ⟨t4, h4⟩, h5⟩ :=
            ih (i + 1) { run with GitLabPipelineID := pipelineID } history w4
          refine ⟨svc.GitLabRepoID :: calls,
            .created svc.GitLabRepoID :: .pollSucceeded svc.GitLabRepoID :: steps, ?_, ?_,
            ⟨t3, ?_⟩, ⟨t4, ?_⟩, ?_⟩
          · rw [h1, p3, hc3]; simp
          · rw [h2, p4, hs3]; simp
          · simp [← h3]
          · rw [allStagesSteps_cons, ← h4]; simp
          · intro hnone
            obtain ⟨q1, q2⟩ := h5 hnone
            rw [allStagesSteps_cons, q1, q2]
            exact ⟨rfl, rfl⟩

theorem GetServiceByID_store (env : Env) (id : String) (w : World) :
    (GetServiceByID env id w).2.store = w.store := by
  unfold GetServiceByID stmt
  cases env.dbFault w.dbCalls <;> rfl

/-- Fetching the services writes no row and adds nothing to the trace but the fetches. -/
theorem fetchMicroServicesFrom_quiet (env : Env) (ids : List String) :
    ∀ (i : Nat) (acc : List Service) (w : World),
      (fetchMicroServicesFrom env i acc ids w).2.store = w.store ∧
      createCallsOf (fetchMicroServicesFrom env i acc ids w).2.trace = createCallsOf w.trace ∧
      ciStepsOf (fetchMicroServicesFrom env i acc ids w).2.trace = ciStepsOf w.trace ∧
      broadcastsOf (fetchMicroServicesFrom env i acc ids w).2.trace = broadcastsOf w.trace := by
  induction ids with
  | nil => intro i acc w; exact ⟨rfl, rfl, rfl, rfl⟩
  | cons id rest ih =>
    intro i acc w
    unfold fetchMicroServicesFrom
    have hs := GetServiceByID_store env id (emit (.getService id) w)
    have ht := GetServiceByID_trace env id (emit (.getService id) w)
    have hbase : (GetServiceByID env id (emit (.getService id) w)).2.store = w.store ∧
        createCallsOf (GetServiceByID env id (emit (.getService id) w)).2.trace
          = createCallsOf w.trace ∧
        ciStepsOf (GetServiceByID env id (emit (.getService id) w)).2.trace
          = ciStepsOf w.trace ∧
        broadcastsOf (GetServiceByID env id (emit (.getService id) w)).2.trace
          = broadcastsOf w.trace := by
      rw [hs, ht]
      simp [emit, createCallsOf, ciStepsOf, broadcastsOf, List.filterMap_append]
    cases hg : GetServiceByID env id (emit (.getService id) w) with
    | mk res w1 =>
      rw [hg] at hbase
      cases res with
      | error e => exact hbase
      | ok svc =>
        dsimp only
        split
        · exact hbase
        · obtain ⟨h1, h2, h3, h4⟩ := ih (i + 1) (acc ++ [svc]) w1
          exact ⟨h1.trans hbase.1, h2.trans hbase.2.1, h3.trans hbase.2.2.1,
            h4.trans hbase.2.2.2⟩

theorem retryWait_quiet (ctx : Ctx) (a : Nat) (w : World) :
    (retryWait ctx a w).2.store = w.store ∧
    createCallsOf (retryWait ctx a w).2.trace = createCallsOf w.trace ∧
    ciStepsOf (retryWait ctx a w).2.trace = ciStepsOf w.trace ∧
    broadcastsOf (retryWait ctx a w).2.trace = broadcastsOf w.trace := by
  unfold retryWait waitFor
  split
  · split <;> simp [emit, createCallsOf, ciStepsOf, broadcastsOf, List.filterMap_append]
  · exact ⟨rfl, rfl, rfl, rfl⟩

theorem retryFetch_quiet (env : Env) (ids : List String) (a : Nat) (w : World) :
    (retryFetch env ids a w).2.store = w.store ∧
    createCallsOf (retryFetch env ids a w).2.trace = createCallsOf w.trace ∧
    ciStepsOf (retryFetch env ids a w).2.trace = ciStepsOf w.trace ∧
    broadcastsOf (retryFetch env ids a w).2.trace = broadcastsOf w.trace := by
  unfold retryFetch fetchMicroServices
  obtain ⟨h1, h2, h3, h4⟩ := fetchMicroServicesFrom_quiet env ids 0 [] (emit (.fetchAttempt a) w)
  rw [h1, h2, h3, h4]
  simp [emit, createCallsOf, ciStepsOf, broadcastsOf, List.filterMap_append]

theorem fetchRetryLoop_quiet (env : Env) (ctx : Ctx) (ids : List String) (n : Int) :
    ∀ (r a : Nat) (le : Option Err) (w : World),
      (fetchRetryLoop env ctx ids n a le r w).2.store = w.store ∧
      createCallsOf (fetchRetryLoop env ctx ids n a le r w).2.trace = createCallsOf w.trace ∧
      ciStepsOf (fetchRetryLoop env ctx ids n a le r w).2.trace = ciStepsOf w.trace ∧
      broadcastsOf (fetchRetryLoop env ctx ids n a le r w).2.trace = broadcastsOf w.trace := by
  intro r
  induction r with
  | zero =>
    intro a le w
    unfold fetchRetryLoop
    cases le <;> exact ⟨rfl, rfl, rfl, rfl⟩
  | succ r ih =>
    intro a le w
    rw [fetchRetryLoop]
    obtain ⟨w1, w2, w3, w4⟩ := retryWait_quiet ctx a w
    split
    · obtain ⟨f1, f2, f3, f4⟩ := retryFetch_quiet env ids a (retryWait ctx a w).2
      cases hf : retryFetch env ids a (retryWait ctx a w).2 with
      | mk res wf =>
        rw [hf] at f1 f2 f3 f4
        cases res with
        | ok svcs => exact ⟨f1.trans w1, f2.trans w2, f3.trans w3, f4.trans w4⟩
        | error e =>
          obtain ⟨i1, i2, i3, i4⟩ := ih (a + 1) (some e) wf
          exact ⟨i1.trans (f1.trans w1), i2.trans (f2.trans w2), i3.trans (f3.trans w3),
            i4.trans (f4.trans w4)⟩
    · exact ⟨w1, w2, w3, w4⟩

theorem fetchMicroServicesWithRetry_quiet (env : Env) (ctx : Ctx) (ids : List String) (n : Int)
    (w : World) :
    (fetchMicroServicesWithRetry env ctx ids n w).2.store = w.store ∧
    createCallsOf (fetchMicroServicesWithRetry env ctx ids n w).2.trace = createCallsOf w.trace ∧
    ciStepsOf (fetchMicroServicesWithRetry env ctx ids n w).2.trace = ciStepsOf w.trace ∧
    broadcastsOf (fetchMicroServicesWithRetry env ctx ids n w).2.trace = broadcastsOf w.trace :=
  fetchRetryLoop_quiet env ctx ids n _ 0 none w

theorem completePipeline_observed (env : Env) (run : PipelineRun) (history : ExecutionHistory)
    (w : World) :
    createCallsOf (completePipeline env run history w).2.trace = createCallsOf w.trace ∧
    ciStepsOf (completePipeline env run history w).2.trace = ciStepsOf w.trace := by
  unfold completePipeline
  dsimp only
  split
  · rename_i err w2 hupd
    have ht := congrArg (fun p => p.2.trace) hupd
    simp only [(UpdatePipelineRunStatus_trace _ _ _ _).1, (UpdateExecutionHistory_trace _ _ _).1]
      at ht
    obtain ⟨b1, b2, _⟩ := broadcastPipelineStatusChange_observed env run.ID StatusRejected
      ("Failed to update pipeline run status: " ++ err.message) w2
    exact ⟨by rw [b1, ← ht], by rw [b2, ← ht]⟩
  · rename_i w2 hupd
    have ht := congrArg (fun p => p.2.trace) hupd
    simp only [(UpdatePipelineRunStatus_trace _ _ _ _).1, (UpdateExecutionHistory_trace _ _ _).1]
      at ht
    obtain ⟨b1, b2, _⟩ := broadcastPipelineStatusChange_observed env run.ID StatusCompleted
      "Pipeline run completed successfully" w2
    exact ⟨by rw [b1, ← ht], by rw [b2, ← ht]⟩

/-- C6: when the stage list resolves to `stages` (the selected micro-services followed by the
main service), the `CreatePipeline` calls of `executePipelineChain` are, in order, those of a
leading part of `stages`; more precisely its CI steps are a leading part of
`create s1, poll-success s1, create s2, poll-success s2, ...`, so the call for a stage directly
follows the successful return of `pollPipelineStatus` for the stage before it; and when every
stage succeeds (the stage loop ends without error) the calls are exactly those of `stages`. -/
theorem executePipelineChain_stage_order (env : Env) (ctx : Ctx) (run : PipelineRun)
    (unit : PipelineUnit) (history : ExecutionHistory) (w w1 : World) (stages : List Service)
    (hfetch : fetchMicroServicesWithRetry env ctx
      (run.SelectedMicroServiceIDs ++ [unit.MacroServiceID]) 3 w = (.ok stages, w1)) :
    ∃ calls steps,
      createCallsOf (executePipelineChain env ctx run unit history w).2.trace
        = createCallsOf w.trace ++ calls ∧
      ciStepsOf (executePipelineChain env ctx run unit history w).2.trace
        = ciStepsOf w.trace ++ steps ∧
      calls <+: stages.map (fun s => s.GitLabRepoID) ∧
      steps <+: allStagesSteps stages ∧
      ((executeStages env ctx stages.length 0 run history stages w1).1 = none →
        calls = stages.map (fun s => s.GitLabRepoID) ∧ steps = allStagesSteps stages) := by
  obtain ⟨_, q2, q3, _⟩ := fetchMicroServicesWithRetry_quiet env ctx
    (run.SelectedMicroServiceIDs ++ [unit.MacroServiceID]) 3 w
  rw [hfetch] at q2 q3
  obtain ⟨calls, steps, h1, h2, h3, h4, h5⟩ :=
    executeStages_steps env ctx stages.length stages 0 run history w1
  refine ⟨calls, steps, ?_, ?_, h3, h4, h5⟩
  · simp only [executePipelineChain, hfetch]
    split
    · rename_i heq
      rw [heq] at h1
      rw [← q2]
      exact h1
    · rename_i heq
      rw [heq] at h1
      rw [(completePipeline_observed _ _ _ _).1, ← q2]
      exact h1
  · simp only [executePipelineChain, hfetch]
    split
    · rename_i heq
      rw [heq] at h2
      rw [← q3]
      exact h2
    · rename_i heq
      rw [heq] at h2
      rw [(completePipeline_observed _ _ _ _).2, ← q3]
      exact h2

/-! ### Rows touched by the chain -/

theorem map_update_ids {α : Type} (key : α → String) (id : String) (upd : α → α)
    (hk : ∀ x, key (upd x) = key x) (l : List α) :
    (l.map (fun r => if key r = id then upd r else r)).map key = l.map key := by
  induction l with
  | nil => rfl
  | cons a l ih =>
    simp only [List.map_cons, ih]
    by_cases h : key a = id <;> simp [h, hk]

theorem find?_isSome_of_mem {α : Type} (key : α → String) (id : String) (l : List α)
    (h : id ∈ l.map key) : ∃ r, l.find? (fun r => key r == id) = some r := by
  induction l with
  | nil => simp at h
  | cons a l ih =>
    by_cases ha : key a = id
    · exact ⟨a, by simp [List.find?_cons, ha]⟩
    · have hmem : id ∈ l.map key := by
        simp only [List.map_cons, List.mem_cons] at h
        rcases h with h | h
        · exact absurd h.symm ha
        · exact h
      obtain ⟨r, hr⟩ := ih hmem
      exact ⟨r, by simp [List.find?_cons, ha, hr]⟩

/-- The row IDs of `pipeline_runs` and `execution_history`. -/
theorem UpdatePipelineRun_rows (env : Env) (run : PipelineRun) (w : World) :
    (UpdatePipelineRun env run w).2.store.pipelineRuns.map (fun r => r.ID)
      = w.store.pipelineRuns.map (fun r => r.ID) ∧
    (UpdatePipelineRun env run w).2.store.executionHistory = w.store.executionHistory := by
  unfold UpdatePipelineRun stmt
  cases env.dbFault w.dbCalls
  · refine ⟨?_, rfl⟩
    have := map_update_ids (fun r : PipelineRun => r.ID) run.ID
      (fun r => { r with Status := run.Status, UpdatedAt := some w.clock,
                         GitLabPipelineID := run.GitLabPipelineID,
                         ApproverID := run.ApproverID, ExecutionTime := run.ExecutionTime })
      (fun _ => rfl) w.store.pipelineRuns
    simpa [now] using this
  · exact ⟨rfl, rfl⟩

theorem UpdatePipelineRunStatus_rows (env : Env) (id : String) (status : PipelineStatus)
    (w : World) :
    (UpdatePipelineRunStatus env id status w).2.store.pipelineRuns.map (fun r => r.ID)
      = w.store.pipelineRuns.map (fun r => r.ID) ∧
    (UpdatePipelineRunStatus env id status w).2.store.executionHistory
      = w.store.executionHistory := by
  unfold UpdatePipelineRunStatus stmt
  cases env.dbFault w.dbCalls
  · refine ⟨?_, rfl⟩
    have := map_update_ids (fun r : PipelineRun => r.ID) id
      (fun r => { r with Status := status, UpdatedAt := some w.clock })
      (fun _ => rfl) w.store.pipelineRuns
    simpa [now] using this
  · exact ⟨rfl, rfl⟩

theorem UpdateExecutionHistory_rows (env : Env) (history : ExecutionHistory) (w : World) :
    (UpdateExecutionHistory env history w).2.store.pipelineRuns = w.store.pipelineRuns ∧
    (UpdateExecutionHistory env history w).2.store.executionHistory.map (fun h => h.ID)
      = w.store.executionHistory.map (fun h => h.ID) := by
  unfold UpdateExecutionHistory stmt
  cases env.dbFault w.dbCalls
  · refine ⟨rfl, ?_⟩
    have := map_update_ids (fun h : ExecutionHistory => h.ID) history.ID
      (fun h => { h with Status := history.Status, CompletedAt := history.CompletedAt,
                         ExecutionTime := (if history.ExecutionTime != 0
                           then milliseconds history.ExecutionTime else 0),
                         ErrorMessage := history.ErrorMessage })
      (fun _ => rfl) w.store.executionHistory
    simpa using this
  · exact ⟨rfl, rfl⟩

theorem handlePipelineError_rows (env : Env) (run : PipelineRun) (history : ExecutionHistory)
    (microServiceID errorMessage : String) (w : World) :
    (handlePipelineError env run history microServiceID errorMessage
        w).2.2.store.pipelineRuns.map (fun r => r.ID)
      = w.store.pipelineRuns.map (fun r => r.ID) ∧
    (handlePipelineError env run history microServiceID errorMessage
        w).2.2.store.executionHistory.map (fun h => h.ID)
      = w.store.executionHistory.map (fun h => h.ID) := by
  unfold handlePipelineError broadcastPipelineUpdate
  simp only [broadcastPipelineStatusChange_store]
  constructor
  · rw [(UpdatePipelineRunStatus_rows _ _ _ _).1, (UpdateExecutionHistory_rows _ _ _).1]
  · rw [(UpdatePipelineRunStatus_rows _ _ _ _).2, (UpdateExecutionHistory_rows _ _ _).2]

theorem ciCall_store (e : Event) (w : World) : (ciCall e w).store = w.store := rfl

/-- The stage loop keeps the rows of `pipeline_runs` and `execution_history` (it only updates
them), keeps the run's ID, and on success hands the history on unchanged. -/
theorem executeStages_rows (env : Env) (ctx : Ctx) (n : Nat) :
    ∀ (stages : List Service) (i : Nat) (run : PipelineRun) (history : ExecutionHistory)
      (w : World),
      (executeStages env ctx n i run history stages w).2.2.2.store.pipelineRuns.map
          (fun r => r.ID) = w.store.pipelineRuns.map (fun r => r.ID) ∧
      (executeStages env ctx n i run history stages w).2.2.2.store.executionHistory.map
          (fun h => h.ID) = w.store.executionHistory.map (fun h => h.ID) ∧
      (executeStages env ctx n i run history stages w).2.1.ID = run.ID ∧
      ((executeStages env ctx n i run history stages w).1 = none →
        (executeStages env ctx n i run history stages w).2.2.1 = history) := by
  intro stages
  induction stages with
  | nil => intro i run history w; exact ⟨rfl, rfl, rfl, fun _ => rfl⟩
  | cons svc rest ih =>
    intro i run history w
    have hb := broadcastPipelineStatusChange_store env run.ID StatusRunning
      ("Starting pipeline for microservice " ++ svc.Name) w
    have hstop : ∀ (run' run'' : PipelineRun) (msg : String) (w' : World),
        run''.ID = run.ID →
        w'.store.pipelineRuns.map (fun r => r.ID) = w.store.pipelineRuns.map (fun r => r.ID) →
        w'.store.executionHistory.map (fun h => h.ID)
          = w.store.executionHistory.map (fun h => h.ID) →
        ((some (handlePipelineError env run' history svc.ID msg w').1, run'',
            (handlePipelineError env run' history svc.ID msg w').2.1,
            (handlePipelineError env run' history svc.ID msg w').2.2) :
              Option Err × PipelineRun × ExecutionHistory × World).2.2.2.store.pipelineRuns.map
            (fun r => r.ID) = w.store.pipelineRuns.map (fun r => r.ID) ∧
        ((some (handlePipelineError env run' history svc.ID msg w').1, run'',
            (handlePipelineError env run' history svc.ID msg w').2.1,
            (handlePipelineError env run' history svc.ID msg w').2.2) :
              Option Err × PipelineRun × ExecutionHistory × World).2.2.2.store.executionHistory.map
            (fun h => h.ID) = w.store.executionHistory.map (fun h => h.ID) ∧
        ((some (handlePipelineError env run' history svc.ID msg w').1, run'',
            (handlePipelineError env run' history svc.ID msg w').2.1,
            (handlePipelineError env run' history svc.ID msg w').2.2) :
              Option Err × PipelineRun × ExecutionHistory × World).2.1.ID = run.ID ∧
        (((some (handlePipelineError env run' history svc.ID msg w').1, run'',
            (handlePipelineError env run' history svc.ID msg w').2.1,
            (handlePipelineError env run' history svc.ID msg w').2.2) :
              Option Err × PipelineRun × ExecutionHistory × World).1 = none →
          ((some (handlePipelineError env run' history svc.ID msg w').1, run'',
            (handlePipelineError env run' history svc.ID msg w').2.1,
            (handlePipelineError env run' history svc.ID msg w').2.2) :
              Option Err × PipelineRun × ExecutionHistory × World).2.2.1 = history) := by
      intro run' run'' msg w' hid h1 h2
      obtain ⟨e1, e2⟩ := handlePipelineError_rows env run' history svc.ID msg w'
      exact ⟨e1.trans h1, e2.trans h2, hid, fun h => by simp at h⟩
    rw [executeStages]
    dsimp only
    split
    · refine hstop _ _ _ _ rfl ?_ ?_
      · rw [ciCall_store, hb]
      · rw [ciCall_store, hb]
    · rename_i pipelineID _
      split
      · rename_i err w3 hupd
        have hr := congrArg (fun p => p.2.store.pipelineRuns.map (fun r => r.ID)) hupd
        have hh := congrArg (fun p => p.2.store.executionHistory) hupd
        simp only [(UpdatePipelineRun_rows _ _ _).1, (UpdatePipelineRun_rows _ _ _).2,
          ciCall_store, hb] at hr hh
        refine hstop _ _ _ _ rfl hr.symm ?_
        rw [← hh]
      · rename_i w3 hupd
        have hr := congrArg (fun p => p.2.store.pipelineRuns.map (fun r => r.ID)) hupd
        have hh := congrArg (fun p => p.2.store.executionHistory) hupd
        simp only [(UpdatePipelineRun_rows _ _ _).1, (UpdatePipelineRun_rows _ _ _).2,
          ciCall_store, hb] at hr hh
        obtain ⟨p1, _, _, _, _⟩ := pollPipelineStatus_observed env ctx svc.GitLabRepoID
          pipelineID w3
        split
        · rename_i err w4 hpoll
          rw [hpoll] at p1
          refine hstop _ _ _ _ rfl ?_ ?_
          · show w4.store.pipelineRuns.map _ = _
            rw [p1, ← hr]
          · show w4.store.executionHistory.map _ = _
            rw [p1, ← hh]
        · rename_i w4 hpoll
          rw [hpoll] at p1
          obtain ⟨i1, i2, i3, i4⟩ := ih (i + 1) { run with GitLabPipelineID := pipelineID }
            history w4
          refine ⟨i1.trans ?_, i2.trans ?_, i3, i4⟩
          · show w4.store.pipelineRuns.map _ = _
            rw [p1, ← hr]
          · show w4.store.executionHistory.map _ = _
            rw [p1, ← hh]

/-- The tail of the chain when no statement fails: history and run rows are marked Completed
and the success broadcast is the last event. -/
theorem completePipeline_of_noFault (env : Env) (hdb : ∀ n, env.dbFault n = none)
    (run : PipelineRun) (history : ExecutionHistory) (w : World) :
    (completePipeline env run history w).1 = none ∧
    (completePipeline env run history w).2.store.pipelineRuns
      = w.store.pipelineRuns.map (fun r =>
          if r.ID = run.ID then { r with Status := StatusCompleted, UpdatedAt := some w.clock }
          else r) ∧
    (completePipeline env run history w).2.store.executionHistory
      = w.store.executionHistory.map (fun h =>
          if h.ID = history.ID then
            { h with Status := StatusCompleted, CompletedAt := some w.clock,
                     ExecutionTime :=
                       (if wrapInt64 (milliseconds (timeSub (some w.clock) history.StartedAt)
                            * 1000000) != 0
                        then milliseconds (wrapInt64
                          (milliseconds (timeSub (some w.clock) history.StartedAt) * 1000000))
                        else 0),
                     ErrorMessage := history.ErrorMessage }
          else h) ∧
    broadcastsOf (completePipeline env run history w).2.trace
      = broadcastsOf w.trace ++ [(run.ID, StatusCompleted)] := by
  simp only [completePipeline, UpdateExecutionHistory, UpdatePipelineRunStatus, stmt, hdb,
    broadcastPipelineStatusChange, emit, now]
  refine ⟨?_, ?_, ?_, ?_⟩ <;> simp [broadcastsOf, List.filterMap_append]

/-- C8: when the stage list resolves, every stage succeeds (the stage loop ends without error:
each `CreatePipeline` call, ID update and poll succeeded) and no persistence statement fails,
then for a stored run and a stored history without error message (as created by approval)
`executePipelineChain` returns no error, the history row ends Completed with a set completion
time and no error message, the run row ends Completed, and the last broadcast is the run's
Completed one. -/
theorem executePipelineChain_completes (env : Env) (ctx : Ctx) (run : PipelineRun)
    (unit : PipelineUnit) (history : ExecutionHistory) (w w1 : World) (stages : List Service)
    (hdb : ∀ n, env.dbFault n = none)
    (hfetch : fetchMicroServicesWithRetry env ctx
      (run.SelectedMicroServiceIDs ++ [unit.MacroServiceID]) 3 w = (.ok stages, w1))
    (hstages : (executeStages env ctx stages.length 0 run history stages w1).1 = none)
    (hrun : run.ID ∈ w.store.pipelineRuns.map (fun r => r.ID))
    (hhist : history.ID ∈ w.store.executionHistory.map (fun h => h.ID))
    (hmsg : history.ErrorMessage = "") :
    (executePipelineChain env ctx run unit history w).1 = none ∧
    (∃ h', (executePipelineChain env ctx run unit history w).2.store.executionHistory.find?
          (fun h => h.ID == history.ID) = some h' ∧
        h'.Status = StatusCompleted ∧ h'.CompletedAt.isSome = true ∧ h'.ErrorMessage = "") ∧
    (∃ r', (executePipelineChain env ctx run unit history w).2.store.pipelineRuns.find?
          (fun r => r.ID == run.ID) = some r' ∧ r'.Status = StatusCompleted) ∧
    (broadcastsOf (executePipelineChain env ctx run unit history w).2.trace).getLast?
      = some (run.ID, StatusCompleted) := by
  obtain ⟨q1, _, _, _⟩ := fetchMicroServicesWithRetry_quiet env ctx
    (run.SelectedMicroServiceIDs ++ [unit.MacroServiceID]) 3 w
  rw [hfetch] at q1
  obtain ⟨e1, e2, e3, e4⟩ := executeStages_rows env ctx stages.length stages 0 run history w1
  have e4' := e4 hstages
  simp only [executePipelineChain, hfetch]
  cases hx : executeStages env ctx stages.length 0 run history stages w1 with
  | mk res rest =>
    obtain ⟨run1, history1, w2⟩ := rest
    rw [hx] at hstages e1 e2 e3 e4'
    simp only at hstages e1 e2 e3 e4'
    subst hstages
    subst e4'
    simp only []
    obtain ⟨c1, c2, c3, c4⟩ := completePipeline_of_noFault env hdb run1 history1 w2
    rw [e3] at c2 c4
    have hrun2 : run.ID ∈ w2.store.pipelineRuns.map (fun r => r.ID) := by
      rw [e1, q1]; exact hrun
    have hhist2 : history1.ID ∈ w2.store.executionHistory.map (fun h => h.ID) := by
      rw [e2, q1]; exact hhist
    refine ⟨c1, ?_, ?_, ?_⟩
    · obtain ⟨h0, hh0⟩ := find?_isSome_of_mem (fun h : ExecutionHistory => h.ID) history1.ID
        w2.store.executionHistory hhist2
      have := find?_map_update' (fun h : ExecutionHistory => h.ID) history1.ID
        (fun h => { h with Status := StatusCompleted, CompletedAt := some w2.clock,
                           ExecutionTime :=
                             (if wrapInt64 (milliseconds (timeSub (some w2.clock)
                                  history1.StartedAt) * 1000000) != 0
                              then milliseconds (wrapInt64 (milliseconds
                                (timeSub (some w2.clock) history1.StartedAt) * 1000000))
                              else 0),
                           ErrorMessage := history1.ErrorMessage })
        (fun _ => rfl) w2.store.executionHistory
      simp only [hh0, Option.map_some'] at this
      rw [c3, this]
      exact ⟨_, rfl, rfl, rfl, hmsg⟩
    · obtain ⟨r0, hr0⟩ := find?_isSome_of_mem (fun r : PipelineRun => r.ID) run.ID
        w2.store.pipelineRuns hrun2
      have := find?_map_update' (fun r : PipelineRun => r.ID) run.ID
        (fun r => { r with Status := StatusCompleted, UpdatedAt := some w2.clock })
        (fun _ => rfl) w2.store.pipelineRuns
      simp only [hr0, Option.map_some'] at this
      rw [c2, this]
      exact ⟨_, rfl, rfl⟩
    · rw [c4]
      simp

theorem UpdatePipelineRun_of_noFault (env : Env) (run : PipelineRun) (w : World)
    (h1 : env.dbFault w.dbCalls = none) :
    (UpdatePipelineRun env run w).1 = none ∧
    (∀ r0, w.store.pipelineRuns.find? (fun r => r.ID == run.ID) = some r0 →
      ∃ r1, (UpdatePipelineRun env run w).2.store.pipelineRuns.find? (fun r => r.ID == run.ID)
        = some r1) := by
  simp only [UpdatePipelineRun, stmt, h1, now]
  refine ⟨trivial, ?_⟩
  intro r0 hr0
  have := find?_map_update' (fun r : PipelineRun => r.ID) run.ID
    (fun r => { r with Status := run.Status, UpdatedAt := some w.clock,
                       GitLabPipelineID := run.GitLabPipelineID,
                       ApproverID := run.ApproverID, ExecutionTime := run.ExecutionTime })
    (fun _ => rfl) w.store.pipelineRuns
  simp only [hr0, Option.map_some'] at this
  simp only [beq_iff_eq]
  rw [this]
  exact ⟨_, rfl⟩

theorem executePipelineChain_stage_order_witness :
    fetchMicroServicesWithRetry demoEnv demoCtx
        (demoRunAB.SelectedMicroServiceIDs ++ [demoUnit.MacroServiceID]) 3 demoApproved
      = (.ok [demoServiceA, demoServiceB, demoServiceM],
         (fetchMicroServicesWithRetry demoEnv demoCtx ["A", "B", "M"] 3 demoApproved).2) ∧
    createCallsOf
        (executePipelineChain demoEnv demoCtx demoRunAB demoUnit demoHistory demoApproved).2.trace
      = ["repoA", "repoB", "repoM"] ∧
    ∃ calls steps,
      createCallsOf
          (executePipelineChain demoEnv demoCtx demoRunAB demoUnit demoHistory
            demoApproved).2.trace
        = createCallsOf demoApproved.trace ++ calls ∧
      ciStepsOf
          (executePipelineChain demoEnv demoCtx demoRunAB demoUnit demoHistory
            demoApproved).2.trace
        = ciStepsOf demoApproved.trace ++ steps ∧
      calls <+: [demoServiceA, demoServiceB, demoServiceM].map (fun s => s.GitLabRepoID) ∧
      steps <+: allStagesSteps [demoServiceA, demoServiceB, demoServiceM] ∧
      ((executeStages demoEnv demoCtx [demoServiceA, demoServiceB, demoServiceM].length 0
          demoRunAB demoHistory [demoServiceA, demoServiceB, demoServiceM]
          (fetchMicroServicesWithRetry demoEnv demoCtx ["A", "B", "M"] 3 demoApproved).2).1
          = none →
        calls = [demoServiceA, demoServiceB, demoServiceM].map (fun s => s.GitLabRepoID) ∧
        steps = allStagesSteps [demoServiceA, demoServiceB, demoServiceM]) :=
  ⟨by rfl, by decide,
   executePipelineChain_stage_order demoEnv demoCtx demoRunAB demoUnit demoHistory demoApproved
     (fetchMicroServicesWithRetry demoEnv demoCtx ["A", "B", "M"] 3 demoApproved).2
     [demoServiceA, demoServiceB, demoServiceM] (by rfl)⟩

theorem executePipelineChain_completes_witness :
    (ApprovePipelineRun demoEnv "req-1" demoApprover "ok" demoPending).2.2 = some demoLaunch ∧
    (executePipelineChain demoEnv demoCtx demoRun demoUnit demoHistory demoApproved).1 = none ∧
    (∃ h', (executePipelineChain demoEnv demoCtx demoRun demoUnit demoHistory
          demoApproved).2.store.executionHistory.find? (fun h => h.ID == demoHistory.ID)
          = some h' ∧
        h'.Status = StatusCompleted ∧ h'.CompletedAt.isSome = true ∧ h'.ErrorMessage = "") ∧
    (∃ r', (executePipelineChain demoEnv demoCtx demoRun demoUnit demoHistory
          demoApproved).2.store.pipelineRuns.find? (fun r => r.ID == demoRun.ID) = some r' ∧
        r'.Status = StatusCompleted) ∧
    (broadcastsOf (executePipelineChain demoEnv demoCtx demoRun demoUnit demoHistory
        demoApproved).2.trace).getLast? = some (demoRun.ID, StatusCompleted) :=
  ⟨by rfl,
   executePipelineChain_completes demoEnv demoCtx demoRun demoUnit demoHistory demoApproved
     (fetchMicroServicesWithRetry demoEnv demoCtx ["A", "M"] 3 demoApproved).2
     [demoServiceA, demoServiceM] (fun _ => rfl) (by rfl) (by rfl) (by decide) (by decide)
     (by rfl)⟩

/-- C9, the code at a unit without main service: for unit `V` (empty `MacroServiceID`) and
selection `[A]`, with a CI provider on which every pipeline would succeed, the chain appends
the empty ID to the stage list, fetches it in each of the four attempts, makes no
`CreatePipeline` call and leaves the run Rejected. -/
theorem executePipelineChain_empty_main_service_rejected :
    (ApprovePipelineRun demoEnv "req-1" demoApprover "ok" demoPendingV).2.2 = some demoLaunchV ∧
    (executionGoroutine demoEnv demoLaunchV demoApprovedV).1
      = some (.chain ("Failed to fetch microservices: failed to fetch microservices after 4 "
          ++ "attempts: microservice ID  not found")) ∧
    fetchedIDsOf (executionGoroutine demoEnv demoLaunchV demoApprovedV).2.trace
      = ["A", "", "A", "", "A", "", "A", ""] ∧
    createCallsOf (executionGoroutine demoEnv demoLaunchV demoApprovedV).2.trace = [] ∧
    ((executionGoroutine demoEnv demoLaunchV demoApprovedV).2.store.pipelineRuns.find?
        (fun r => r.ID == "run-1")).map (fun r => r.Status) = some StatusRejected :=
  ⟨by rfl, by rfl, by decide, by decide, by decide⟩

/-! ## The broadcasts of a run, with their texts -/

theorem messagesOf_append (a b : List Event) :
    messagesOf (a ++ b) = messagesOf a ++ messagesOf b := by
  simp [messagesOf, List.filterMap_append]

/-- A broadcast adds its run ID, status and text to the messages of the trace. -/
theorem broadcastPipelineStatusChange_messages (env : Env) (runID : String)
    (status : PipelineStatus) (message : String) (w : World) :
    messagesOf (broadcastPipelineStatusChange env runID status message w).trace
      = messagesOf w.trace ++ [(runID, status, message)] := by
  unfold broadcastPipelineStatusChange stmt emit
  cases env.dbFault w.dbCalls <;> simp [messagesOf, List.filterMap_append]

theorem CreatePipelineRun_trace (env : Env) (run : PipelineRun) (w : World) :
    (CreatePipelineRun env run w).2.trace = w.trace := by
  unfold CreatePipelineRun stmt newID
  cases (run.ID == "") <;> simp only [Bool.false_eq_true, if_false, if_true] <;>
    cases env.dbFault _ <;> rfl

theorem CreateAuthorizationRequest_trace (env : Env) (req : AuthorizationRequest) (w : World) :
    (CreateAuthorizationRequest env req w).2.trace = w.trace := by
  unfold CreateAuthorizationRequest stmt newID
  cases (req.ID == "") <;> simp only [Bool.false_eq_true, if_false, if_true] <;>
    cases env.dbFault _ <;> rfl

theorem CreateExecutionHistory_trace (env : Env) (h : ExecutionHistory) (w : World) :
    (CreateExecutionHistory env h w).2.trace = w.trace := by
  unfold CreateExecutionHistory stmt newID
  cases (h.ID == "") <;> simp only [Bool.false_eq_true, if_false, if_true] <;>
    cases env.dbFault _ <;> rfl

theorem UpdateAuthorizationRequest_trace (env : Env) (id : String) (status : PipelineStatus)
    (comment : String) (approverID : List String) (w : World) :
    (UpdateAuthorizationRequest env id status comment approverID w).2.trace = w.trace := by
  unfold UpdateAuthorizationRequest stmt
  cases env.dbFault w.dbCalls <;> rfl

theorem GetPipelineRun_trace (env : Env) (id : String) (w : World) :
    (GetPipelineRun env id w).2.trace = w.trace := by
  unfold GetPipelineRun stmt
  cases env.dbFault w.dbCalls <;> rfl

/-- The joined read returns no error when its statement does not fail and the requester column
of every stored request casts to a UUID. -/
theorem GetAuthorizationRequestByID_no_error (env : Env) (hdb : ∀ n, env.dbFault n = none)
    (id : String) (w : World)
    (hcast : ∀ a ∈ w.store.authorizationRequests, (env.uuidParse a.RequesterID).isSome)
    (e : Err) : (GetAuthorizationRequestByID env id w).1 ≠ .error e := by
  unfold GetAuthorizationRequestByID stmt
  simp only [hdb]
  split
  · simp
  · rename_i ar hfind
    have hmem := List.mem_of_find?_eq_some hfind
    have hp := hcast ar hmem
    split
    · rename_i hnone
      rw [hnone] at hp
      simp at hp
    · split <;> simp

/-- The messages of `TriggerPipelineUnit`: when no statement fails and the requester column of
the stored requests casts to a UUID, a trigger that returns a run adds the one Pending
broadcast of that run. -/
theorem TriggerPipelineUnit_messages (env : Env) (unitID requester : String)
    (sel : List String) (w0 w1 : World) (run : PipelineRun)
    (hdb : ∀ n, env.dbFault n = none)
    (hT : TriggerPipelineUnit env unitID requester sel w0 = (.ok run, w1))
    (hcast : ∀ a ∈ w1.store.authorizationRequests, (env.uuidParse a.RequesterID).isSome) :
    messagesOf w1.trace = messagesOf w0.trace ++
      [(run.ID, StatusPending, "Pipeline execution triggered, awaiting approval")] := by
  unfold TriggerPipelineUnit at hT
  split at hT
  · simp at hT
  · rename_i unit wu hu
    have tu := congrArg (fun p => p.2.trace) hu
    simp only [GetPipelineUnit_trace] at tu
    split at hT
    · simp at hT
    · dsimp only at hT
      split at hT
      · simp at hT
      · rename_i created w2 hc
        have tc := congrArg (fun p => p.2.trace) hc
        simp only [CreatePipelineRun_trace] at tc
        split at hT
        · simp at hT
        · rename_i req w3 hr
          have tr := congrArg (fun p => p.2.trace) hr
          simp only [CreateAuthorizationRequest_trace] at tr
          have hw := GetAuthorizationRequestByID_world env req.ID w3
          split at hT
          · rename_i e w4 hj
            simp only [Prod.mk.injEq, Except.ok.injEq] at hT
            have hw4 : w4 = { w3 with dbCalls := w3.dbCalls + 1 } := by
              rw [← hw, hj]
            have hst : w3.store = w1.store := by rw [← hT.2, hw4]
            exact absurd (congrArg (fun p => p.1) hj)
              (GetAuthorizationRequestByID_no_error env hdb req.ID w3 (hst ▸ hcast) e)
          · rename_i full w4 hj
            simp only [Prod.mk.injEq, Except.ok.injEq] at hT
            have hw4 : w4 = { w3 with dbCalls := w3.dbCalls + 1 } := by
              rw [← hw, hj]
            rw [← hT.2, ← hT.1, broadcastPipelineStatusChange_messages, hw4]
            show messagesOf w3.trace ++ _ = _
            rw [← tr, ← tc, ← tu]

/-- The messages of `ApprovePipelineRun`: an approval that starts the execution goroutine adds
the one Accepted broadcast of the run it hands over. -/
theorem ApprovePipelineRun_messages (env : Env) (authRequestID approverID comment : String)
    (w1 w2 : World) (l : ChainLaunch)
    (hA : ApprovePipelineRun env authRequestID approverID comment w1 = (none, w2, some l)) :
    messagesOf w2.trace = messagesOf w1.trace ++
      [(l.run.ID, StatusAccepted, "Pipeline run approved")] := by
  unfold ApprovePipelineRun at hA
  split at hA
  · simp at hA
  · rename_i req wa hg
    have ta := congrArg (fun p => p.2.trace) hg
    simp only [GetAuthorizationRequest_world] at ta
    split at hA
    · simp at hA
    · split at hA
      · simp at hA
      · rename_i wb hupd
        have tb := congrArg (fun p => p.2.trace) hupd
        simp only [UpdateAuthorizationRequest_trace] at tb
        split at hA
        · simp at hA
        · rename_i run wc hrun
          have tc := congrArg (fun p => p.2.trace) hrun
          simp only [GetPipelineRun_trace] at tc
          split at hA
          · simp at hA
          · rename_i wd hst
            have td := congrArg (fun p => p.2.trace) hst
            simp only [(UpdatePipelineRunStatus_trace _ _ _ _).1] at td
            split at hA
            · simp at hA
            · dsimp only at hA
              split at hA
              · simp at hA
              · rename_i hist we hch
                have te := congrArg (fun p => p.2.trace) hch
                simp only [CreateExecutionHistory_trace] at te
                split at hA
                · simp at hA
                · rename_i unit wg hgu
                  have tg := congrArg (fun p => p.2.trace) hgu
                  simp only [GetPipelineUnit_trace,
                    broadcastPipelineStatusChange_messages] at tg
                  generalize hB : GetAuthorizationRequestByID env _ _ = b at hA
                  obtain ⟨full, wh⟩ := b
                  have th := congrArg (fun p => p.2.trace) hB
                  simp only [GetAuthorizationRequestByID_world, GetDeliveryEmail_world] at th
                  split at hA
                  · simp at hA
                  · simp only [Prod.mk.injEq, Option.some.injEq, true_and] at hA
                    rw [← hA.1, ← hA.2, ← th, ← tg, broadcastPipelineStatusChange_messages,
                      ← te, ← td, ← tc, ← tb, ← ta]

theorem fetchMicroServicesFrom_messages (env : Env) (ids : List String) :
    ∀ (i : Nat) (acc : List Service) (w : World),
      messagesOf (fetchMicroServicesFrom env i acc ids w).2.trace = messagesOf w.trace := by
  induction ids with
  | nil => intro i acc w; rfl
  | cons id rest ih =>
    intro i acc w
    unfold fetchMicroServicesFrom
    have hbase : messagesOf (GetServiceByID env id (emit (.getService id) w)).2.trace
        = messagesOf w.trace := by
      rw [GetServiceByID_trace]
      simp [emit, messagesOf, List.filterMap_append]
    cases hg : GetServiceByID env id (emit (.getService id) w) with
    | mk res w1 =>
      rw [hg] at hbase
      cases res with
      | error e => exact hbase
      | ok svc =>
        dsimp only
        split
        · exact hbase
        · exact (ih (i + 1) (acc ++ [svc]) w1).trans hbase

theorem retryWait_messages (ctx : Ctx) (a : Nat) (w : World) :
    messagesOf (retryWait ctx a w).2.trace = messagesOf w.trace := by
  unfold retryWait waitFor
  split
  · split <;> simp [emit, messagesOf, List.filterMap_append]
  · rfl

theorem retryFetch_messages (env : Env) (ids : List String) (a : Nat) (w : World) :
    messagesOf (retryFetch env ids a w).2.trace = messagesOf w.trace := by
  unfold retryFetch fetchMicroServices
  rw [fetchMicroServicesFrom_messages]
  simp [emit, messagesOf, List.filterMap_append]

theorem fetchRetryLoop_messages (env : Env) (ctx : Ctx) (ids : List String) (n : Int) :
    ∀ (r a : Nat) (le : Option Err) (w : World),
      messagesOf (fetchRetryLoop env ctx ids n a le r w).2.trace = messagesOf w.trace := by
  intro r
  induction r with
  | zero =>
    intro a le w
    unfold fetchRetryLoop
    cases le <;> rfl
  | succ r ih =>
    intro a le w
    rw [fetchRetryLoop]
    have hw := retryWait_messages ctx a w
    split
    · have hf := retryFetch_messages env ids a (retryWait ctx a w).2
      cases hr : retryFetch env ids a (retryWait ctx a w).2 with
      | mk res wf =>
        rw [hr] at hf
        cases res with
        | ok svcs => exact hf.trans hw
        | error e => exact (ih (a + 1) (some e) wf).trans (hf.trans hw)
    · exact hw

theorem fetchMicroServicesWithRetry_messages (env : Env) (ctx : Ctx) (ids : List String)
    (n : Int) (w : World) :
    messagesOf (fetchMicroServicesWithRetry env ctx ids n w).2.trace = messagesOf w.trace :=
  fetchRetryLoop_messages env ctx ids n _ 0 none w

theorem pollLoop_messages (env : Env) (ctx : Ctx) (projectID : String) (pipelineID : Int)
    (start : Nat) :
    ∀ (ticks : Nat) (w : World),
      messagesOf (pollLoop env ctx projectID pipelineID start ticks w).2.trace
        = messagesOf w.trace := by
  intro ticks
  induction ticks with
  | zero => intro w; rfl
  | succ t ih =>
    intro w
    rw [pollLoop]
    dsimp only
    split
    · rfl
    · split
      · rfl
      · have hemit : ∀ w' : World,
            messagesOf (ciCall (.getPipeline projectID pipelineID) w').trace
              = messagesOf w'.trace := by
          intro w'
          simp [ciCall, emit, messagesOf, List.filterMap_append]
        split
        · exact hemit _
        · split
          · exact hemit _
          · split
            · exact hemit _
            · exact (ih _).trans (hemit _)

theorem pollPipelineStatus_messages (env : Env) (ctx : Ctx) (projectID : String)
    (pipelineID : Int) (w : World) :
    messagesOf (pollPipelineStatus env ctx projectID pipelineID w).2.trace
      = messagesOf w.trace := by
  unfold pollPipelineStatus
  dsimp only
  show messagesOf (_ ++ [_]) = _
  rw [messagesOf_append, pollLoop_messages]
  simp [messagesOf]

/-- The messages of a stage loop that ends without error: one Running broadcast per stage,
announcing the start of the stage's service, in the order of the stages; the run keeps its
ID. -/
theorem executeStages_messages (env : Env) (ctx : Ctx) (n : Nat) :
    ∀ (stages : List Service) (i : Nat) (run : PipelineRun) (history : ExecutionHistory)
      (w : World) (runS : PipelineRun) (histS : ExecutionHistory) (ws : World),
      executeStages env ctx n i run history stages w = (none, runS, histS, ws) →
      runS.ID = run.ID ∧
      messagesOf ws.trace = messagesOf w.trace ++
        stages.map (fun s => (run.ID, StatusRunning,
          "Starting pipeline for microservice " ++ s.Name)) := by
  intro stages
  induction stages with
  | nil =>
    intro i run history w runS histS ws h
    simp only [executeStages, Prod.mk.injEq, true_and] at h
    rw [← h.1, ← h.2.2]
    simp
  | cons svc rest ih =>
    intro i run history w runS histS ws h
    rw [executeStages] at h
    dsimp only at h
    split at h
    · simp at h
    · rename_i pipelineID _
      split at h
      · simp at h
      · rename_i w3 hupd
        have t3 := congrArg (fun p => p.2.trace) hupd
        simp only [(UpdatePipelineRun_trace _ _ _).1] at t3
        split at h
        · simp at h
        · rename_i w4 hpoll
          have t4 := congrArg (fun p => messagesOf p.2.trace) hpoll
          simp only [pollPipelineStatus_messages] at t4
          obtain ⟨hid, hm⟩ := ih _ _ _ _ _ _ _ h
          refine ⟨hid, ?_⟩
          rw [hm, ← t4, ← t3]
          have hc : messagesOf (ciCall (.createPipeline svc.GitLabRepoID "development"
              (stageVariables i n)) (broadcastPipelineStatusChange env run.ID StatusRunning
                ("Starting pipeline for microservice " ++ svc.Name) w)).trace
              = messagesOf (broadcastPipelineStatusChange env run.ID StatusRunning
                ("Starting pipeline for microservice " ++ svc.Name) w).trace := by
            show messagesOf (_ ++ [_]) = _
            rw [messagesOf_append]
            simp [messagesOf]
          rw [hc, broadcastPipelineStatusChange_messages]
          simp

/-- The messages of `completePipeline` when no statement fails: the one Completed broadcast. -/
theorem completePipeline_messages (env : Env) (hdb : ∀ n, env.dbFault n = none)
    (run : PipelineRun) (history : ExecutionHistory) (w : World) :
    messagesOf (completePipeline env run history w).2.trace = messagesOf w.trace ++
      [(run.ID, StatusCompleted, "Pipeline run completed successfully")] := by
  unfold completePipeline
  dsimp only
  split
  · rename_i err w2 hupd
    have he := congrArg (fun p => p.1) hupd
    simp only [UpdatePipelineRunStatus, stmt, hdb] at he
    simp at he
  · rename_i w2 hupd
    have ht := congrArg (fun p => p.2.trace) hupd
    simp only [(UpdatePipelineRunStatus_trace _ _ _ _).1, (UpdateExecutionHistory_trace _ _ _).1]
      at ht
    rw [broadcastPipelineStatusChange_messages, ← ht]

/-- The broadcasts of the demo run that is triggered for selection `["A"]`, approved, and
whose stages all succeed: between Accepted and the stage broadcasts stands the Running
broadcast of the goroutine's start, and the main service of the unit is a stage too. -/
theorem broadcast_sequence_selection_A :
    messagesOf (executionGoroutine demoEnv demoLaunch demoApproved).2.trace
      = [("run-1", StatusPending, "Pipeline execution triggered, awaiting approval"),
         ("run-1", StatusAccepted, "Pipeline run approved"),
         ("run-1", StatusRunning, "Pipeline run approved and execution started"),
         ("run-1", StatusRunning, "Starting pipeline for microservice alpha"),
         ("run-1", StatusRunning, "Starting pipeline for microservice main"),
         ("run-1", StatusCompleted, "Pipeline run completed successfully")] ∧
    (ApprovePipelineRun demoEnv "req-1" demoApprover "ok" demoPending).2.2 = some demoLaunch ∧
    (executionGoroutine demoEnv demoLaunch demoApproved).1 = none ∧
    broadcastsOf (executionGoroutine demoEnv demoLaunch demoApproved).2.trace
      ≠ [("run-1", StatusPending), ("run-1", StatusAccepted), ("run-1", StatusRunning),
         ("run-1", StatusCompleted)] := by
  refine ⟨by rfl, by rfl, by rfl, by decide⟩

/-- C20 (amended): for a run that is triggered, approved, and whose stages all succeed, with no
persistence statement failing, the broadcasts of the three calls are, in emission order and
with no others in between: one Pending broadcast at trigger, one Accepted broadcast at
approval, one Running broadcast "Pipeline run approved and execution started" when the
execution goroutine starts, one Running broadcast per stage announcing the start of that
stage's service, in execution order (the stages being the services of the selection followed
by the unit's main service), and finally one Completed broadcast. -/
theorem broadcast_sequence (env : Env) (unitID requester : String) (sel : List String)
    (authRequestID approverID comment : String) (w0 w1 w2 wf ws : World) (run : PipelineRun)
    (l : ChainLaunch) (stages : List Service) (runS : PipelineRun) (histS : ExecutionHistory)
    (hdb : ∀ n, env.dbFault n = none)
    (hT : TriggerPipelineUnit env unitID requester sel w0 = (.ok run, w1))
    (hcast : ∀ a ∈ w1.store.authorizationRequests, (env.uuidParse a.RequesterID).isSome)
    (hA : ApprovePipelineRun env authRequestID approverID comment w1 = (none, w2, some l))
    (hlink : l.run.ID = run.ID)
    (hfetch : fetchMicroServicesWithRetry env
        { doneAt := some (w2.clock + (60 * 60 * second).toNat) }
        (l.run.SelectedMicroServiceIDs ++ [l.unit.MacroServiceID]) 3
        (broadcastPipelineStatusChange env l.run.ID StatusRunning
          "Pipeline run approved and execution started" w2) = (.ok stages, wf))
    (hstages : executeStages env { doneAt := some (w2.clock + (60 * 60 * second).toNat) }
        stages.length 0 l.run l.history stages wf = (none, runS, histS, ws)) :
    (executionGoroutine env l w2).1 = none ∧
    messagesOf (executionGoroutine env l w2).2.trace = messagesOf w0.trace ++
      [(run.ID, StatusPending, "Pipeline execution triggered, awaiting approval"),
       (run.ID, StatusAccepted, "Pipeline run approved"),
       (run.ID, StatusRunning, "Pipeline run approved and execution started")] ++
      stages.map (fun s => (run.ID, StatusRunning,
        "Starting pipeline for microservice " ++ s.Name)) ++
      [(run.ID, StatusCompleted, "Pipeline run completed successfully")] := by
  have hmT := TriggerPipelineUnit_messages env unitID requester sel w0 w1 run hdb hT hcast
  have hmA := ApprovePipelineRun_messages env authRequestID approverID comment w1 w2 l hA
  have hmF := congrArg (fun p => messagesOf p.2.trace) hfetch
  simp only [fetchMicroServicesWithRetry_messages,
    broadcastPipelineStatusChange_messages] at hmF
  obtain ⟨hid, hmS⟩ := executeStages_messages env _ _ stages 0 l.run l.history wf runS histS ws
    hstages
  have hgo : executionGoroutine env l w2 = completePipeline env runS histS ws := by
    unfold executionGoroutine executePipelineChain
    simp only [hfetch, hstages]
  rw [hgo]
  refine ⟨(completePipeline_of_noFault env hdb runS histS ws).1, ?_⟩
  rw [completePipeline_messages env hdb, hmS, ← hmF, hmA, hmT, hid, hlink]
  simp

theorem broadcast_sequence_witness :
    messagesOf (executionGoroutine demoEnv demoLaunch demoApproved).2.trace
      = messagesOf demoWorld.trace ++
        [(demoRun.ID, StatusPending, "Pipeline execution triggered, awaiting approval"),
         (demoRun.ID, StatusAccepted, "Pipeline run approved"),
         (demoRun.ID, StatusRunning, "Pipeline run approved and execution started")] ++
        [demoServiceA, demoServiceM].map (fun s => (demoRun.ID, StatusRunning,
          "Starting pipeline for microservice " ++ s.Name)) ++
        [(demoRun.ID, StatusCompleted, "Pipeline run completed successfully")] :=
  (broadcast_sequence demoEnv "U" demoRequester ["A"] "req-1" demoApprover "ok" demoWorld
    demoPending demoApproved _ _ _ demoLaunch [demoServiceA, demoServiceM] _ _
    (fun _ => rfl) rfl (by decide) rfl rfl rfl rfl).2

/-! ## Atomicity of trigger and of unit creation -/

/-- C21, the code when the insert of the authorization request fails (statement 3 of the
call; with the table as `initTables` declares it, `approver_id TEXT NOT NULL`, the nil approver
the trigger passes is such a failure): the call returns the error, and the run created by the
same call stays stored, Pending, without any request. -/
theorem TriggerPipelineUnit_request_failure_leaves_run :
    demoWorld.store.pipelineRuns = [] ∧
    (TriggerPipelineUnit
        (faultAtEnv 3 "null value in column approver_id violates not-null constraint")
        "U" demoRequester ["A"] demoWorld).1
      = .error (.db "null value in column approver_id violates not-null constraint") ∧
    (TriggerPipelineUnit
        (faultAtEnv 3 "null value in column approver_id violates not-null constraint")
        "U" demoRequester ["A"] demoWorld).2.store.pipelineRuns = [demoRun] ∧
    (TriggerPipelineUnit
        (faultAtEnv 3 "null value in column approver_id violates not-null constraint")
        "U" demoRequester ["A"] demoWorld).2.store.authorizationRequests = [] :=
  ⟨by rfl, by rfl, by rfl, by rfl⟩

/-- C22, the code on the list `[A, A]` with main service `M`: both validations pass, the unit
is inserted, the first link is inserted, the second violates the primary key of
`pipeline_dependencies`; the call returns that error, and the unit and its first link stay
stored. On the list `[B, A]` the call succeeds and the dependencies read back are `[B, A]`. -/
theorem CreatePipelineUnit_repeated_micro_service_leaves_unit :
    (PipelineService.CreatePipelineUnit demoUnitEnv "M" ["A", "A"] demoWorld).1
      = .error (.db "duplicate key value violates unique constraint pipeline_dependencies_pkey")
    ∧
    (PipelineService.CreatePipelineUnit demoUnitEnv "M" ["A", "A"]
        demoWorld).2.store.pipelineUnits
      = demoWorld.store.pipelineUnits ++
        [{ ID := "unit-1", MacroServiceID := "M", CreatedAt := some 5, UpdatedAt := some 5 }] ∧
    (PipelineService.CreatePipelineUnit demoUnitEnv "M" ["A", "A"]
        demoWorld).2.store.pipelineDependencies
      = demoWorld.store.pipelineDependencies ++ [⟨"unit-1", "A", 0⟩] ∧
    (PipelineService.CreatePipelineUnit demoUnitEnv "M" ["B", "A"] demoWorld).1
      = .ok { ID := "unit-1", MacroServiceID := "M", CreatedAt := some 5,
              UpdatedAt := some 5 } ∧
    (GetMicroServiceDependencies demoUnitEnv "unit-1"
        (PipelineService.CreatePipelineUnit demoUnitEnv "M" ["B", "A"] demoWorld).2).1
      = .ok ["B", "A"] :=
  ⟨by rfl, by rfl, by rfl, by rfl, by rfl⟩

/-! ## The persisted status of a run -/

/-- The statement of `UpdatePipelineRun` writes the status of the run value it is given onto
every row with that ID. -/
theorem UpdatePipelineRun_writes_status (env : Env) (run : PipelineRun) (w : World)
    (hdb : env.dbFault w.dbCalls = none) :
    ∀ r ∈ (UpdatePipelineRun env run w).2.store.pipelineRuns,
      r.ID = run.ID → r.Status = run.Status := by
  intro r hr hid
  simp only [UpdatePipelineRun, stmt, hdb, List.mem_map] at hr
  obtain ⟨r0, _, hr0⟩ := hr
  by_cases h0 : (r0.ID == run.ID) = true
  · simp only [h0, if_true] at hr0
    rw [← hr0]
  · simp only [h0, Bool.false_eq_true, if_false] at hr0
    rw [hr0] at h0
    simp [hid] at h0

/-- C23, the code on the scenario run (selection `[A]`, every statement and every CI call
succeeding). After the approval the persisted status is Accepted, and the run value the
approval hands to the goroutine still says Pending. The step of the first stage that persists
the CI pipeline ID writes that value: the persisted status is Pending again. It is still
Pending when the stage loop ends, and becomes Completed by the update that follows. -/
theorem executePipelineChain_persists_pending_again :
    demoApproved.store.pipelineRuns.map (fun r => (r.ID, r.Status)) = [("run-1", "accepted")] ∧
    (ApprovePipelineRun demoEnv "req-1" demoApprover "ok" demoPending).2.2 = some demoLaunch ∧
    demoLaunch.run.Status = StatusPending ∧
    (UpdatePipelineRun demoEnv { demoLaunch.run with GitLabPipelineID := 100 }
        demoApproved).2.store.pipelineRuns.map (fun r => (r.ID, r.Status, r.GitLabPipelineID))
      = [("run-1", "pending", 100)] ∧
    demoStagesEnd.1 = none ∧
    demoStagesEnd.2.2.2.store.pipelineRuns.map (fun r => (r.ID, r.Status))
      = [("run-1", "pending")] ∧
    executionGoroutine demoEnv demoLaunch demoApproved
      = completePipeline demoEnv demoStagesEnd.2.1 demoStagesEnd.2.2.1 demoStagesEnd.2.2.2 ∧
    (executionGoroutine demoEnv demoLaunch demoApproved).2.store.pipelineRuns.map
      (fun r => (r.ID, r.Status)) = [("run-1", "completed")] :=
  ⟨by rfl, by rfl, by rfl, by rfl, by rfl, by rfl, by rfl, by rfl⟩

/-- C27, the code on unit `U`, whose declared order is `[A, B]`: a run triggered with the
selection `[B, A]` is accepted and its chain calls the CI provider for `repoB`, then `repoA`,
then the main service; the selection `[A, B]` gives `repoA`, `repoB`, main. The chain follows
the order of the selection, not that of the unit. -/
theorem executePipelineChain_follows_selection_order :
    (GetPipelineUnit demoEnv "U" demoWorld).1
      = .ok { ID := "U", MacroServiceID := "M", MicroServiceIDs := ["A", "B"] } ∧
    (TriggerPipelineUnit demoEnv "U" demoRequester ["B", "A"] demoWorld).1
      = .ok { demoRun with SelectedMicroServiceIDs := ["B", "A"] } ∧
    createCallsOf (demoExecution ["B", "A"]).trace = ["repoB", "repoA", "repoM"] ∧
    createCallsOf (demoExecution ["A", "B"]).trace = ["repoA", "repoB", "repoM"] ∧
    (demoExecution ["B", "A"]).store.pipelineRuns.map (fun r => (r.ID, r.Status))
      = [("run-1", "completed")] :=
  ⟨by rfl, by rfl, by rfl, by rfl, by rfl⟩

/-! ## The status listing -/

/-- The four groups after the loop of `GetAllPipelineStatuses`: each is what it was before,
followed by the pipelines of the list that the `switch` sends to it, in their order. -/
theorem groupPipelines_groups :
    ∀ (listing : List PipelineRunStatus) (response : PipelineStatusResponse),
      (groupPipelines response listing).Running
        = response.Running ++ listing.filter (fun p => p.Status == "running") ∧
      (groupPipelines response listing).Completed
        = response.Completed ++
          listing.filter (fun p => p.Status == "completed" || p.Status == "accepted") ∧
      (groupPipelines response listing).Failed
        = response.Failed ++
          listing.filter (fun p => p.Status == "failed" || p.Status == "rejected") ∧
      (groupPipelines response listing).Pending
        = response.Pending ++
          listing.filter (fun p => !(p.Status == "running") &&
            !(p.Status == "completed" || p.Status == "accepted") &&
            !(p.Status == "failed" || p.Status == "rejected")) ∧
      (groupPipelines response listing).Total = response.Total := by
  intro listing
  induction listing with
  | nil => intro response; simp [groupPipelines]
  | cons p rest ih =>
    intro response
    obtain ⟨h1, h2, h3, h4, h5⟩ := ih (groupPipeline response p)
    rw [groupPipelines, h1, h2, h3, h4, h5]
    unfold groupPipeline
    by_cases hr : p.Status = "running"
    · simp [hr, List.filter_cons]
    · by_cases hp : p.Status = "pending"
      · simp [hp, List.filter_cons]
      · by_cases hc : p.Status = "completed"
        · simp [hc, List.filter_cons]
        · by_cases ha : p.Status = "accepted"
          · simp [ha, List.filter_cons]
          · by_cases hf : p.Status = "failed"
            · simp [hf, List.filter_cons]
            · by_cases hj : p.Status = "rejected"
              · simp [hj, List.filter_cons]
              · simp [hr, hp, hc, ha, hf, hj, List.filter_cons]

/-- C30: when the listing query returns `listing`, `GetAllPipelineStatuses` returns a response
whose four groups are the pipelines of `listing` with status running; completed or accepted;
failed or rejected; and any other status (pending among them), each group in the order of
`listing`. Every listed pipeline is in exactly the one group of its status, and `Total` is the
length of `listing` and the sum of the four group sizes. -/
theorem GetAllPipelineStatuses_partition (env : Env) (w w1 : World)
    (listing : List PipelineRunStatus)
    (h : ListPipelineRunsWithServices env "" w = (.ok listing, w1)) :
    ∃ response, GetAllPipelineStatuses env w = (.ok response, w1) ∧
      response.Running = listing.filter (fun p => p.Status == "running") ∧
      response.Completed
        = listing.filter (fun p => p.Status == "completed" || p.Status == "accepted") ∧
      response.Failed
        = listing.filter (fun p => p.Status == "failed" || p.Status == "rejected") ∧
      response.Pending
        = listing.filter (fun p => !(p.Status == "running") &&
            !(p.Status == "completed" || p.Status == "accepted") &&
            !(p.Status == "failed" || p.Status == "rejected")) ∧
      response.Total = listing.length ∧
      response.Total = response.Running.length + response.Pending.length
        + response.Completed.length + response.Failed.length ∧
      ∀ p ∈ listing,
        (p ∈ response.Running ↔ p.Status = "running") ∧
        (p ∈ response.Completed ↔ p.Status = "completed" ∨ p.Status = "accepted") ∧
        (p ∈ response.Failed ↔ p.Status = "failed" ∨ p.Status = "rejected") ∧
        (p ∈ response.Pending ↔ ¬(p.Status = "running" ∨ p.Status = "completed" ∨
          p.Status = "accepted" ∨ p.Status = "failed" ∨ p.Status = "rejected")) := by
  obtain ⟨h1, h2, h3, h4, h5⟩ := groupPipelines_groups listing { Total := listing.length }
  simp only [List.nil_append] at h1 h2 h3 h4 h5
  refine ⟨groupPipelines { Total := listing.length } listing, ?_, h1, h2, h3, h4, h5, ?_, ?_⟩
  · simp only [GetAllPipelineStatuses, h]
  · rw [h5, h1, h2, h3, h4]
    clear h h1 h2 h3 h4 h5
    induction listing with
    | nil => simp
    | cons p rest ih =>
      simp only [Bool.not_or, Bool.and_assoc] at ih ⊢
      simp only [List.filter_cons, List.length_cons]
      by_cases hr : p.Status = "running"
      · simp [hr] at ih ⊢; omega
      · by_cases hc : p.Status = "completed"
        · simp [hc] at ih ⊢; omega
        · by_cases ha : p.Status = "accepted"
          · simp [ha] at ih ⊢; omega
          · by_cases hf : p.Status = "failed"
            · simp [hf] at ih ⊢; omega
            · by_cases hj : p.Status = "rejected"
              · simp [hj] at ih ⊢; omega
              · simp [hr, hc, ha, hf, hj] at ih ⊢; omega
  · intro p hp
    rw [h1, h2, h3, h4]
    simp only [List.mem_filter, hp, true_and, Bool.or_eq_true, Bool.and_eq_true,
      Bool.not_eq_true', beq_iff_eq, Bool.or_eq_false_iff, beq_eq_false_iff_ne, ne_eq]
    tauto

theorem GetAllPipelineStatuses_partition_witness :
    ListPipelineRunsWithServices demoEnv "" demoApproved
      = (.ok [{ ID := "run-1", PipelineUnitID := "U", Status := "accepted",
                CreatedAt := some 5, UpdatedAt := some 5 }],
         { demoApproved with dbCalls := demoApproved.dbCalls + 1 }) ∧
    ∃ response, GetAllPipelineStatuses demoEnv demoApproved
        = (.ok response, { demoApproved with dbCalls := demoApproved.dbCalls + 1 }) ∧
      response.Running = [] ∧
      response.Completed = [{ ID := "run-1", PipelineUnitID := "U", Status := "accepted",
                              CreatedAt := some 5, UpdatedAt := some 5 }] ∧
      response.Total = 1 := by
  refine ⟨by rfl, ?_⟩
  obtain ⟨response, h0, h1, h2, _, _, h5, _⟩ :=
    GetAllPipelineStatuses_partition demoEnv demoApproved _ _ (by rfl)
  exact ⟨response, h0, by rw [h1]; rfl, by rw [h2]; rfl, by rw [h5]; rfl⟩

/-! ## The arguments of the `CreatePipeline` calls -/

theorem createArgsOf_append (a b : List Event) :
    createArgsOf (a ++ b) = createArgsOf a ++ createArgsOf b := by
  simp [createArgsOf, List.filterMap_append]

theorem broadcastPipelineStatusChange_createArgs (env : Env) (runID : String)
    (status : PipelineStatus) (message : String) (w : World) :
    createArgsOf (broadcastPipelineStatusChange env runID status message w).trace
      = createArgsOf w.trace := by
  unfold broadcastPipelineStatusChange stmt emit
  cases env.dbFault w.dbCalls <;> simp [createArgsOf, List.filterMap_append]

theorem handlePipelineError_createArgs (env : Env) (run : PipelineRun)
    (history : ExecutionHistory) (microServiceID errorMessage : String) (w : World) :
    createArgsOf (handlePipelineError env run history microServiceID errorMessage w).2.2.trace
      = createArgsOf w.trace := by
  unfold handlePipelineError broadcastPipelineUpdate
  simp only []
  rw [broadcastPipelineStatusChange_createArgs, (UpdatePipelineRunStatus_trace _ _ _ _).1,
    (UpdateExecutionHistory_trace _ _ _).1]

theorem pollLoop_createArgs (env : Env) (ctx : Ctx) (projectID : String) (pipelineID : Int)
    (start : Nat) :
    ∀ (ticks : Nat) (w : World),
      createArgsOf (pollLoop env ctx projectID pipelineID start ticks w).2.trace
        = createArgsOf w.trace := by
  intro ticks
  induction ticks with
  | zero => intro w; rfl
  | succ t ih =>
    intro w
    rw [pollLoop]
    dsimp only
    split
    · rfl
    · split
      · rfl
      · have hemit : ∀ w' : World,
            createArgsOf (ciCall (.getPipeline projectID pipelineID) w').trace
              = createArgsOf w'.trace := by
          intro w'
          simp [ciCall, emit, createArgsOf, List.filterMap_append]
        split
        · exact hemit _
        · split
          · exact hemit _
          · split
            · exact hemit _
            · exact (ih _).trans (hemit _)

theorem pollPipelineStatus_createArgs (env : Env) (ctx : Ctx) (projectID : String)
    (pipelineID : Int) (w : World) :
    createArgsOf (pollPipelineStatus env ctx projectID pipelineID w).2.trace
      = createArgsOf w.trace := by
  unfold pollPipelineStatus
  dsimp only
  show createArgsOf (_ ++ [_]) = _
  rw [createArgsOf_append, pollLoop_createArgs]
  simp [createArgsOf]

theorem fetchMicroServicesFrom_createArgs (env : Env) (ids : List String) :
    ∀ (i : Nat) (acc : List Service) (w : World),
      createArgsOf (fetchMicroServicesFrom env i acc ids w).2.trace = createArgsOf w.trace := by
  induction ids with
  | nil => intro i acc w; rfl
  | cons id rest ih =>
    intro i acc w
    unfold fetchMicroServicesFrom
    have hbase : createArgsOf (GetServiceByID env id (emit (.getService id) w)).2.trace
        = createArgsOf w.trace := by
      rw [GetServiceByID_trace]
      simp [emit, createArgsOf, List.filterMap_append]
    cases hg : GetServiceByID env id (emit (.getService id) w) with
    | mk res w1 =>
      rw [hg] at hbase
      cases res with
      | error e => exact hbase
      | ok svc =>
        dsimp only
        split
        · exact hbase
        · exact (ih (i + 1) (acc ++ [svc]) w1).trans hbase

theorem retryWait_createArgs (ctx : Ctx) (a : Nat) (w : World) :
    createArgsOf (retryWait ctx a w).2.trace = createArgsOf w.trace := by
  unfold retryWait waitFor
  split
  · split <;> simp [emit, createArgsOf, List.filterMap_append]
  · rfl

theorem retryFetch_createArgs (env : Env) (ids : List String) (a : Nat) (w : World) :
    createArgsOf (retryFetch env ids a w).2.trace = createArgsOf w.trace := by
  unfold retryFetch fetchMicroServices
  rw [fetchMicroServicesFrom_createArgs]
  simp [emit, createArgsOf, List.filterMap_append]

theorem fetchRetryLoop_createArgs (env : Env) (ctx : Ctx) (ids : List String) (n : Int) :
    ∀ (r a : Nat) (le : Option Err) (w : World),
      createArgsOf (fetchRetryLoop env ctx ids n a le r w).2.trace = createArgsOf w.trace := by
  intro r
  induction r with
  | zero =>
    intro a le w
    unfold fetchRetryLoop
    cases le <;> rfl
  | succ r ih =>
    intro a le w
    rw [fetchRetryLoop]
    have hw := retryWait_createArgs ctx a w
    split
    · have hf := retryFetch_createArgs env ids a (retryWait ctx a w).2
      cases hr : retryFetch env ids a (retryWait ctx a w).2 with
      | mk res wf =>
        rw [hr] at hf
        cases res with
        | ok svcs => exact hf.trans hw
        | error e => exact (ih (a + 1) (some e) wf).trans (hf.trans hw)
    · exact hw

theorem fetchMicroServicesWithRetry_createArgs (env : Env) (ctx : Ctx) (ids : List String)
    (n : Int) (w : World) :
    createArgsOf (fetchMicroServicesWithRetry env ctx ids n w).2.trace = createArgsOf w.trace :=
  fetchRetryLoop_createArgs env ctx ids n _ 0 none w

theorem completePipeline_createArgs (env : Env) (run : PipelineRun)
    (history : ExecutionHistory) (w : World) :
    createArgsOf (completePipeline env run history w).2.trace = createArgsOf w.trace := by
  unfold completePipeline
  dsimp only
  split
  · rename_i err w2 hupd
    have ht := congrArg (fun p => p.2.trace) hupd
    simp only [(UpdatePipelineRunStatus_trace _ _ _ _).1, (UpdateExecutionHistory_trace _ _ _).1]
      at ht
    rw [broadcastPipelineStatusChange_createArgs, ← ht]
  · rename_i w2 hupd
    have ht := congrArg (fun p => p.2.trace) hupd
    simp only [(UpdatePipelineRunStatus_trace _ _ _ _).1, (UpdateExecutionHistory_trace _ _ _).1]
      at ht
    rw [broadcastPipelineStatusChange_createArgs, ← ht]

/-- The variables of stage `i` of `n`: the deployment variable for the last stage, none for
the others. -/
theorem stageVariables_eq (i n : Nat) :
    stageVariables i n = if i + 1 = n then [("DEPLOY_ENV", "QA")] else [] := by
  unfold stageVariables
  by_cases h : i + 1 = n
  · have : ((i : Int) == (n : Int) - 1) = true := by
      rw [beq_iff_eq]
      omega
    simp [h, this]
  · have : ((i : Int) == (n : Int) - 1) = false := by
      rw [beq_eq_false_iff_ne]
      omega
    simp [h, this]

/-- The `CreatePipeline` calls of the stage loop, with their arguments: a leading part of the
calls of the stages, and all of them when the loop ends without error. -/
theorem executeStages_createArgs (env : Env) (ctx : Ctx) (n : Nat) :
    ∀ (stages : List Service) (i : Nat) (run : PipelineRun) (history : ExecutionHistory)
      (w : World),
      ∃ calls,
        createArgsOf (executeStages env ctx n i run history stages w).2.2.2.trace
          = createArgsOf w.trace ++ calls ∧
        calls <+: (stages.enumFrom i).map (stageCall n) ∧
        ((executeStages env ctx n i run history stages w).1 = none →
          calls = (stages.enumFrom i).map (stageCall n)) := by
  intro stages
  induction stages with
  | nil =>
    intro i run history w
    exact ⟨[], by simp [executeStages], ⟨[], rfl⟩, fun _ => rfl⟩
  | cons svc rest ih =>
    intro i run history w
    have hc : createArgsOf (ciCall (.createPipeline svc.GitLabRepoID "development"
        (stageVariables i n)) (broadcastPipelineStatusChange env run.ID StatusRunning
          ("Starting pipeline for microservice " ++ svc.Name) w)).trace
        = createArgsOf w.trace ++ [stageCall n (i, svc)] := by
      show createArgsOf (_ ++ [_]) = _
      rw [createArgsOf_append, broadcastPipelineStatusChange_createArgs]
      simp [createArgsOf, stageCall, stageVariables_eq]
    have hpre : [stageCall n (i, svc)] <+: ((svc :: rest).enumFrom i).map (stageCall n) :=
      ⟨(rest.enumFrom (i + 1)).map (stageCall n), by simp [List.enumFrom_cons]⟩
    rw [executeStages]
    dsimp only
    split
    · refine ⟨[stageCall n (i, svc)], ?_, hpre, fun h => by simp at h⟩
      dsimp only
      rw [handlePipelineError_createArgs, hc]
    · rename_i pipelineID _
      split
      · rename_i err w3 hupd
        have ht := congrArg (fun p => p.2.trace) hupd
        simp only [(UpdatePipelineRun_trace _ _ _).1] at ht
        refine ⟨[stageCall n (i, svc)], ?_, hpre, fun h => by simp at h⟩
        dsimp only
        rw [handlePipelineError_createArgs, ← ht, hc]
      · rename_i w3 hupd
        have ht := congrArg (fun p => p.2.trace) hupd
        simp only [(UpdatePipelineRun_trace _ _ _).1] at ht
        split
        · rename_i err w4 hpoll
          have hp := congrArg (fun p => createArgsOf p.2.trace) hpoll
          simp only [pollPipelineStatus_createArgs] at hp
          refine ⟨[stageCall n (i, svc)], ?_, hpre, fun h => by simp at h⟩
          dsimp only
          rw [handlePipelineError_createArgs, ← hp, ← ht, hc]
        · rename_i w4 hpoll
          have hp := congrArg (fun p => createArgsOf p.2.trace) hpoll
          simp only [pollPipelineStatus_createArgs] at hp
          obtain ⟨calls, h1, h2, h3⟩ := ih (i + 1)
            { run with GitLabPipelineID := pipelineID } history w4
          refine ⟨stageCall n (i, svc) :: calls, ?_, ?_, ?_⟩
          · rw [h1, ← hp, ← ht, hc]
            simp
          · simp only [List.enumFrom_cons, List.map_cons]
            exact (List.prefix_cons_inj _).mpr h2
          · intro h
            simp only [List.enumFrom_cons, List.map_cons, h3 h]

/-- C28: when the stage list resolves to `stages`, the `CreatePipeline` calls of
`executePipelineChain` are, with their arguments, a leading part of the calls
`(repository ID of the stage, "development", variables)` of the stages in order, and all of
them when every stage succeeds; the call at index `i` is that of stage `i`, it uses the ref
`development` and the stage's own repository ID, and it carries the one variable
`DEPLOY_ENV=QA` when `i` is the last index of `stages` and no variable otherwise. -/
theorem executePipelineChain_stage_variables (env : Env) (ctx : Ctx) (run : PipelineRun)
    (unit : PipelineUnit) (history : ExecutionHistory) (w w1 : World) (stages : List Service)
    (hfetch : fetchMicroServicesWithRetry env ctx
      (run.SelectedMicroServiceIDs ++ [unit.MacroServiceID]) 3 w = (.ok stages, w1)) :
    ∃ calls,
      createArgsOf (executePipelineChain env ctx run unit history w).2.trace
        = createArgsOf w.trace ++ calls ∧
      calls <+: stages.enum.map (stageCall stages.length) ∧
      ((executeStages env ctx stages.length 0 run history stages w1).1 = none →
        calls = stages.enum.map (stageCall stages.length)) ∧
      ∀ (i : Nat) (call : String × String × List (String × String)), calls[i]? = some call →
        ∃ s, stages[i]? = some s ∧
          call = (s.GitLabRepoID, "development",
            if i = stages.length - 1 then [("DEPLOY_ENV", "QA")] else []) := by
  have q := fetchMicroServicesWithRetry_createArgs env ctx
    (run.SelectedMicroServiceIDs ++ [unit.MacroServiceID]) 3 w
  rw [hfetch] at q
  obtain ⟨calls, h1, h2, h3⟩ := executeStages_createArgs env ctx stages.length stages 0 run
    history w1
  refine ⟨calls, ?_, h2, h3, ?_⟩
  · simp only [executePipelineChain, hfetch]
    split
    · rename_i heq
      rw [heq] at h1
      rw [← q]
      exact h1
    · rename_i heq
      rw [heq] at h1
      rw [completePipeline_createArgs, ← q]
      exact h1
  · intro i call hcall
    obtain ⟨t, ht⟩ := h2
    have hi : i < calls.length := by
      by_contra hge
      rw [List.getElem?_eq_none (by omega)] at hcall
      exact absurd hcall (by simp)
    have hget : (stages.enum.map (stageCall stages.length))[i]? = some call := by
      have := @List.getElem?_append_left _ calls t i hi
      rw [ht] at this
      exact this.trans hcall
    rw [List.getElem?_map, List.getElem?_enum] at hget
    cases hs : stages[i]? with
    | none => simp [hs] at hget
    | some s =>
      have hlt : i < stages.length := by
        by_contra hge
        rw [List.getElem?_eq_none (by omega)] at hs
        exact absurd hs (by simp)
      simp only [hs, Option.map_some', Option.some.injEq, stageCall] at hget
      refine ⟨s, rfl, ?_⟩
      rw [← hget]
      have hiff : (i + 1 = stages.length) ↔ (i = stages.length - 1) := by omega
      simp only [hiff]

theorem executePipelineChain_stage_variables_witness :
    createArgsOf (executePipelineChain demoEnv demoCtx demoRunAB demoUnit demoHistory
        demoApproved).2.trace
      = [("repoA", "development", []), ("repoB", "development", []),
         ("repoM", "development", [("DEPLOY_ENV", "QA")])] := by
  obtain ⟨calls, h1, _, h3, _⟩ := executePipelineChain_stage_variables demoEnv demoCtx
    demoRunAB demoUnit demoHistory demoApproved _
    [demoServiceA, demoServiceB, demoServiceM] (by rfl)
  rw [h1, h3 (by rfl)]
  rfl

/-! ## The poll loop, status by status -/

theorem pollInterval_toNat : pollInterval.toNat = 10000000000 := by decide

/-- The ceiling check of the poll loop `m` nanoseconds after the start. -/
theorem timeSub_gt_maxDuration (start m : Nat) :
    (timeSub (some (start + m)) (some start) > maxDuration) ↔ 1800000000000 < m := by
  have e : ((start + m : Nat) : Int) - (start : Int) = (m : Int) := by
    push_cast
    ring
  simp only [timeSub, maxDuration, second, maxInt64, minInt64, e, gt_iff_lt, lt_max_iff,
    lt_min_iff]
  constructor
  · rintro (h | ⟨_, h⟩)
    · exact absurd h (by decide)
    · have h2 : (30 * 60 * 1000000000 : Int) < (m : Int) := h
      omega
  · intro h
    right
    refine ⟨by decide, ?_⟩
    show (30 * 60 * 1000000000 : Int) < (m : Int)
    omega

theorem Ctx.doneBy_mono (ctx : Ctx) (t u : Nat) (h : t ≤ u) (hu : ctx.doneBy u = false) :
    ctx.doneBy t = false := by
  unfold Ctx.doneBy at hu ⊢
  cases hd : ctx.doneAt with
  | none => rfl
  | some d =>
    simp only [hd, decide_eq_false_iff_not, not_le] at hu ⊢
    omega

theorem pollWorld_facts (projectID : String) (pipelineID : Int) (w : World) :
    ∀ j, (pollWorld projectID pipelineID w j).clock = w.clock + j * 10000000000 ∧
      (pollWorld projectID pipelineID w j).ciCalls = w.ciCalls + j := by
  intro j
  induction j with
  | zero => exact ⟨by simp [pollWorld], by simp [pollWorld]⟩
  | succ j ih =>
    obtain ⟨h1, h2⟩ := ih
    simp only [pollWorld, pollTick, ciCall, emit, pollInterval_toNat, h1, h2]
    exact ⟨by ring, by ring⟩

/-- One turn of the poll loop, `j` turns after the start, the context not being done at the
tick and the fetch giving `status`: the loop goes on for a status that ends nothing, and
returns for the others. -/
theorem pollLoop_turn (env : Env) (ctx : Ctx) (projectID : String) (pipelineID : Int)
    (start j t : Nat) (w : World) (status : String)
    (hclock : w.clock = start + j * 10000000000) (hj : j < 180)
    (hctx : ctx.doneBy (w.clock + 10000000000) = false)
    (hget : env.getPipeline w.ciCalls projectID pipelineID = .ok status) :
    pollLoop env ctx projectID pipelineID start (t + 1) w
      = if status == "success" then (none, pollTick projectID pipelineID w)
        else if status == "failed" || status == "canceled" then
          (some (.pollFailed pipelineID status), pollTick projectID pipelineID w)
        else pollLoop env ctx projectID pipelineID start t (pollTick projectID pipelineID w) := by
  have hceil : ¬ (timeSub (some (w.clock + 10000000000)) (some start) > maxDuration) := by
    rw [hclock, Nat.add_assoc, timeSub_gt_maxDuration]
    omega
  rw [pollLoop]
  simp only [pollInterval_toNat, hctx, Bool.false_eq_true, if_false, hceil, hget, pollTick]

/-- The tick that comes 181 turns after the start is past the ceiling. -/
theorem pollLoop_ceiling (env : Env) (ctx : Ctx) (projectID : String) (pipelineID : Int)
    (start t : Nat) (w : World)
    (hclock : w.clock = start + 180 * 10000000000)
    (hctx : ctx.doneBy (w.clock + 10000000000) = false) :
    pollLoop env ctx projectID pipelineID start (t + 1) w
      = (some (.pollTimeout pipelineID), { w with clock := w.clock + 10000000000 }) := by
  have hceil : timeSub (some (w.clock + 10000000000)) (some start) > maxDuration := by
    rw [hclock, Nat.add_assoc, timeSub_gt_maxDuration]
    omega
  rw [pollLoop]
  simp only [pollInterval_toNat, hctx, Bool.false_eq_true, if_false, hceil, if_true]

/-- The poll loop through `j` fetches that all gave a status that ends nothing. -/
theorem pollLoop_through (env : Env) (ctx : Ctx) (projectID : String) (pipelineID : Int)
    (w : World) (obs : Nat → String)
    (hobs : ∀ k, env.getPipeline (w.ciCalls + k) projectID pipelineID = .ok (obs k))
    (hctx : ctx.doneBy (w.clock + 181 * 10000000000) = false) :
    ∀ (j t : Nat), j ≤ 180 → (∀ i, i < j → terminalStatus (obs i) = false) →
      pollLoop env ctx projectID pipelineID w.clock (j + t) w
        = pollLoop env ctx projectID pipelineID w.clock t (pollWorld projectID pipelineID w j) := by
  intro j
  induction j with
  | zero => intro t _ _; simp [pollWorld]
  | succ j ih =>
    intro t hj hnon
    have h1 := ih (t + 1) (by omega) (fun i hi => hnon i (by omega))
    obtain ⟨hc, hn⟩ := pollWorld_facts projectID pipelineID w j
    have hturn := pollLoop_turn env ctx projectID pipelineID w.clock j t
      (pollWorld projectID pipelineID w j) (obs j) hc (by omega)
      (Ctx.doneBy_mono ctx _ _ (by omega) hctx) (by rw [hn]; exact hobs j)
    have hnj := hnon j (by omega)
    simp only [terminalStatus, Bool.or_eq_false_iff] at hnj
    simp only [hnj.1.1, hnj.1.2, hnj.2, Bool.false_eq_true, if_false, Bool.or_false] at hturn
    rw [show j + 1 + t = j + (t + 1) by omega, h1, hturn]
    rfl

/-- Among the first 180 fetches either none gives a status that ends the poll, or there is a
first one that does. -/
theorem first_terminal (obs : Nat → String) :
    (∀ k, k < 180 → terminalStatus (obs k) = false) ∨
    ∃ k, k < 180 ∧ terminalStatus (obs k) = true ∧
      ∀ j, j < k → terminalStatus (obs j) = false := by
  by_cases h : ∃ k, k < 180 ∧ terminalStatus (obs k) = true
  · right
    classical
    refine ⟨Nat.find h, (Nat.find_spec h).1, (Nat.find_spec h).2, ?_⟩
    intro j hj
    have hmin := Nat.find_min h hj
    have hlt : j < 180 := lt_trans hj (Nat.find_spec h).1
    cases hT : terminalStatus (obs j) with
    | false => rfl
    | true => exact absurd ⟨hlt, hT⟩ hmin
  · left
    intro k hk
    cases hT : terminalStatus (obs k) with
    | false => rfl
    | true => exact absurd ⟨k, hk, hT⟩ h

/-- A poll whose fetch number `k` is the first to give success, failed or canceled returns
there: nil for success, the failure error for the two others. -/
theorem pollPipelineStatus_ends_at (env : Env) (ctx : Ctx) (projectID : String)
    (pipelineID : Int) (w : World) (obs : Nat → String)
    (hobs : ∀ k, env.getPipeline (w.ciCalls + k) projectID pipelineID = .ok (obs k))
    (hctx : ctx.doneBy (w.clock + 181 * 10000000000) = false)
    (k : Nat) (hk : k < 180) (hnon : ∀ j, j < k → terminalStatus (obs j) = false)
    (hT : terminalStatus (obs k) = true) :
    (pollPipelineStatus env ctx projectID pipelineID w).1
      = (if obs k = "success" then none else some (.pollFailed pipelineID (obs k))) ∧
    (pollPipelineStatus env ctx projectID pipelineID w).2.ciCalls = w.ciCalls + (k + 1) ∧
    (pollPipelineStatus env ctx projectID pipelineID w).2.clock
      = w.clock + (k + 1) * 10000000000 := by
  have hpre := pollLoop_through env ctx projectID pipelineID w obs hobs hctx k (180 - k + 1)
    (by omega) hnon
  rw [show k + (180 - k + 1) = 181 by omega] at hpre
  obtain ⟨hc, hn⟩ := pollWorld_facts projectID pipelineID w k
  obtain ⟨hc1, hn1⟩ := pollWorld_facts projectID pipelineID w (k + 1)
  have hturn := pollLoop_turn env ctx projectID pipelineID w.clock k (180 - k)
    (pollWorld projectID pipelineID w k) (obs k) hc hk
    (Ctx.doneBy_mono ctx _ _ (by omega) hctx) (by rw [hn]; exact hobs k)
  have hloop : pollLoop env ctx projectID pipelineID w.clock 181 w
      = (if obs k = "success" then none else some (.pollFailed pipelineID (obs k)),
         pollWorld projectID pipelineID w (k + 1)) := by
    rw [hpre, hturn]
    by_cases hs : obs k = "success"
    · simp [hs, pollWorld]
    · have hfc : (obs k == "failed" || obs k == "canceled") = true := by
        simp only [terminalStatus, Bool.or_eq_true, beq_iff_eq] at hT ⊢
        rcases hT with (h | h) | h
        · exact absurd h hs
        · exact Or.inl h
        · exact Or.inr h
      simp [hs, hfc, pollWorld]
  unfold pollPipelineStatus
  simp only [hloop, emit]
  exact ⟨trivial, hn1, hc1⟩

/-- A poll whose first 180 fetches all give a status that ends nothing returns the timeout
error at tick 181. -/
theorem pollPipelineStatus_times_out (env : Env) (ctx : Ctx) (projectID : String)
    (pipelineID : Int) (w : World) (obs : Nat → String)
    (hobs : ∀ k, env.getPipeline (w.ciCalls + k) projectID pipelineID = .ok (obs k))
    (hctx : ctx.doneBy (w.clock + 181 * 10000000000) = false)
    (hnon : ∀ k, k < 180 → terminalStatus (obs k) = false) :
    (pollPipelineStatus env ctx projectID pipelineID w).1 = some (.pollTimeout pipelineID) ∧
    (pollPipelineStatus env ctx projectID pipelineID w).2.ciCalls = w.ciCalls + 180 ∧
    (pollPipelineStatus env ctx projectID pipelineID w).2.clock
      = w.clock + 181 * 10000000000 := by
  have hpre := pollLoop_through env ctx projectID pipelineID w obs hobs hctx 180 1
    (by omega) hnon
  obtain ⟨hc, hn⟩ := pollWorld_facts projectID pipelineID w 180
  have hceil := pollLoop_ceiling env ctx projectID pipelineID w.clock 0
    (pollWorld projectID pipelineID w 180) hc
    (Ctx.doneBy_mono ctx _ _ (by omega) hctx)
  have hloop : pollLoop env ctx projectID pipelineID w.clock 181 w
      = (some (.pollTimeout pipelineID),
         { pollWorld projectID pipelineID w 180 with
           clock := (pollWorld projectID pipelineID w 180).clock + 10000000000 }) := by
    rw [show (181 : Nat) = 180 + 1 by rfl, hpre, hceil]
  unfold pollPipelineStatus
  simp only [hloop, emit]
  refine ⟨trivial, hn, ?_⟩
  omega

/-- C24: the poll loop with ticks ten seconds apart, every status fetch succeeding (fetch
number `k`, counted from 0 and made at tick `k + 1`, gives status `obs k`) and a context that
outlives the poll. The poll returns after at most 180 fetches. If the first fetch to give
success, failed or canceled is among the first 180, the poll returns at that fetch: nil for
success, the failure error with the status for failed and canceled. If none of the first 180
fetches gives one of the three, the poll returns the timeout error at tick 181, the first
later than 30 minutes after the start. So it returns nil exactly when the first of the three
statuses seen is success and is seen within 30 minutes. -/
theorem pollPipelineStatus_outcome (env : Env) (ctx : Ctx) (projectID : String)
    (pipelineID : Int) (w : World) (obs : Nat → String)
    (hobs : ∀ k, env.getPipeline (w.ciCalls + k) projectID pipelineID = .ok (obs k))
    (hctx : ctx.doneBy (w.clock + 181 * pollInterval.toNat) = false) :
    (pollPipelineStatus env ctx projectID pipelineID w).2.ciCalls ≤ w.ciCalls + 180 ∧
    (∀ k, k < 180 → (∀ j, j < k → terminalStatus (obs j) = false) → obs k = "success" →
      (pollPipelineStatus env ctx projectID pipelineID w).1 = none ∧
      (pollPipelineStatus env ctx projectID pipelineID w).2.ciCalls = w.ciCalls + (k + 1) ∧
      (pollPipelineStatus env ctx projectID pipelineID w).2.clock
        = w.clock + (k + 1) * pollInterval.toNat) ∧
    (∀ k, k < 180 → (∀ j, j < k → terminalStatus (obs j) = false) →
      obs k = "failed" ∨ obs k = "canceled" →
      (pollPipelineStatus env ctx projectID pipelineID w).1
        = some (.pollFailed pipelineID (obs k)) ∧
      (pollPipelineStatus env ctx projectID pipelineID w).2.ciCalls = w.ciCalls + (k + 1) ∧
      (pollPipelineStatus env ctx projectID pipelineID w).2.clock
        = w.clock + (k + 1) * pollInterval.toNat) ∧
    ((∀ k, k < 180 → terminalStatus (obs k) = false) →
      (pollPipelineStatus env ctx projectID pipelineID w).1
        = some (.pollTimeout pipelineID) ∧
      (pollPipelineStatus env ctx projectID pipelineID w).2.ciCalls = w.ciCalls + 180 ∧
      (pollPipelineStatus env ctx projectID pipelineID w).2.clock
        = w.clock + 181 * pollInterval.toNat) ∧
    ((pollPipelineStatus env ctx projectID pipelineID w).1 = none ↔
      ∃ k, k < 180 ∧ obs k = "success" ∧
        ∀ j, j < k → terminalStatus (obs j) = false) := by
  rw [pollInterval_toNat] at hctx ⊢
  have hend := pollPipelineStatus_ends_at env ctx projectID pipelineID w obs hobs hctx
  have hout := pollPipelineStatus_times_out env ctx projectID pipelineID w obs hobs hctx
  refine ⟨?_, ?_, ?_, hout, ?_⟩
  · rcases first_terminal obs with hnon | ⟨k, hk, hT, hnon⟩
    · rw [(hout hnon).2.1]
    · rw [(hend k hk hnon hT).2.1]
      omega
  · intro k hk hnon hs
    obtain ⟨h1, h2, h3⟩ := hend k hk hnon (by simp [terminalStatus, hs])
    exact ⟨by rw [h1]; simp [hs], h2, h3⟩
  · intro k hk hnon hs
    obtain ⟨h1, h2, h3⟩ := hend k hk hnon (by
      rcases hs with hs | hs <;> simp [terminalStatus, hs])
    refine ⟨?_, h2, h3⟩
    rw [h1]
    rcases hs with hs | hs <;> simp [hs]
  · constructor
    · intro hnil
      rcases first_terminal obs with hnon | ⟨k, hk, hT, hnon⟩
      · rw [(hout hnon).1] at hnil
        exact absurd hnil (by simp)
      · refine ⟨k, hk, ?_, hnon⟩
        by_contra hs
        rw [(hend k hk hnon hT).1] at hnil
        simp [hs] at hnil
    · rintro ⟨k, hk, hs, hnon⟩
      rw [(hend k hk hnon (by simp [terminalStatus, hs])).1]
      simp [hs]

theorem pollPipelineStatus_outcome_witness :
    (pollPipelineStatus (slowEnv 0 2 "success") {} "repoA" 100 demoWorld).1 = none ∧
    (pollPipelineStatus (slowEnv 0 2 "success") {} "repoA" 100 demoWorld).2.ciCalls
      = demoWorld.ciCalls + (2 + 1) ∧
    (pollPipelineStatus (slowEnv 0 2 "success") {} "repoA" 100 demoWorld).2.clock
      = demoWorld.clock + (2 + 1) * pollInterval.toNat :=
  (pollPipelineStatus_outcome (slowEnv 0 2 "success") {} "repoA" 100 demoWorld
    (fun k => if k < 2 then "running" else "success")
    (fun k => by
      show (if demoWorld.ciCalls + k < 0 + 2 then _ else _) = _
      have h0 : demoWorld.ciCalls = 0 := rfl
      rw [h0]
      by_cases hk : k < 2
      · simp [hk]
      · simp [hk])
    (by rfl)).2.1 2 (by decide)
    (fun j hj => by
      have hj2 : (j < 2) = True := eq_true hj
      simp only [hj2, if_true]
      rfl)
    (by rfl)

end Gitlab

namespace Monitor

/-! ## Claims on the statistics of `CheckEndpoint` -/

/-- The row the upsert leaves for its endpoint: a fresh row, or the stored one with its counters
moved. -/
theorem upsertStats_find (endpointID latency success failure : Int) (lastrun : Bool)
    (rows : List StatsRow) :
    (upsertStats endpointID latency success failure lastrun rows).find?
        (fun r => r.endpoint_id == endpointID)
      = some (match rows.find? (fun r => r.endpoint_id == endpointID) with
        | none =>
          { endpoint_id := endpointID, total_checks := 1, total_latency := latency,
            successful_checks := success, failure_count := failure, last_run := lastrun }
        | some r =>
          { r with total_checks := r.total_checks + 1,
                   total_latency := r.total_latency + latency,
                   successful_checks := r.successful_checks + success,
                   failure_count := if success == 1 then 0 else r.failure_count + 1,
                   last_run := lastrun }) := by
  unfold upsertStats
  induction rows with
  | nil => simp
  | cons a rows ih =>
    by_cases ha : (a.endpoint_id == endpointID) = true
    · simp only [List.any_cons, ha, Bool.true_or, if_true, List.map_cons, List.find?_cons]
    · simp only [Bool.not_eq_true] at ha
      simp only [List.any_cons, ha, Bool.false_or, List.find?_cons] at ih ⊢
      by_cases hany : (rows.any fun r => r.endpoint_id == endpointID) = true
      · simp only [hany, if_true] at ih ⊢
        simp only [List.map_cons, ha, Bool.false_eq_true, if_false, List.find?_cons]
        exact ih
      · simp only [hany, Bool.false_eq_true, if_false] at ih ⊢
        simp only [List.cons_append, List.find?_cons, ha]
        exact ih

/-- A check with no failing statement on a stored endpoint: it returns nil, logs the check
and upserts the statistics; the endpoints stay as they are. -/
theorem CheckEndpoint_of_noFault (env : Env) (endpointID : Int) (r : EndpointRow)
    (probe : Probe) (latency : Int) (w : World) (hdb : ∀ n, env.dbFault n = none)
    (hep : w.store.endpoints.find? (fun r => r.id == endpointID) = some r) :
    (CheckEndpoint env endpointID probe latency w).1 = .returned none ∧
    (CheckEndpoint env endpointID probe latency w).2.store.endpoints = w.store.endpoints ∧
    (CheckEndpoint env endpointID probe latency w).2.store.endpointStats
      = upsertStats endpointID latency
          (if recordedSuccess r.expected_status_code probe then 1 else 0)
          (if recordedSuccess r.expected_status_code probe then 0 else 1)
          (recordedSuccess r.expected_status_code probe) w.store.endpointStats := by
  simp [CheckEndpoint, GetEndpointExpectedCode, stmt, hdb, hep, recordedSuccess]

/-- The totals after a list of checks on an endpoint that has a statistics row. -/
theorem runChecks_totals (env : Env) (endpointID : Int) (r : EndpointRow)
    (hdb : ∀ n, env.dbFault n = none) :
    ∀ (checks : List (Probe × Int)) (w : World) (row0 : StatsRow),
      w.store.endpoints.find? (fun r => r.id == endpointID) = some r →
      statsOf w endpointID = some row0 →
      ∃ row, statsOf (runChecks env endpointID checks w) endpointID = some row ∧
        row.total_checks = row0.total_checks + checks.length ∧
        row.total_latency = row0.total_latency + (checks.map (fun c => c.2)).sum ∧
        row.successful_checks = row0.successful_checks +
          (checks.filter (fun c => recordedSuccess r.expected_status_code c.1)).length := by
  intro checks
  induction checks with
  | nil =>
    intro w row0 _ hrow
    exact ⟨row0, hrow, by simp, by simp, by simp⟩
  | cons c rest ih =>
    intro w row0 hep hrow
    obtain ⟨_, he, hs⟩ := CheckEndpoint_of_noFault env endpointID r c.1 c.2 w hdb hep
    have hrow1 := upsertStats_find endpointID c.2
      (if recordedSuccess r.expected_status_code c.1 then 1 else 0)
      (if recordedSuccess r.expected_status_code c.1 then 0 else 1)
      (recordedSuccess r.expected_status_code c.1) w.store.endpointStats
    rw [← hs] at hrow1
    unfold statsOf at hrow
    rw [hrow] at hrow1
    obtain ⟨row, h1, h2, h3, h4⟩ := ih (CheckEndpoint env endpointID c.1 c.2 w).2 _
      (by rw [he]; exact hep) hrow1
    refine ⟨row, h1, ?_, ?_, ?_⟩
    · rw [h2]
      simp only [List.length_cons]
      push_cast
      ring
    · rw [h3]
      simp only [List.map_cons, List.sum_cons]
      ring
    · rw [h4]
      by_cases hc : recordedSuccess r.expected_status_code c.1 = true
      · simp only [hc, if_true, List.filter_cons_of_pos, List.length_cons]
        push_cast
        ring
      · simp only [hc, Bool.false_eq_true, if_false, List.filter_cons_of_neg, add_zero,
          not_false_eq_true]

/-- C11: for a stored endpoint without statistics row and any list of checks (probe outcomes
with their latencies) made by `CheckEndpoint` with no failing statement: after N ≥ 1 checks the
statistics row has total_checks = N, successful_checks = the number of checks recorded as
successes, total_checks - successful_checks = the number of the others, and total_latency =
the sum of the latencies; after no check there is still no row. -/
theorem CheckEndpoint_stats_totals (env : Env) (endpointID : Int) (r : EndpointRow)
    (checks : List (Probe × Int)) (w : World)
    (hdb : ∀ n, env.dbFault n = none)
    (hep : w.store.endpoints.find? (fun r => r.id == endpointID) = some r)
    (hnone : statsOf w endpointID = none) :
    (checks = [] → statsOf (runChecks env endpointID checks w) endpointID = none) ∧
    (checks ≠ [] →
      ∃ row, statsOf (runChecks env endpointID checks w) endpointID = some row ∧
        row.total_checks = checks.length ∧
        row.successful_checks
          = (checks.filter (fun c => recordedSuccess r.expected_status_code c.1)).length ∧
        row.total_checks - row.successful_checks
          = (checks.filter (fun c => !recordedSuccess r.expected_status_code c.1)).length ∧
        row.total_latency = (checks.map (fun c => c.2)).sum) := by
  constructor
  · intro h
    subst h
    exact hnone
  · intro hne
    cases checks with
    | nil => exact absurd rfl hne
    | cons c rest =>
      obtain ⟨_, he, hs⟩ := CheckEndpoint_of_noFault env endpointID r c.1 c.2 w hdb hep
      have hrow1 := upsertStats_find endpointID c.2
        (if recordedSuccess r.expected_status_code c.1 then 1 else 0)
        (if recordedSuccess r.expected_status_code c.1 then 0 else 1)
        (recordedSuccess r.expected_status_code c.1) w.store.endpointStats
      rw [← hs] at hrow1
      unfold statsOf at hnone
      rw [hnone] at hrow1
      obtain ⟨row, h1, h2, h3, h4⟩ := runChecks_totals env endpointID r hdb rest
        (CheckEndpoint env endpointID c.1 c.2 w).2 _ (by rw [he]; exact hep) hrow1
      have hsplit : ((c :: rest).filter
            (fun c => recordedSuccess r.expected_status_code c.1)).length
          + ((c :: rest).filter (fun c => !recordedSuccess r.expected_status_code c.1)).length
          = (c :: rest).length := by
        have := @List.length_eq_length_filter_add _ (c :: rest)
          (fun c : Probe × Int => recordedSuccess r.expected_status_code c.1)
        simp only at this
        omega
      have hsucc : row.successful_checks = (((c :: rest).filter
          (fun c => recordedSuccess r.expected_status_code c.1)).length : Int) := by
        rw [h4]
        by_cases hc : recordedSuccess r.expected_status_code c.1 = true
        · simp only [hc, if_true, List.filter_cons_of_pos, List.length_cons]
          push_cast
          ring
        · simp only [hc, Bool.false_eq_true, if_false, List.filter_cons_of_neg, zero_add,
            not_false_eq_true]
      have htot : row.total_checks = ((c :: rest).length : Int) := by
        rw [h2]
        simp only [List.length_cons]
        push_cast
        ring
      refine ⟨row, h1, htot, hsucc, ?_, ?_⟩
      · rw [htot, hsucc]
        omega
      · rw [h3]
        simp only [List.map_cons, List.sum_cons]

theorem CheckEndpoint_stats_totals_witness :
    (∀ n, demoEnv.dbFault n = none) ∧
    demoWorld.store.endpoints.find? (fun r => r.id == 1) = some
      { id := 1, service_name := "orders", url := "http://orders", server_name := "srv",
        api_method := "GET", expected_status_code := 200 } ∧
    statsOf demoWorld 1 = none ∧
    ∃ row, statsOf (runChecks demoEnv 1 demoChecks demoWorld) 1 = some row ∧
      row.total_checks = 3 ∧ row.successful_checks = 1 ∧
      row.total_checks - row.successful_checks = 2 ∧ row.total_latency = 47 :=
  ⟨fun _ => rfl, by rfl, by rfl,
   (CheckEndpoint_stats_totals demoEnv 1
      { id := 1, service_name := "orders", url := "http://orders", server_name := "srv",
        api_method := "GET", expected_status_code := 200 }
      demoChecks demoWorld (fun _ => rfl) (by rfl) (by rfl)).2 (by decide)⟩

/-- C12: for a stored endpoint with a statistics row and two lists of checks that are
permutations of each other, made by `CheckEndpoint` with no failing statement: either order
raises total_checks by exactly the number K of checks, and both orders end with the same
total_latency and the same successful_checks. -/
theorem CheckEndpoint_stats_permutation (env : Env) (endpointID : Int) (r : EndpointRow)
    (row0 : StatsRow) (checks1 checks2 : List (Probe × Int)) (w : World)
    (hdb : ∀ n, env.dbFault n = none)
    (hep : w.store.endpoints.find? (fun r => r.id == endpointID) = some r)
    (hrow : statsOf w endpointID = some row0)
    (hperm : checks1.Perm checks2) :
    ∃ row1 row2,
      statsOf (runChecks env endpointID checks1 w) endpointID = some row1 ∧
      statsOf (runChecks env endpointID checks2 w) endpointID = some row2 ∧
      row1.total_checks = row0.total_checks + checks1.length ∧
      row2.total_checks = row0.total_checks + checks1.length ∧
      row1.total_latency = row2.total_latency ∧
      row1.successful_checks = row2.successful_checks := by
  obtain ⟨row1, a1, a2, a3, a4⟩ := runChecks_totals env endpointID r hdb checks1 w row0 hep hrow
  obtain ⟨row2, b1, b2, b3, b4⟩ := runChecks_totals env endpointID r hdb checks2 w row0 hep hrow
  refine ⟨row1, row2, a1, b1, a2, ?_, ?_, ?_⟩
  · rw [b2, hperm.length_eq]
  · rw [a3, b3, (hperm.map _).sum_eq]
  · rw [a4, b4, (hperm.filter _).length_eq]

theorem CheckEndpoint_stats_permutation_witness :
    (∀ n, demoEnv.dbFault n = none) ∧
    statsOf (runChecks demoEnv 1 demoChecks demoWorld) 1
      = some { endpoint_id := 1, total_checks := 3, total_latency := 47, successful_checks := 1,
               failure_count := 2, last_run := false } ∧
    demoChecks.Perm demoChecks.reverse ∧
    ∃ row1 row2,
      statsOf (runChecks demoEnv 1 demoChecks (runChecks demoEnv 1 demoChecks demoWorld)) 1
        = some row1 ∧
      statsOf (runChecks demoEnv 1 demoChecks.reverse
        (runChecks demoEnv 1 demoChecks demoWorld)) 1 = some row2 ∧
      row1.total_checks = 3 + 3 ∧ row2.total_checks = 3 + 3 ∧
      row1.total_latency = row2.total_latency ∧
      row1.successful_checks = row2.successful_checks :=
  ⟨fun _ => rfl, by rfl, (List.reverse_perm _).symm,
   CheckEndpoint_stats_permutation demoEnv 1 _ _ demoChecks demoChecks.reverse
     (runChecks demoEnv 1 demoChecks demoWorld) (fun _ => rfl) (by rfl) (by rfl)
     (List.reverse_perm _).symm⟩

/-! ## The classification of a probe -/

/-- With no failing statement on a stored endpoint, the check is recorded as a success exactly
when the status code `CheckEndpoint` holds (0 after a transport error) equals the expected
code. -/
theorem CheckEndpoint_records (env : Env) (endpointID : Int) (r : EndpointRow) (probe : Probe)
    (latency : Int) (w : World) (hdb : ∀ n, env.dbFault n = none)
    (hep : w.store.endpoints.find? (fun r => r.id == endpointID) = some r)
    (hnone : statsOf w endpointID = none) :
    statsOf (CheckEndpoint env endpointID probe latency w).2 endpointID
      = some { endpoint_id := endpointID, total_checks := 1, total_latency := latency,
               successful_checks := if probe.statusCode == r.expected_status_code then 1 else 0,
               failure_count := if probe.statusCode == r.expected_status_code then 0 else 1,
               last_run := probe.statusCode == r.expected_status_code } := by
  obtain ⟨_, _, hs⟩ := CheckEndpoint_of_noFault env endpointID r probe latency w hdb hep
  have h := upsertStats_find endpointID latency
    (if recordedSuccess r.expected_status_code probe then 1 else 0)
    (if recordedSuccess r.expected_status_code probe then 0 else 1)
    (recordedSuccess r.expected_status_code probe) w.store.endpointStats
  rw [← hs] at h
  unfold statsOf at hnone ⊢
  rw [hnone] at h
  rw [h]
  rfl

/-- C15, the code at an endpoint whose expected code is 0 (a registration that gave none):
a probe that ended in a transport error is logged with its error text and status code 0, and
recorded as a success. -/
theorem CheckEndpoint_transport_error_recorded_as_success :
    (CheckEndpoint demoEnv 2 (.transportError "connection refused") 7 demoWorld).1
      = .returned none ∧
    (CheckEndpoint demoEnv 2 (.transportError "connection refused") 7 demoWorld).2.store.checks
      = [{ endpoint_id := 2, status_code := 0, latency_ms := 7,
           error := "connection refused" }] ∧
    statsOf (CheckEndpoint demoEnv 2 (.transportError "connection refused") 7 demoWorld).2 2
      = some { endpoint_id := 2, total_checks := 1, total_latency := 7, successful_checks := 1,
               failure_count := 0, last_run := true } :=
  ⟨by rfl, by rfl, by rfl⟩

/-! ## Claims on the endpoint set -/

/-- C13, the code at a manifest with the entries `http://a//` and `http://a/` (same method,
server name and expected code 200) and an empty store. The first load stores `http://a/` and
skips the second entry, which matches it. The second load reads the stored endpoint without
its expected code, so the second entry matches nothing and is inserted as `http://a`: the
second load adds a row, and the two stored rows have the same normalised URL, method, server
name and expected code. -/
theorem LoadAndSyncEndpoints_second_load_inserts :
    (LoadAndSyncEndpoints demoEnv "endpoints.json" {}).1.2 = none ∧
    demoLoaded.store.endpoints.map (fun r => r.url) = ["http://a/"] ∧
    (LoadAndSyncEndpoints demoEnv "endpoints.json" demoLoaded).1.2 = none ∧
    (LoadAndSyncEndpoints demoEnv "endpoints.json" demoLoaded).2.store.endpoints.map
      (fun r => (normalizeURL demoEnv r.url, r.api_method, r.server_name,
        r.expected_status_code))
      = [("http://a", "GET", "srv", 200), ("http://a", "GET", "srv", 200)] ∧
    (LoadAndSyncEndpoints demoEnv "endpoints.json" demoLoaded).2.store.endpoints.map
      (fun r => r.url) = ["http://a/", "http://a"] ∧
    (GetAllEndpoints demoEnv demoLoaded).1
      = .ok [{ ID := 1, ServiceName := "billing", URL := "http://a/", ServerName := "srv",
               APIMethod := "GET", ExpectedCode := 0 }] :=
  ⟨by rfl, by decide, by rfl, by decide, by decide, by rfl⟩

/-- C14, counterexample: no stored endpoint has the normalised URL, method, server name and
expected code of the registration (its method is new), yet `CreateEndpoint` rejects it,
because endpoint `1` has its normalised URL. -/
theorem CreateEndpoint_rejects_other_method :
    demoWorld.store.endpoints.any (fun r =>
      normalizeURL demoEnv r.url == normalizeURL demoEnv demoRegistration.URL &&
      r.api_method == demoRegistration.APIMethod &&
      r.server_name == demoRegistration.ServerName &&
      r.expected_status_code == demoRegistration.ExpectedCode) = false ∧
    (CreateEndpoint demoEnv demoRegistration demoWorld).1
      = .error (.alreadyExists "http://orders" 1) ∧
    (CreateEndpoint demoEnv demoRegistration demoWorld).2.store = demoWorld.store :=
  ⟨by decide, by rfl, by rfl⟩

/-- C14, amended: with no failing statement, `CreateEndpoint` rejects a registration exactly
when a stored endpoint has the registration's normalised URL, whatever the method, server name
and expected code, and then changes no row; otherwise it stores one new endpoint row, with the
normalised URL and the registration's service name, server name, method and expected code, and
returns it. -/
theorem CreateEndpoint_identity_is_url (env : Env) (ep : Endpoint) (w : World)
    (hdb : ∀ n, env.dbFault n = none) :
    ((∃ r ∈ w.store.endpoints, r.url = normalizeURL env ep.URL) →
      (∃ id, (CreateEndpoint env ep w).1 = .error (.alreadyExists (normalizeURL env ep.URL) id)) ∧
      (CreateEndpoint env ep w).2.store = w.store) ∧
    ((∀ r ∈ w.store.endpoints, r.url ≠ normalizeURL env ep.URL) →
      (CreateEndpoint env ep w).1
        = .ok { ID := w.nextEndpointID, ServiceName := ep.ServiceName,
                URL := normalizeURL env ep.URL, ServerName := ep.ServerName,
                APIMethod := ep.APIMethod, ExpectedCode := ep.ExpectedCode } ∧
      (CreateEndpoint env ep w).2.store.endpoints = w.store.endpoints ++
        [{ id := w.nextEndpointID, service_name := ep.ServiceName,
           url := normalizeURL env ep.URL, server_name := ep.ServerName,
           api_method := ep.APIMethod, expected_status_code := ep.ExpectedCode }]) := by
  constructor
  · rintro ⟨r, hr, hurl⟩
    have hsome : (w.store.endpoints.find? (fun r => r.url == normalizeURL env ep.URL)).isSome
        = true := by
      rw [List.find?_isSome]
      exact ⟨r, hr, by simp [hurl]⟩
    obtain ⟨x, hx⟩ := Option.isSome_iff_exists.mp hsome
    simp only [CreateEndpoint, stmt, hdb, hx]
    exact ⟨⟨x.id, rfl⟩, trivial⟩
  · intro hall
    have hnone : w.store.endpoints.find? (fun r => r.url == normalizeURL env ep.URL) = none := by
      rw [List.find?_eq_none]
      intro x hx
      simpa using hall x hx
    cases hh : hasInfo { ep with URL := normalizeURL env ep.URL } <;>
      simp [CreateEndpoint, createEndpointTx, stmt, hdb, hnone, hh]

theorem CreateEndpoint_identity_is_url_witness :
    (∀ n, demoEnv.dbFault n = none) ∧
    (∀ r ∈ demoWorld.store.endpoints, r.url ≠ normalizeURL demoEnv demoRegistrationNew.URL) ∧
    (CreateEndpoint demoEnv demoRegistrationNew demoWorld).1
      = .ok { ID := 3, ServiceName := "search", URL := "https://search", ServerName := "srv",
              APIMethod := "GET", ExpectedCode := 200 } :=
  ⟨fun _ => rfl, by decide,
   ((CreateEndpoint_identity_is_url demoEnv demoRegistrationNew demoWorld (fun _ => rfl)).2
      (by decide)).1⟩

/-! ## Claims on the scheduler control surface -/

theorem insertEndpoint_schedulers (env : Env) (jep : Endpoint) (w : World) :
    (insertEndpoint env jep w).2.schedulers = w.schedulers ∧
    (insertEndpoint env jep w).2.launched = w.launched := by
  unfold insertEndpoint stmt
  cases env.dbFault w.dbCalls with
  | some e => exact ⟨rfl, rfl⟩
  | none =>
    simp only
    split <;> exact ⟨rfl, rfl⟩

theorem mergeEndpoints_schedulers (env : Env) :
    ∀ (entries dbEndpoints : List Endpoint) (w : World),
      (mergeEndpoints env entries dbEndpoints w).2.schedulers = w.schedulers ∧
      (mergeEndpoints env entries dbEndpoints w).2.launched = w.launched := by
  intro entries
  induction entries with
  | nil => intro _ _; exact ⟨rfl, rfl⟩
  | cons jep rest ih =>
    intro dbEndpoints w
    rw [mergeEndpoints]
    simp only
    split
    · exact ih _ _
    · have hi := insertEndpoint_schedulers env { jep with URL := normalizeURL env jep.URL } w
      split
      · rename_i w1 heq
        rw [heq] at hi
        obtain ⟨h1, h2⟩ := ih dbEndpoints w1
        exact ⟨h1.trans hi.1, h2.trans hi.2⟩
      · rename_i newID w1 heq
        rw [heq] at hi
        obtain ⟨h1, h2⟩ := ih
          (dbEndpoints ++ [{ { jep with URL := normalizeURL env jep.URL } with ID := newID }]) w1
        exact ⟨h1.trans hi.1, h2.trans hi.2⟩

theorem LoadAndSyncEndpoints_schedulers (env : Env) (path : String) (w : World) :
    (LoadAndSyncEndpoints env path w).2.schedulers = w.schedulers ∧
    (LoadAndSyncEndpoints env path w).2.launched = w.launched := by
  unfold LoadAndSyncEndpoints GetAllEndpoints stmt
  cases env.dbFault w.dbCalls with
  | some e => exact ⟨rfl, rfl⟩
  | none =>
    simp only
    split
    · exact ⟨rfl, rfl⟩
    · exact ⟨rfl, rfl⟩
    · exact mergeEndpoints_schedulers env _ _ _

/-- What `StartScheduler` does to the scheduler goroutines: a start that succeeds launches one,
numbered `w.launched`; any other start launches none. -/
theorem StartScheduler_schedulers (env : Env) (w : World) :
    (∃ w1, StartScheduler env w
        = (.started { cancel := some w.launched }, w1) ∧
      w1.schedulers = w.schedulers ++ [w.launched]) ∨
    ((∀ sch, (StartScheduler env w).1 ≠ .started sch) ∧
      (StartScheduler env w).2.schedulers = w.schedulers) := by
  unfold StartScheduler
  cases env.atoi env.checkTimer with
  | none => exact Or.inr ⟨fun _ h => by simp at h, rfl⟩
  | some timer =>
    simp only
    have hl := LoadAndSyncEndpoints_schedulers env "endpoints.json" w
    generalize LoadAndSyncEndpoints env "endpoints.json" w = r at hl
    obtain ⟨⟨eps, err⟩, w1⟩ := r
    simp only at hl
    cases err with
    | some e => exact Or.inr ⟨fun _ h => by simp at h, hl.1⟩
    | none =>
      simp only
      split
      · exact Or.inr ⟨fun _ h => by simp at h, hl.1⟩
      · exact Or.inl ⟨_, by rw [hl.2], by simp [hl.1]⟩

/-! ## The URL normaliser -/

/-- C29, the code on two inputs. `http://a//` loses one of its two slashes, so the result
ends in `/`, and normalising the result gives another string. ` HTTP://A /` is trimmed before
its slash is stripped, so the result ends in a blank, and normalising the result gives another
string. -/
theorem normalizeURL_result_not_normal :
    normalizeURL demoEnv "http://a//" = "http://a/" ∧
    normalizeURL demoEnv (normalizeURL demoEnv "http://a//") = "http://a" ∧
    normalizeURL demoEnv " HTTP://A /" = "http://a " ∧
    normalizeURL demoEnv (normalizeURL demoEnv " HTTP://A /") = "http://a" :=
  ⟨by decide, by decide, by decide, by decide⟩

/-! ## The failure streak -/

theorem runChecks_append (env : Env) (endpointID : Int) :
    ∀ (a b : List (Probe × Int)) (w : World),
      runChecks env endpointID (a ++ b) w
        = runChecks env endpointID b (runChecks env endpointID a w) := by
  intro a
  induction a with
  | nil => intro b w; rfl
  | cons c rest ih => intro b w; exact ih b _

theorem runChecks_endpoints (env : Env) (endpointID : Int) (r : EndpointRow)
    (hdb : ∀ n, env.dbFault n = none) :
    ∀ (checks : List (Probe × Int)) (w : World),
      w.store.endpoints.find? (fun r => r.id == endpointID) = some r →
      (runChecks env endpointID checks w).store.endpoints.find? (fun r => r.id == endpointID)
        = some r := by
  intro checks
  induction checks with
  | nil => intro w h; exact h
  | cons c rest ih =>
    intro w h
    obtain ⟨_, he, _⟩ := CheckEndpoint_of_noFault env endpointID r c.1 c.2 w hdb h
    exact ih _ (by rw [he]; exact h)

/-- The streak and the last outcome after a list of checks on an endpoint that has a
statistics row: each check resets the streak to 0 when it is a success and adds 1 to it
otherwise, and leaves its own outcome in `last_run`. -/
theorem runChecks_streak (env : Env) (endpointID : Int) (r : EndpointRow)
    (hdb : ∀ n, env.dbFault n = none) :
    ∀ (checks : List (Probe × Int)) (w : World) (row0 : StatsRow),
      w.store.endpoints.find? (fun r => r.id == endpointID) = some r →
      statsOf w endpointID = some row0 →
      ∃ row, statsOf (runChecks env endpointID checks w) endpointID = some row ∧
        row.failure_count = checks.foldl (fun acc c =>
          if recordedSuccess r.expected_status_code c.1 then 0 else acc + 1)
          row0.failure_count ∧
        row.last_run = checks.foldl (fun _ c => recordedSuccess r.expected_status_code c.1)
          row0.last_run := by
  intro checks
  induction checks with
  | nil =>
    intro w row0 _ hrow
    exact ⟨row0, hrow, rfl, rfl⟩
  | cons c rest ih =>
    intro w row0 hep hrow
    obtain ⟨_, he, hs⟩ := CheckEndpoint_of_noFault env endpointID r c.1 c.2 w hdb hep
    have hrow1 := upsertStats_find endpointID c.2
      (if recordedSuccess r.expected_status_code c.1 then 1 else 0)
      (if recordedSuccess r.expected_status_code c.1 then 0 else 1)
      (recordedSuccess r.expected_status_code c.1) w.store.endpointStats
    rw [← hs] at hrow1
    unfold statsOf at hrow
    rw [hrow] at hrow1
    obtain ⟨row, h1, h2, h3⟩ := ih (CheckEndpoint env endpointID c.1 c.2 w).2 _
      (by rw [he]; exact hep) hrow1
    refine ⟨row, h1, ?_, ?_⟩
    · rw [h2]
      simp only [List.foldl_cons]
      cases recordedSuccess r.expected_status_code c.1 <;> rfl
    · rw [h3]
      rfl

/-- The streak counted check by check from 0 is the number of failures at the end of the
list. -/
theorem streak_eq_trailing_failures {α : Type} (succeeded : α → Bool) (l : List α) :
    l.foldl (fun (acc : Int) c => if succeeded c then 0 else acc + 1) 0
      = ((l.reverse.takeWhile (fun c => !succeeded c)).length : Int) := by
  induction l using List.reverseRecOn with
  | nil => rfl
  | append_singleton l a ih =>
    rw [List.foldl_append, List.reverse_append]
    simp only [List.foldl_cons, List.foldl_nil, List.reverse_cons, List.reverse_nil,
      List.nil_append, List.singleton_append, List.takeWhile_cons]
    cases ha : succeeded a
    · simp only [Bool.false_eq_true, if_false, Bool.not_false, if_true, List.length_cons, ih]
      push_cast
      ring
    · simp

theorem last_outcome_eq_getLast {α : Type} (succeeded : α → Bool) (l : List α) (b : Bool) :
    l.foldl (fun _ c => succeeded c) b = (l.getLast?.map succeeded).getD b := by
  induction l using List.reverseRecOn with
  | nil => rfl
  | append_singleton l a ih => simp [List.foldl_append]

/-- C25: for a stored endpoint without statistics row and a non-empty list of checks made by
`CheckEndpoint` with no failing statement, failure_count is the number of checks recorded as
failures at the end of the list (0 when the last check was a success), and last_run tells
whether the last check was a success; one more check leaves failure_count 0 when it is a
success and one higher when it is not, and its own outcome in last_run. -/
theorem CheckEndpoint_failure_streak (env : Env) (endpointID : Int) (r : EndpointRow)
    (checks : List (Probe × Int)) (w : World)
    (hdb : ∀ n, env.dbFault n = none)
    (hep : w.store.endpoints.find? (fun r => r.id == endpointID) = some r)
    (hnone : statsOf w endpointID = none)
    (hne : checks ≠ []) :
    ∃ row, statsOf (runChecks env endpointID checks w) endpointID = some row ∧
      row.failure_count = ((checks.reverse.takeWhile
        (fun c => !recordedSuccess r.expected_status_code c.1)).length : Int) ∧
      checks.getLast?.map (fun c => recordedSuccess r.expected_status_code c.1)
        = some row.last_run ∧
      ∀ c : Probe × Int,
        ∃ row1, statsOf (runChecks env endpointID (checks ++ [c]) w) endpointID = some row1 ∧
          row1.failure_count
            = (if recordedSuccess r.expected_status_code c.1 then 0
               else row.failure_count + 1) ∧
          row1.last_run = recordedSuccess r.expected_status_code c.1 := by
  cases checks with
  | nil => exact absurd rfl hne
  | cons c rest =>
    obtain ⟨_, he, hs⟩ := CheckEndpoint_of_noFault env endpointID r c.1 c.2 w hdb hep
    have hrow1 := upsertStats_find endpointID c.2
      (if recordedSuccess r.expected_status_code c.1 then 1 else 0)
      (if recordedSuccess r.expected_status_code c.1 then 0 else 1)
      (recordedSuccess r.expected_status_code c.1) w.store.endpointStats
    rw [← hs] at hrow1
    unfold statsOf at hnone
    rw [hnone] at hrow1
    obtain ⟨row, h1, h2, h3⟩ := runChecks_streak env endpointID r hdb rest
      (CheckEndpoint env endpointID c.1 c.2 w).2 _ (by rw [he]; exact hep) hrow1
    have hfc : row.failure_count = (c :: rest).foldl (fun (acc : Int) c =>
        if recordedSuccess r.expected_status_code c.1 then 0 else acc + 1) 0 := by
      rw [h2]
      simp only [List.foldl_cons]
      cases recordedSuccess r.expected_status_code c.1 <;> rfl
    have hlr : row.last_run = (c :: rest).foldl
        (fun _ c => recordedSuccess r.expected_status_code c.1) false := by
      rw [h3]
      rfl
    refine ⟨row, h1, ?_, ?_, ?_⟩
    · rw [hfc]
      exact streak_eq_trailing_failures
        (fun c : Probe × Int => recordedSuccess r.expected_status_code c.1) (c :: rest)
    · rw [hlr, last_outcome_eq_getLast
        (fun c : Probe × Int => recordedSuccess r.expected_status_code c.1) (c :: rest) false]
      cases hl : (c :: rest).getLast? with
      | none => simp at hl
      | some x => rfl
    · intro c1
      have hep1 := runChecks_endpoints env endpointID r hdb (c :: rest) w hep
      obtain ⟨row1, g1, g2, g3⟩ := runChecks_streak env endpointID r hdb [c1]
        (runChecks env endpointID (c :: rest) w) row hep1 h1
      refine ⟨row1, ?_, g2, g3⟩
      rw [runChecks_append]
      exact g1

theorem CheckEndpoint_failure_streak_witness :
    ∃ row, statsOf (runChecks demoEnv 1 demoChecks demoWorld) 1 = some row ∧
      row.failure_count = 2 ∧ row.last_run = false := by
  obtain ⟨row, h1, h2, h3, _⟩ := CheckEndpoint_failure_streak demoEnv 1
    { id := 1, service_name := "orders", url := "http://orders", server_name := "srv",
      api_method := "GET", expected_status_code := 200 }
    demoChecks demoWorld (fun _ => rfl) (by rfl) (by rfl) (by decide)
  refine ⟨row, h1, ?_, ?_⟩
  · rw [h2]
    decide
  · have h4 : some row.last_run = some false := by
      rw [← h3]
      rfl
    exact Option.some.inj h4

end Monitor

namespace Handlers

open Monitor

/-- Every request keeps the scheduler goroutines alive equal to those the handler state holds
on to. -/
theorem serve_live (env : Env) (r : Request) (a : API) (w : World)
    (h : w.schedulers = a.live) :
    (serve env r a w).2.2.schedulers = (serve env r a w).2.1.live := by
  cases r with
  | start =>
    simp only [serve, StartEndPointChecks]
    split
    · exact h
    · rename_i hnone
      have ha : a.scheduler = none := by simpa using hnone
      have hl : a.live = [] := by simp [API.live, ha]
      rcases StartScheduler_schedulers env w with ⟨w1, hs, hw⟩ | ⟨hno, hw⟩
      · rw [hs]
        simp [API.live, hw, h, hl, ha]
      · generalize StartScheduler env w = res at hno hw
        obtain ⟨res1, w1⟩ := res
        cases res1 with
        | failed e => simpa [h] using hw
        | panicked m => simpa [h] using hw
        | started sch => exact absurd rfl (hno sch)
  | stop =>
    simp only [serve, StopEndPointChecks]
    cases ha : a.scheduler with
    | none => simpa using h
    | some sch =>
      simp only [API.live, ha] at h
      cases hc : sch.cancel with
      | none => simp [API.live, Scheduler.Stop, hc, h]
      | some g => simp [API.live, Scheduler.Stop, hc, h]

theorem live_length (a : API) : a.live.length ≤ 1 := by
  unfold API.live
  cases a.scheduler with
  | none => simp
  | some sch => cases hc : sch.cancel <;> simp [hc]

theorem serveAll_live (env : Env) :
    ∀ (reqs : List Request) (s : API × World), s.2.schedulers = s.1.live →
      (serveAll env reqs s).2.schedulers = (serveAll env reqs s).1.live := by
  intro reqs
  induction reqs with
  | nil => intro s h; exact h
  | cons r rest ih =>
    intro s h
    exact ih _ (serve_live env r s.1 s.2 h)

/-- C16: the scheduler control surface. After any sequence of start and stop requests, served
from a state in which the goroutines alive are those the handler holds on to (at first: none),
the scheduler goroutines alive are exactly the one the handler holds, so at most one. A start
while a scheduler is held is answered 409 and changes nothing. A start while none is held
either succeeds (200, one goroutine launched and held) or fails (no 200, state still Stopped,
no goroutine alive). A stop while one is held is answered 200, ends its goroutine and leaves
the state Stopped, after which a start is not answered 409. A stop while none is held is
answered 409 and changes nothing. -/
theorem scheduler_control_surface (env : Env) :
    (∀ (reqs : List Request) (a : API) (w : World), w.schedulers = a.live →
      (serveAll env reqs (a, w)).2.schedulers = (serveAll env reqs (a, w)).1.live ∧
      (serveAll env reqs (a, w)).2.schedulers.length ≤ 1) ∧
    (∀ (a : API) (w : World), a.scheduler.isSome = true →
      StartEndPointChecks env a w = (.json 409 "Endpoints check already running", a, w)) ∧
    (∀ (a : API) (w : World), a.scheduler = none → w.schedulers = [] →
      ((StartEndPointChecks env a w).1 = .json 200 "Endpoints check started successfully" ∧
        (StartEndPointChecks env a w).2.1.scheduler = some { cancel := some w.launched } ∧
        (StartEndPointChecks env a w).2.2.schedulers = [w.launched]) ∨
      ((∀ m, (StartEndPointChecks env a w).1 ≠ .json 200 m) ∧
        (StartEndPointChecks env a w).2.1.scheduler = none ∧
        (StartEndPointChecks env a w).2.2.schedulers = [])) ∧
    (∀ (a : API) (w : World), a.scheduler.isSome = true → w.schedulers = a.live →
      (StopEndPointChecks a w).1 = .json 200 "Endpoints stopped successfully" ∧
      (StopEndPointChecks a w).2.1.scheduler = none ∧
      (StopEndPointChecks a w).2.2.schedulers = [] ∧
      (StartEndPointChecks env (StopEndPointChecks a w).2.1 (StopEndPointChecks a w).2.2).1
        ≠ .json 409 "Endpoints check already running") ∧
    (∀ (a : API) (w : World), a.scheduler = none →
      StopEndPointChecks a w = (.json 409 "No endpoints check running", a, w)) := by
  refine ⟨?_, ?_, ?_, ?_, ?_⟩
  · intro reqs a w h
    have := serveAll_live env reqs (a, w) h
    exact ⟨this, by rw [this]; exact live_length _⟩
  · intro a w h
    simp [StartEndPointChecks, h]
  · intro a w ha hw
    simp only [StartEndPointChecks, ha, Option.isSome_none, Bool.false_eq_true, if_false]
    rcases StartScheduler_schedulers env w with ⟨w1, hs, hw1⟩ | ⟨hno, hw1⟩
    · left
      rw [hs]
      exact ⟨rfl, rfl, by simp [hw1, hw]⟩
    · right
      generalize StartScheduler env w = res at hno hw1
      obtain ⟨res1, w1⟩ := res
      cases res1 with
      | failed e => exact ⟨fun m h => by simp at h, ha, by simpa [hw] using hw1⟩
      | panicked m => exact ⟨fun m h => by simp at h, ha, by simpa [hw] using hw1⟩
      | started sch => exact absurd rfl (hno sch)
  · intro a w ha hw
    obtain ⟨sch, hsch⟩ := Option.isSome_iff_exists.mp ha
    have hstop : StopEndPointChecks a w
        = (.json 200 "Endpoints stopped successfully", { a with scheduler := none },
           sch.Stop w) := by
      simp [StopEndPointChecks, hsch]
    have hlive := serve_live env .stop a w hw
    simp only [serve] at hlive
    rw [hstop] at hlive ⊢
    refine ⟨rfl, rfl, by simpa [API.live] using hlive, ?_⟩
    simp only [StartEndPointChecks, Option.isSome_none, Bool.false_eq_true, if_false]
    generalize StartScheduler env (sch.Stop w) = res
    obtain ⟨res1, w1⟩ := res
    cases res1 <;> simp
  · intro a w ha
    simp [StopEndPointChecks, ha]

theorem scheduler_control_surface_witness :
    Monitor.demoWorld.schedulers = API.live {} ∧
    (serveAll Monitor.demoEnv [.start, .start, .stop, .stop, .start]
      ({}, Monitor.demoWorld)).2.schedulers.length ≤ 1 ∧
    (StartEndPointChecks Monitor.demoEnv {} Monitor.demoWorld).1
      = .json 200 "Endpoints check started successfully" ∧
    StopEndPointChecks {} Monitor.demoWorld
      = (.json 409 "No endpoints check running", {}, Monitor.demoWorld) :=
  ⟨by rfl,
   ((scheduler_control_surface Monitor.demoEnv).1 [.start, .start, .stop, .stop, .start] {}
      Monitor.demoWorld (by rfl)).2,
   by decide,
   (scheduler_control_surface Monitor.demoEnv).2.2.2.2 {} Monitor.demoWorld rfl⟩

end Handlers

namespace Websocket

/-! ## Claims on the hub -/

theorem handleRegister_clients (client : Client) (h : Hub) (e : String) :
    (handleRegister client h).clients e
      = if e = client.entityID then
          some (insert client.conn ((h.clients client.entityID).getD ∅))
        else h.clients e := rfl

theorem handleUnregister_clients (client : Client) (h : Hub) (e : String) :
    (handleUnregister client h).clients e
      = match h.clients client.entityID with
        | none => h.clients e
        | some clients =>
          if e = client.entityID then
            (if (clients.erase client.conn).card = 0 then none
             else some (clients.erase client.conn))
          else h.clients e := by
  unfold handleUnregister
  cases h.clients client.entityID with
  | none => rfl
  | some clients =>
    simp only
    split <;> split <;> simp_all

theorem subscribed_register (client : Client) (h : Hub) (e : String) (c : Conn) :
    subscribed (handleRegister client h) e c
      = if e = client.entityID ∧ c = client.conn then true else subscribed h e c := by
  unfold subscribed
  rw [handleRegister_clients]
  by_cases he : e = client.entityID
  · subst he
    by_cases hc : c = client.conn
    · simp [hc]
    · cases hcl : h.clients client.entityID <;> simp [hc, hcl]
  · simp [he]

theorem subscribed_unregister (client : Client) (h : Hub) (e : String) (c : Conn) :
    subscribed (handleUnregister client h) e c
      = if e = client.entityID ∧ c = client.conn then false else subscribed h e c := by
  unfold subscribed
  rw [handleUnregister_clients]
  by_cases he : e = client.entityID
  · subst he
    cases hcl : h.clients client.entityID with
    | none => simp [hcl]
    | some s =>
      by_cases hc : c = client.conn
      · subst hc
        by_cases hE : s.erase client.conn = ∅ <;> simp [hE]
      · by_cases hcard : (s.erase client.conn).card = 0
        · have hempty : s.erase client.conn = ∅ := Finset.card_eq_zero.mp hcard
          have hnot : c ∉ s := by
            intro hmem
            have : c ∈ s.erase client.conn := Finset.mem_erase.mpr ⟨hc, hmem⟩
            rw [hempty] at this
            exact absurd this (Finset.not_mem_empty c)
          simp [hcard, hc, hnot]
        · simp [hcard, hc]
  · cases hcl : h.clients client.entityID <;> simp [he]

theorem NoEmptySet_register (client : Client) (h : Hub) (hne : NoEmptySet h) :
    NoEmptySet (handleRegister client h) := by
  intro e s hs
  rw [handleRegister_clients] at hs
  by_cases he : e = client.entityID
  · simp only [he, if_true, Option.some.injEq] at hs
    subst hs
    exact Finset.insert_nonempty _ _
  · simp only [he, if_false] at hs
    exact hne e s hs

theorem NoEmptySet_unregister (client : Client) (h : Hub) (hne : NoEmptySet h) :
    NoEmptySet (handleUnregister client h) := by
  intro e s hs
  rw [handleUnregister_clients] at hs
  cases hcl : h.clients client.entityID with
  | none =>
    rw [hcl] at hs
    exact hne e s hs
  | some s0 =>
    rw [hcl] at hs
    by_cases he : e = client.entityID
    · simp only [he, if_true] at hs
      by_cases hcard : (s0.erase client.conn).card = 0
      · simp [hcard] at hs
      · simp only [hcard, if_false, Option.some.injEq] at hs
        subst hs
        exact Finset.card_pos.mp (Nat.pos_of_ne_zero hcard)
    · simp only [he, if_false] at hs
      exact hne e s hs

/-- Unsubscribing a connection that is not subscribed changes no entry of the map. -/
theorem handleUnregister_not_subscribed (client : Client) (h : Hub) (hne : NoEmptySet h)
    (hnot : subscribed h client.entityID client.conn = false) :
    (handleUnregister client h).clients = h.clients := by
  funext e
  rw [handleUnregister_clients]
  cases hcl : h.clients client.entityID with
  | none => rfl
  | some s =>
    simp only
    by_cases he : e = client.entityID
    · have hmem : client.conn ∉ s := by
        simpa [subscribed, hcl] using hnot
      have herase : s.erase client.conn = s := Finset.erase_eq_of_not_mem hmem
      have hpos : s.card ≠ 0 := by
        have := hne _ _ hcl
        exact Nat.pos_iff_ne_zero.mp (Finset.card_pos.mpr this)
      simp [he, herase, hpos, hcl]
    · simp [he]

theorem handleBroadcast_clients_writeAll (env : Env) (entityID data : String) :
    ∀ (order : List Conn) (h : Hub), (writeAll env entityID data order h).clients = h.clients := by
  intro order
  induction order with
  | nil => intro h; rfl
  | cons c rest ih =>
    intro h
    rw [writeAll]
    simp only
    split
    · rfl
    · rw [ih]

theorem handleBroadcast_clients (env : Env) (m : Message) (h : Hub) :
    (handleBroadcast env m h).clients = h.clients := by
  unfold handleBroadcast
  split
  · rfl
  · split
    · rfl
    · rw [handleBroadcast_clients_writeAll]

theorem NoEmptySet_handle (env : Env) (e : Event) (h : Hub) (hne : NoEmptySet h) :
    NoEmptySet (handle env e h) := by
  unfold handle
  split
  · exact hne
  · cases e with
    | register client => exact NoEmptySet_register client h hne
    | unregister client => exact NoEmptySet_unregister client h hne
    | broadcast m =>
      intro e s hs
      simp only at hs
      rw [handleBroadcast_clients] at hs
      exact hne e s hs

theorem NoEmptySet_run (env : Env) :
    ∀ (events : List Event) (h : Hub), NoEmptySet h → NoEmptySet (run env events h) := by
  intro events
  induction events with
  | nil => intro h hne; exact hne
  | cons e rest ih => intro h hne; exact ih _ (NoEmptySet_handle env e h hne)

/-- C19: the subscriber map. Registering `c` under `e` makes `c` a member of the set of `e`
and changes no other membership. Unregistering makes `c` a non-member, changes no other
membership, and removes the key when its set becomes empty: from a map without empty sets it
gives a map without empty sets, and every hub reached from `NewHub` has none. Unregistering a
connection that is not subscribed leaves such a map as it is, and unregistering twice gives
the map unregistering once gives. -/
theorem subscriber_map (e : String) (c : Conn) (h : Hub) :
    (subscribed (handleRegister ⟨c, e⟩ h) e c = true ∧
      ∀ e1 c1, ¬(e1 = e ∧ c1 = c) →
        subscribed (handleRegister ⟨c, e⟩ h) e1 c1 = subscribed h e1 c1) ∧
    (subscribed (handleUnregister ⟨c, e⟩ h) e c = false ∧
      ∀ e1 c1, ¬(e1 = e ∧ c1 = c) →
        subscribed (handleUnregister ⟨c, e⟩ h) e1 c1 = subscribed h e1 c1) ∧
    (NoEmptySet h → NoEmptySet (handleRegister ⟨c, e⟩ h) ∧
      NoEmptySet (handleUnregister ⟨c, e⟩ h)) ∧
    (∀ (env : Env) (events : List Event), NoEmptySet (run env events NewHub)) ∧
    (NoEmptySet h → subscribed h e c = false →
      (handleUnregister ⟨c, e⟩ h).clients = h.clients) ∧
    (handleUnregister ⟨c, e⟩ (handleUnregister ⟨c, e⟩ h)).clients
      = (handleUnregister ⟨c, e⟩ h).clients := by
  refine ⟨⟨?_, ?_⟩, ⟨?_, ?_⟩, ?_, ?_, ?_, ?_⟩
  · rw [subscribed_register]
    simp
  · intro e1 c1 hne
    rw [subscribed_register]
    simp only [hne, if_false]
  · rw [subscribed_unregister]
    simp
  · intro e1 c1 hne
    rw [subscribed_unregister]
    simp only [hne, if_false]
  · intro hne
    exact ⟨NoEmptySet_register _ h hne, NoEmptySet_unregister _ h hne⟩
  · intro env events
    exact NoEmptySet_run env events NewHub (fun e s hs => by simp [NewHub] at hs)
  · intro hne hnot
    exact handleUnregister_not_subscribed ⟨c, e⟩ h hne hnot
  · funext e1
    have hg := handleUnregister_clients ⟨c, e⟩ h
    rw [handleUnregister_clients ⟨c, e⟩ (handleUnregister ⟨c, e⟩ h) e1]
    simp only at hg ⊢
    cases hcl : h.clients e with
    | none =>
      have hkey : (handleUnregister ⟨c, e⟩ h).clients e = none := by rw [hg, hcl]
      simp [hkey]
    | some s =>
      by_cases hE : s.erase c = ∅
      · have hkey : (handleUnregister ⟨c, e⟩ h).clients e = none := by
          rw [hg, hcl]
          simp [hE]
        simp [hkey]
      · have hkey : (handleUnregister ⟨c, e⟩ h).clients e = some (s.erase c) := by
          rw [hg, hcl]
          simp [hE]
        rw [hkey]
        by_cases he : e1 = e
        · subst he
          simp [hkey, hE, Finset.erase_eq_of_not_mem (Finset.not_mem_erase c s)]
        · simp [he]

theorem subscriber_map_witness :
    NoEmptySet demoHub ∧ subscribed demoHub "run-1" 4 = false ∧
    (handleUnregister ⟨4, "run-1"⟩ demoHub).clients = demoHub.clients ∧
    subscribed (handleUnregister ⟨1, "run-1"⟩ demoHub) "run-1" 1 = false ∧
    subscribed (handleUnregister ⟨1, "run-1"⟩ demoHub) "run-1" 2 = true :=
  ⟨(subscriber_map "run-1" 4 demoHub).2.2.2.1 _ _,
   by decide,
   (subscriber_map "run-1" 4 demoHub).2.2.2.2.1
     ((subscriber_map "run-1" 4 demoHub).2.2.2.1 _ _) (by decide),
   (subscriber_map "run-1" 1 demoHub).2.1.1,
   by decide⟩

theorem writeAll_ok (env : Env) (entityID data : String) :
    ∀ (order : List Conn) (h : Hub), (∀ n c, c ∈ order → env.writeError n c data = none) →
      (writeAll env entityID data order h).trace
        = h.trace ++ order.map (fun c => Action.write c data true) ∧
      (writeAll env entityID data order h).blockedOn = h.blockedOn := by
  intro order
  induction order with
  | nil => intro h _; simp [writeAll]
  | cons c rest ih =>
    intro h hok
    have hrest : ∀ n c, c ∈ rest → env.writeError n c data = none :=
      fun n x hx => hok n x (List.mem_cons_of_mem _ hx)
    rw [writeAll]
    simp only [hok _ c (List.mem_cons_self _ _), Option.isNone_none]
    rw [(ih _ hrest).1, (ih _ hrest).2]
    simp

/-- C17: a broadcast handled by the running hub loop. With no entry for the message's ID the
hub stays as it is: nothing is written, the map is unchanged. With an entry, a message that
serialises, a range loop that visits each connection of the set once, and every write to a
connection of the set succeeding: the writes made are one per visited connection, each with
the one serialised form of the message; so each connection subscribed under the ID is written
to exactly once, no other connection is written to, the map is unchanged and the loop is not
stuck. -/
theorem handleBroadcast_delivery (env : Env) (m : Message) (h : Hub)
    (hrun : h.blockedOn = none) :
    (h.clients m.ID = none → handle env (.broadcast m) h = h) ∧
    (∀ (s : Finset Conn) (data : String), h.clients m.ID = some s → env.marshal m = .ok data →
      (∀ n c, c ∈ s → env.writeError n c data = none) →
      (env.rangeOrder h.ranges s).Nodup → (∀ c, c ∈ env.rangeOrder h.ranges s ↔ c ∈ s) →
      (handle env (.broadcast m) h).trace
        = h.trace ++ (env.rangeOrder h.ranges s).map (fun c => Action.write c data true) ∧
      (∀ c, c ∈ s → writesTo c ((env.rangeOrder h.ranges s).map
          (fun c => Action.write c data true)) = [.write c data true]) ∧
      (∀ c, c ∉ s → writesTo c ((env.rangeOrder h.ranges s).map
          (fun c => Action.write c data true)) = []) ∧
      (handle env (.broadcast m) h).clients = h.clients ∧
      (handle env (.broadcast m) h).blockedOn = none) := by
  have hhandle : handle env (.broadcast m) h = handleBroadcast env m h := by
    simp [handle, hrun]
  rw [hhandle]
  constructor
  · intro hnone
    simp [handleBroadcast, hnone]
  · intro s data hs hm hok hnodup hmem
    have hfilter : ∀ (order : List Conn) (c : Conn),
        writesTo c (order.map (fun c => Action.write c data true))
          = (order.filter (fun x => x == c)).map (fun c => Action.write c data true) := by
      intro order c
      induction order with
      | nil => rfl
      | cons x rest ih =>
        simp only [writesTo, List.map_cons, List.filter_cons] at ih ⊢
        by_cases hx : (x == c) = true
        · simp only [hx, if_true, List.map_cons, ih]
        · simp only [hx, Bool.false_eq_true, if_false, ih]
    have hok1 : ∀ n c, c ∈ env.rangeOrder h.ranges s → env.writeError n c data = none :=
      fun n c hc => hok n c ((hmem c).1 hc)
    refine ⟨?_, ?_, ?_, handleBroadcast_clients env m h, ?_⟩
    · simp only [handleBroadcast, hs, hm]
      exact (writeAll_ok env m.ID data _ _ hok1).1
    · intro c hc
      rw [hfilter]
      have hcount : (env.rangeOrder h.ranges s).count c = 1 :=
        List.count_eq_one_of_mem hnodup ((hmem c).2 hc)
      have : (env.rangeOrder h.ranges s).filter (fun x => x == c) = [c] := by
        rw [List.filter_beq, hcount]
        rfl
      rw [this]
      rfl
    · intro c hc
      rw [hfilter]
      have : (env.rangeOrder h.ranges s).filter (fun x => x == c) = [] := by
        rw [List.filter_eq_nil_iff]
        intro x hx hxc
        have : x = c := by simpa using hxc
        exact hc ((hmem c).1 (this ▸ hx))
      rw [this]
      rfl
    · simp only [handleBroadcast, hs, hm]
      rw [(writeAll_ok env m.ID data _ _ hok1).2]
      exact hrun

theorem handleBroadcast_delivery_witness :
    demoHubSound.blockedOn = none ∧
    demoHubSound.clients demoMessage.ID = some (insert 4 (insert 2 ∅)) ∧
    (demoEnv [4, 3, 2]).marshal demoMessage = .ok "status run-1 running" ∧
    (demoEnv [4, 3, 2]).rangeOrder demoHubSound.ranges (insert 4 (insert 2 ∅)) = [4, 2] ∧
    (handle (demoEnv [4, 3, 2]) (.broadcast demoMessage) demoHubSound).trace
      = demoHubSound.trace ++ ((demoEnv [4, 3, 2]).rangeOrder demoHubSound.ranges
          (insert 4 (insert 2 ∅))).map (fun c => Action.write c "status run-1 running" true) ∧
    (handle (demoEnv [4, 3, 2]) (.broadcast demoMessage) demoHubSound).blockedOn = none :=
  ⟨by rfl, by rfl, by rfl, by decide,
   ((handleBroadcast_delivery (demoEnv [4, 3, 2]) demoMessage demoHubSound (by rfl)).2
      (insert 4 (insert 2 ∅)) "status run-1 running" (by rfl) (by rfl)
      (fun n c hc => by
        have hne : c ≠ 1 := by
          intro h1
          subst h1
          exact absurd hc (by decide)
        simp [demoEnv, hne])
      (by decide) (fun c => by simp [demoEnv])).1,
   ((handleBroadcast_delivery (demoEnv [4, 3, 2]) demoMessage demoHubSound (by rfl)).2
      (insert 4 (insert 2 ∅)) "status run-1 running" (by rfl) (by rfl)
      (fun n c hc => by
        have hne : c ≠ 1 := by
          intro h1
          subst h1
          exact absurd hc (by decide)
        simp [demoEnv, hne])
      (by decide) (fun c => by simp [demoEnv])).2.2.2.2⟩

/-- A hub loop that is stuck in its send handles no further event. -/
theorem run_blocked (env : Env) :
    ∀ (events : List Event) (h : Hub), h.blockedOn.isSome = true → run env events h = h := by
  intro events
  induction events with
  | nil => intro h _; rfl
  | cons e rest ih =>
    intro h hb
    have : handle env e h = h := by simp [handle, hb]
    rw [run, this]
    exact ih h hb

/-- A failed write leaves the loop stuck in its send on `h.unregister`, at the first
connection whose write fails; the connections after it in the visit are not written to. -/
theorem writeAll_failure (env : Env) (entityID data : String) (before after : List Conn)
    (conn : Conn) (h : Hub)
    (hbefore : ∀ i, i < before.length →
      env.writeError (h.writes + i) (before.getD i 0) data = none)
    (hfail : (env.writeError (h.writes + before.length) conn data).isSome = true) :
    (writeAll env entityID data (before ++ conn :: after) h).blockedOn
      = some { conn := conn, entityID := entityID } ∧
    (writeAll env entityID data (before ++ conn :: after) h).trace
      = h.trace ++ before.map (fun c => Action.write c data true) ++ [.write conn data false] ∧
    (writeAll env entityID data (before ++ conn :: after) h).clients = h.clients := by
  refine ⟨?_, ?_, handleBroadcast_clients_writeAll env entityID data _ h⟩
  · induction before generalizing h with
    | nil =>
      obtain ⟨e, he⟩ := Option.isSome_iff_exists.mp hfail
      simp only [List.length_nil, add_zero] at he
      simp [writeAll, he]
    | cons b rest ih =>
      have hb := hbefore 0 (by simp)
      simp only [add_zero, List.getD_cons_zero] at hb
      rw [List.cons_append, writeAll]
      simp only [hb, Option.isNone_none]
      apply ih
      · intro i hi
        have := hbefore (i + 1) (by simpa using hi)
        simpa [Nat.add_assoc, Nat.add_comm 1 i] using this
      · simpa [Nat.add_assoc, Nat.add_comm 1] using hfail
  · induction before generalizing h with
    | nil =>
      obtain ⟨e, he⟩ := Option.isSome_iff_exists.mp hfail
      simp only [List.length_nil, add_zero] at he
      simp [writeAll, he]
    | cons b rest ih =>
      have hb := hbefore 0 (by simp)
      simp only [add_zero, List.getD_cons_zero] at hb
      rw [List.cons_append, writeAll]
      simp only [hb, Option.isNone_none]
      rw [ih]
      · simp
      · intro i hi
        have := hbefore (i + 1) (by simpa using hi)
        simpa [Nat.add_assoc, Nat.add_comm 1 i] using this
      · simpa [Nat.add_assoc, Nat.add_comm 1] using hfail

/-- C18, the code at a hub with connections `1` and `2` under `run-1` when the write to `1`
fails. Visiting `1` first: the loop is stuck in its send on `h.unregister`, connection `1` is
still subscribed, connection `2` was not written to, and the events that arrive later (an
unregister, a register, a broadcast) change nothing. Visiting `2` first: connection `2` gets
the message, and the loop is stuck all the same, with connection `1` still subscribed. -/
theorem handleBroadcast_write_failure_blocks :
    (handle (demoEnv [1, 2, 3]) (.broadcast demoMessage) demoHub).blockedOn
      = some ⟨1, "run-1"⟩ ∧
    (handle (demoEnv [1, 2, 3]) (.broadcast demoMessage) demoHub).trace
      = [.write 1 "status run-1 running" false] ∧
    subscribed (handle (demoEnv [1, 2, 3]) (.broadcast demoMessage) demoHub) "run-1" 1 = true ∧
    subscribed (handle (demoEnv [1, 2, 3]) (.broadcast demoMessage) demoHub) "run-1" 2 = true ∧
    (run (demoEnv [1, 2, 3])
        [.unregister ⟨1, "run-1"⟩, .register ⟨4, "run-1"⟩, .broadcast demoMessage]
        (handle (demoEnv [1, 2, 3]) (.broadcast demoMessage) demoHub)).trace
      = [.write 1 "status run-1 running" false] ∧
    subscribed (run (demoEnv [1, 2, 3])
        [.unregister ⟨1, "run-1"⟩, .register ⟨4, "run-1"⟩, .broadcast demoMessage]
        (handle (demoEnv [1, 2, 3]) (.broadcast demoMessage) demoHub)) "run-1" 4 = false ∧
    (handle (demoEnv [3, 2, 1]) (.broadcast demoMessage) demoHub).trace
      = [.write 2 "status run-1 running" true, .write 1 "status run-1 running" false] ∧
    (handle (demoEnv [3, 2, 1]) (.broadcast demoMessage) demoHub).blockedOn
      = some ⟨1, "run-1"⟩ ∧
    subscribed (handle (demoEnv [3, 2, 1]) (.broadcast demoMessage) demoHub) "run-1" 1 = true := by
  refine ⟨by decide, by decide, by decide, by decide, by decide, by decide, by decide,
    by decide, by decide⟩

end Websocket
